import Mathlib

/-!
# BavJournal backend (`backend/server.js`): a shallow embedding

The REST backend is embedded as pure functions over an explicit store
(the `User` collection, the `JournalEntry` collection and the files on disk).
Each Express handler becomes a function returning the HTTP response together
with the store it leaves behind.  Library calls whose code is not part of the
repository (`bcrypt`, `jsonwebtoken`, `path.join`) are parameters, collected in
`Libs`; what a request draws from its surroundings (`Date.now()`, the fresh
`ObjectId`, the salt) is collected in `Ambient`.
-/

namespace BavJournal

/-! ## JavaScript strings -/

/-- A JavaScript string, as its sequence of UTF-16 code units; `length` is
the JavaScript `.length`. -/
abbrev JSString := List Nat

/-- UTF-16 code units of one Unicode character. -/
def utf16 (c : Char) : List Nat :=
  if c.toNat < 65536 then [c.toNat]
  else [55296 + (c.toNat - 65536) / 1024, 56320 + (c.toNat - 65536) % 1024]

/-- The JavaScript string denoted by a literal. -/
def js (s : String) : JSString := s.data.flatMap utf16

/-- Code units that `String.prototype.trim` strips (ECMAScript WhiteSpace and
LineTerminator). -/
def isWhiteSpace (c : Nat) : Bool :=
  c == 9 || c == 10 || c == 11 || c == 12 || c == 13 || c == 32 || c == 160 ||
  c == 5760 || (8192 ≤ c && c ≤ 8202) || c == 8232 || c == 8233 || c == 8239 ||
  c == 8287 || c == 12288 || c == 65279

/-- `s.trim()`. -/
def trim (s : JSString) : JSString :=
  ((s.dropWhile isWhiteSpace).reverse.dropWhile isWhiteSpace).reverse

/-- `s.replace(pat, repl)` for a string pattern: the first occurrence of
`pat` in `s` is replaced, the rest of `s` is kept. -/
def replace (pat repl : JSString) : JSString → JSString
  | [] => if pat = [] then repl else []
  | c :: cs =>
    if pat.isPrefixOf (c :: cs) then repl ++ (c :: cs).drop pat.length
    else c :: replace pat repl cs

/-- `s.startsWith(pat)`. -/
def startsWith (s pat : JSString) : Bool := pat.isPrefixOf s

/-- A body field of a JSON request is a string or absent; JavaScript
truthiness of such a value: present and not the empty string. -/
def truthy : Option JSString → Bool
  | some (_ :: _) => true
  | _ => false

/-! ## Data model (the two Mongoose schemas) -/

/-- A MongoDB `ObjectId`. -/
abbrev ObjectId := Nat

/-- A `Date`, in milliseconds since the epoch. -/
abbrev Date := Nat

/-- Document of `UserSchema`. -/
structure User where
  _id : ObjectId
  username : JSString
  password : JSString
  displayName : JSString
  email : Option JSString
  isActive : Bool
  createdAt : Date
deriving DecidableEq, Repr

/-- Sub-document of `JournalEntrySchema.comments`. -/
structure Comment where
  _id : ObjectId
  userId : ObjectId
  text : JSString
  timestamp : Date
deriving DecidableEq, Repr

/-- Document of `JournalEntrySchema`. -/
structure JournalEntry where
  _id : ObjectId
  userId : ObjectId
  type : JSString
  content : JSString
  timestamp : Date
  likes : List ObjectId
  comments : List Comment
deriving DecidableEq, Repr

/-- The database collections and the files present on disk (by path). -/
structure Store where
  users : List User
  entries : List JournalEntry
  files : List JSString
deriving DecidableEq, Repr

/-- Library functions used by the server whose code is outside the
repository. `hash p salt` is `bcrypt.hash(p, 12)` with the salt it drew,
`compare` is `bcrypt.compare`, `sign userId now` is
`jwt.sign(\x7buserId\x7d, JWT_SECRET, \x7bexpiresIn: "7d"\x7d)` issued at `now`,
`verify token now` is `jwt.verify(token, JWT_SECRET)` evaluated at `now`
(`none` when it throws), `pathJoin` is `path.join`. -/
structure Libs where
  hash : JSString → Nat → JSString
  compare : JSString → JSString → Bool
  sign : ObjectId → Date → JSString
  verify : JSString → Date → Option ObjectId
  pathJoin : JSString → JSString → JSString

/-- What one request draws from its surroundings: the clock, the `ObjectId`
generated for a new document, the salt of `bcrypt.hash`, and `__dirname`. -/
structure Ambient where
  now : Date
  newId : ObjectId
  salt : Nat
  dirname : JSString

/-! ## Responses -/

/-- The `user` object of the register and login responses. -/
structure UserInfo where
  id : ObjectId
  username : JSString
  displayName : JSString
  email : Option JSString
deriving DecidableEq, Repr

/-- Populated `userId` of an entry: `populate("userId", "username displayName")`. -/
structure AuthorRef where
  _id : ObjectId
  username : JSString
  displayName : JSString
deriving DecidableEq, Repr

/-- Populated `userId` of a comment: `populate("comments.userId", "displayName")`. -/
structure CommentAuthorRef where
  _id : ObjectId
  displayName : JSString
deriving DecidableEq, Repr

/-- A comment with its author populated (`none`: no such user). -/
structure CommentView where
  _id : ObjectId
  userId : Option CommentAuthorRef
  text : JSString
  timestamp : Date
deriving DecidableEq, Repr

/-- An entry as `GET /api/entries` returns it. -/
structure EntryView where
  _id : ObjectId
  userId : Option AuthorRef
  type : JSString
  content : JSString
  timestamp : Date
  likes : List ObjectId
  comments : List CommentView
deriving DecidableEq, Repr

/-- An entry as the add-comment handler returns it: `comments.userId`
populated, the entry's own `userId` left as stored. -/
structure CommentedEntry where
  _id : ObjectId
  userId : ObjectId
  type : JSString
  content : JSString
  timestamp : Date
  likes : List ObjectId
  comments : List CommentView
deriving DecidableEq, Repr

/-- An entry as the create handler returns it: `userId` populated, the
comments as stored. -/
structure CreatedEntry where
  _id : ObjectId
  userId : Option AuthorRef
  type : JSString
  content : JSString
  timestamp : Date
  likes : List ObjectId
  comments : List Comment
deriving DecidableEq, Repr

/-- The object `GET /api/user` returns. -/
structure Profile where
  id : ObjectId
  username : JSString
  displayName : JSString
deriving DecidableEq, Repr

/-- Fields on which a unique index can report a duplicate key. -/
inductive KeyPattern where
  | _id
  | username
  | email
deriving DecidableEq, Repr

/-- Errors thrown by `save()` on a new document: a `ValidationError` of
mongoose, or the duplicate-key error (code 11000) of the driver. -/
inductive SaveError where
  | validation
  | duplicateKey (keyPattern : KeyPattern)
deriving DecidableEq, Repr

/-- JSON bodies the handlers send. `thrown e` is `\x7b error: error.message \x7d`
for an error `e` that `save()` threw: the text is the one mongoose or the
driver wrote for that error (it names the model, the paths and the reasons)
and is not spelled out here. -/
inductive Body where
  | error (error : String)
  | thrown (error : SaveError)
  | message (message : String)
  | session (message : Option String) (token : JSString) (user : UserInfo)
  | entry (entry : JournalEntry)
  | entries (entries : List EntryView)
  | commented (entry : CommentedEntry)
  | created (entry : CreatedEntry)
  | profile (user : Profile)
deriving DecidableEq, Repr

/-- An HTTP response: status and JSON body. -/
structure Response where
  status : Nat
  body : Body
deriving DecidableEq, Repr

/-! ## Collection operations -/

/-- `JournalEntry.findById(id)`. -/
def JournalEntry.findById (entries : List JournalEntry) (id : ObjectId) : Option JournalEntry :=
  entries.find? (fun e => e._id == id)

/-- `entry.save()` for a loaded document: the stored document with the same
`_id` is updated. -/
def JournalEntry.save (entry : JournalEntry) : List JournalEntry → List JournalEntry
  | [] => []
  | x :: xs => if x._id = entry._id then entry :: xs else x :: JournalEntry.save entry xs

/-- `User.findById(id)`. -/
def User.findById (users : List User) (id : ObjectId) : Option User :=
  users.find? (fun u => u._id == id)

/-- `User.findOne(filter)`: the first document, in the natural (insertion)
order of the collection, that satisfies the filter. -/
def User.findOne (users : List User) (filter : User → Bool) : Option User :=
  users.find? filter

/-- `user.save()` for a new document: the `required` validators of
`UserSchema` run, then the document is inserted at the end of the collection
unless a unique index rejects it: `_id`, `username` (`unique: true`), and
`email` (sparse unique index: only documents that have an email are indexed). -/
def User.save (user : User) (users : List User) : Except SaveError (List User) :=
  if user.username = [] ∨ user.password = [] ∨ user.displayName = [] then
    .error .validation
  else if users.any (fun u => u._id == user._id) then
    .error (.duplicateKey ._id)
  else if users.any (fun u => u.username == user.username) then
    .error (.duplicateKey .username)
  else if user.email.isSome && users.any (fun u => u.email == user.email) then
    .error (.duplicateKey .email)
  else
    .ok (users ++ [user])

/-! ## Authentication middleware -/

/-- Outcome of a middleware: it calls `next()` with `req.user` set, or it
sends a response and the chain stops. -/
inductive AuthResult where
  | next (user : User)
  | respond (res : Response)
deriving DecidableEq, Repr

/-- The `auth` middleware; `authorization` is `req.header("Authorization")`
(`none` when the header is absent). A throwing `jwt.verify` lands in the
`catch` branch. -/
def auth (L : Libs) (a : Ambient) (s : Store) (authorization : Option JSString) : AuthResult :=
  let token := authorization.map (replace (js "Bearer ") [])
  if !truthy token then
    .respond ⟨401, .error "Access denied. No token provided."⟩
  else
    match L.verify (token.getD []) a.now with
    | none => .respond ⟨401, .error "Please authenticate."⟩
    | some userId =>
      match User.findById s.users userId with
      | none => .respond ⟨401, .error "Token is not valid."⟩
      | some user =>
        if !user.isActive then .respond ⟨401, .error "Token is not valid."⟩
        else .next user

/-- A route `app.METHOD(path, auth, handler)`: the handler runs only when
`auth` calls `next()`, with the user `auth` attached to the request. -/
def guarded (L : Libs) (a : Ambient) (s : Store) (authorization : Option JSString)
    (handler : User → Response × Store) : Response × Store :=
  match auth L a s authorization with
  | .next user => handler user
  | .respond res => (res, s)

/-! ## `POST /api/register` and `POST /api/login` -/

/-- JSON body of a register request. -/
structure RegisterBody where
  username : Option JSString
  password : Option JSString
  displayName : Option JSString
  email : Option JSString
deriving DecidableEq, Repr

/-- JSON body of a login request. -/
structure LoginBody where
  username : Option JSString
  password : Option JSString
deriving DecidableEq, Repr

/-- The register handler. -/
def postRegister (L : Libs) (a : Ambient) (s : Store) (body : RegisterBody) :
    Response × Store :=
  if !truthy body.username || !truthy body.password || !truthy body.displayName then
    (⟨400, .error "Please provide all required fields"⟩, s)
  else
    let username := body.username.getD []
    let password := body.password.getD []
    let displayName := body.displayName.getD []
    if password.length < 6 then
      (⟨400, .error "Password must be at least 6 characters long"⟩, s)
    else
      match User.findOne s.users (fun u => u.username == username) with
      | some _ => (⟨400, .error "Username already exists"⟩, s)
      | none =>
        let emailGiven := truthy body.email && trim (body.email.getD []) != []
        if emailGiven &&
            (User.findOne s.users
              (fun u => u.email == some (trim (body.email.getD [])))).isSome then
          (⟨400, .error "Email already exists"⟩, s)
        else
          let hashedPassword := L.hash password a.salt
          let user : User :=
            { _id := a.newId, username := username, password := hashedPassword,
              displayName := displayName,
              email := if emailGiven then some (trim (body.email.getD [])) else none,
              isActive := true, createdAt := a.now }
          match user.save s.users with
          | .error (.duplicateKey .username) =>
            (⟨400, .error "Username already exists"⟩, s)
          | .error (.duplicateKey .email) =>
            (⟨400, .error "Email already exists"⟩, s)
          | .error e => (⟨500, .thrown e⟩, s)
          | .ok users =>
            let token := L.sign user._id a.now
            (⟨201, .session (some "User created successfully") token
                ⟨user._id, user.username, user.displayName, user.email⟩⟩,
             { s with users := users })

/-- The login handler. -/
def postLogin (L : Libs) (a : Ambient) (s : Store) (body : LoginBody) : Response × Store :=
  if !truthy body.username || !truthy body.password then
    (⟨400, .error "Please provide username and password"⟩, s)
  else
    let username := body.username.getD []
    let password := body.password.getD []
    match User.findOne s.users
        (fun u => (u.username == username || u.email == some username) && u.isActive) with
    | none => (⟨400, .error "Invalid login credentials"⟩, s)
    | some user =>
      if !L.compare password user.password then
        (⟨400, .error "Invalid login credentials"⟩, s)
      else
        let token := L.sign user._id a.now
        (⟨200, .session none token
            ⟨user._id, user.username, user.displayName, user.email⟩⟩, s)

/-! ## `POST /api/entries/:id/like` -/

/-- The like handler, run for the authenticated `user` (`req.user`).
`entry.likes.includes` is the Mongoose array method, which compares
`ObjectId`s by value. -/
def postLike (s : Store) (user : User) (id : ObjectId) : Response × Store :=
  match JournalEntry.findById s.entries id with
  | none => (⟨404, .error "Entry not found"⟩, s)
  | some entry =>
    let alreadyLiked := entry.likes.contains user._id
    let entry :=
      if alreadyLiked then
        { entry with likes := entry.likes.filter (fun id => id != user._id) }
      else
        { entry with likes := entry.likes ++ [user._id] }
    (⟨200, .entry entry⟩, { s with entries := entry.save s.entries })

/-! ## `DELETE /api/entries/:id` -/

/-- `JournalEntry.findByIdAndDelete(id)`: the document with that `_id` is
removed from the collection. -/
def JournalEntry.findByIdAndDelete (entries : List JournalEntry) (id : ObjectId) :
    List JournalEntry :=
  entries.eraseP (fun e => e._id == id)

/-- The delete-entry handler, run for the authenticated `user`.
`fs.existsSync(p)` is membership of `p` in `files`, `fs.unlinkSync(p)`
removes `p` from them. -/
def deleteEntry (L : Libs) (a : Ambient) (s : Store) (user : User) (id : ObjectId) :
    Response × Store :=
  match JournalEntry.findById s.entries id with
  | none => (⟨404, .error "Entry not found"⟩, s)
  | some entry =>
    if entry.userId != user._id then
      (⟨403, .error "Not authorized to delete this entry"⟩, s)
    else
      let files :=
        if entry.type != js "text" && entry.content != [] then
          let filePath := L.pathJoin a.dirname entry.content
          if s.files.contains filePath then s.files.filter (fun f => f != filePath)
          else s.files
        else s.files
      (⟨200, .message "Entry deleted successfully"⟩,
       { s with files := files, entries := JournalEntry.findByIdAndDelete s.entries id })

/-! ## `GET /api/entries` -/

/-- Order of `.sort(\x7btimestamp: -1\x7d)`: newest first. -/
def newerFirst (x y : JournalEntry) : Prop := y.timestamp ≤ x.timestamp

instance newerFirstDecidable : DecidableRel newerFirst :=
  fun x y => inferInstanceAs (Decidable (y.timestamp ≤ x.timestamp))

instance newerFirst_total : IsTotal JournalEntry newerFirst :=
  ⟨fun x y => Nat.le_total y.timestamp x.timestamp⟩

instance newerFirst_trans : IsTrans JournalEntry newerFirst :=
  ⟨fun _ _ _ hxy hyz => Nat.le_trans hyz hxy⟩

/-- A comment with `comments.userId` populated, selecting `displayName`. -/
def populateComment (users : List User) (c : Comment) : CommentView :=
  { _id := c._id,
    userId := (User.findById users c.userId).map (fun u => ⟨u._id, u.displayName⟩),
    text := c.text, timestamp := c.timestamp }

/-- An entry with `userId` populated, selecting `username displayName`, and
its comments populated. -/
def populate (users : List User) (e : JournalEntry) : EntryView :=
  { _id := e._id,
    userId := (User.findById users e.userId).map (fun u => ⟨u._id, u.username, u.displayName⟩),
    type := e.type, content := e.content, timestamp := e.timestamp, likes := e.likes,
    comments := e.comments.map (populateComment users) }

/-- The list-all handler. -/
def getEntries (s : Store) (_user : User) : Response × Store :=
  (⟨200, .entries ((s.entries.insertionSort newerFirst).map (populate s.users))⟩, s)

/-! ## `POST /api/entries/:id/comment` and `DELETE /api/entries/:entryId/comments/:commentId` -/

/-- The add-comment handler, run for the authenticated `user`; `text` is
`req.body.text`. The pushed sub-document gets a generated `_id` and the
default `timestamp`. -/
def postComment (a : Ambient) (s : Store) (user : User) (id : ObjectId)
    (text : Option JSString) : Response × Store :=
  if !truthy text || trim (text.getD []) == [] then
    (⟨400, .error "Comment text is required"⟩, s)
  else
    match JournalEntry.findById s.entries id with
    | none => (⟨404, .error "Entry not found"⟩, s)
    | some entry =>
      let comment : Comment :=
        { _id := a.newId, userId := user._id, text := trim (text.getD []), timestamp := a.now }
      let entry := { entry with comments := entry.comments ++ [comment] }
      (⟨200, .commented
          { _id := entry._id, userId := entry.userId, type := entry.type,
            content := entry.content, timestamp := entry.timestamp, likes := entry.likes,
            comments := entry.comments.map (populateComment s.users) }⟩,
       { s with entries := entry.save s.entries })

/-- `array.findIndex(p)`: the index of the first element satisfying `p`
(`none` for the `-1` of JavaScript). -/
def findIndex {α : Type} (p : α → Bool) : List α → Option Nat
  | [] => none
  | x :: xs => if p x then some 0 else (findIndex p xs).map (fun i => i + 1)

/-- The delete-comment handler, run for the authenticated `user`.
`entry.comments.splice(commentIndex, 1)` is `eraseIdx`. Reading a property of
an undefined element throws, which the `catch` turns into a 500. -/
def deleteComment (s : Store) (user : User) (entryId commentId : ObjectId) :
    Response × Store :=
  match JournalEntry.findById s.entries entryId with
  | none => (⟨404, .error "Entry not found"⟩, s)
  | some entry =>
    match findIndex (fun comment => comment._id == commentId) entry.comments with
    | none => (⟨404, .error "Comment not found"⟩, s)
    | some commentIndex =>
      match entry.comments.get? commentIndex with
      | none => (⟨500, .error "Cannot read properties of undefined"⟩, s)
      | some comment =>
        if comment.userId != user._id && entry.userId != user._id then
          (⟨403, .error "Not authorized to delete this comment"⟩, s)
        else
          let entry := { entry with comments := entry.comments.eraseIdx commentIndex }
          (⟨200, .message "Comment deleted successfully"⟩,
           { s with entries := entry.save s.entries })

/-! ## `GET /api/user` -/

/-- The current-user handler. -/
def getUser (s : Store) (user : User) : Response × Store :=
  (⟨200, .profile ⟨user._id, user.username, user.displayName⟩⟩, s)

/-! ## Uploads (`multer`) and the error-handling middleware -/

/-- The file part of a multipart request, under the field name `file`. -/
structure UploadedFile where
  originalname : JSString
  mimetype : JSString
  size : Nat
deriving DecidableEq, Repr

/-- A JavaScript error object as the error middleware inspects it:
`error instanceof multer.MulterError`, `error.code`, `error.message`. -/
structure JSError where
  isMulterError : Bool
  code : Option String
  message : String
deriving DecidableEq, Repr

/-- The upload filter: `cb(null, true)` accepts, `cb(new Error(..), false)`
rejects with an ordinary error. -/
def fileFilter (file : UploadedFile) : Except JSError Bool :=
  if startsWith file.mimetype (js "image/") ||
      startsWith file.mimetype (js "video/") ||
      startsWith file.mimetype (js "audio/") then
    .ok true
  else
    .error ⟨false, none, "Only images, videos, and audio files are allowed!"⟩

/-- Value of `limits.fileSize`. -/
def fileSizeLimit : Nat := 20 * 1024 * 1024

/-- What an upload draws from its surroundings: `Math.round(Math.random() * 1e9)`,
the working directory against which `uploads/` is resolved, and `path.extname`. -/
structure UploadAmbient where
  random : Nat
  cwd : JSString
  extname : JSString → JSString

/-- Decimal digits of a non-negative integer, as string concatenation writes it. -/
def decimal (n : Nat) : JSString := (Nat.toDigits 10 n).map Char.toNat

/-- The `filename` callback of the disk storage. -/
def filename (a : Ambient) (ua : UploadAmbient) (file : UploadedFile) : JSString :=
  let uniqueSuffix := decimal a.now ++ js "-" ++ decimal ua.random
  uniqueSuffix ++ ua.extname file.originalname

/-- The field `req.file.filename` that `multer` leaves for the handler. -/
structure StoredFile where
  filename : JSString
deriving DecidableEq, Repr

/-- The middleware `upload.single("file")`. Without a file part it passes the
request on. With one, the filter runs first; an accepted file whose size
reaches `limits.fileSize` raises the `MulterError` `LIMIT_FILE_SIZE` and
nothing is kept (the stream is cut when the bytes read equal the limit, so a
file of exactly that size is refused too); a smaller file is written under
`uploads/` in the working directory. -/
def upload (L : Libs) (a : Ambient) (ua : UploadAmbient) (s : Store)
    (file : Option UploadedFile) : Except JSError (Option StoredFile × Store) :=
  match file with
  | none => .ok (none, s)
  | some f =>
    match fileFilter f with
    | .error err => .error err
    | .ok false => .ok (none, s)
    | .ok true =>
      if fileSizeLimit ≤ f.size then
        .error ⟨true, some "LIMIT_FILE_SIZE", "File too large"⟩
      else
        let name := filename a ua f
        .ok (some ⟨name⟩,
             { s with files := s.files ++ [L.pathJoin ua.cwd (js "/uploads/" ++ name)] })

/-- The error-handling middleware at the end of the chain. -/
def errorMiddleware (error : JSError) : Response :=
  if error.isMulterError && error.code == some "LIMIT_FILE_SIZE" then
    ⟨400, .error "File too large"⟩
  else
    ⟨500, .error error.message⟩

/-! ## `POST /api/entries` -/

/-- Text fields of a create-entry request. -/
structure EntryBody where
  type : Option JSString
  content : Option JSString
deriving DecidableEq, Repr

/-- Values of the `enum` of `JournalEntrySchema.type`. -/
def entryTypes : List JSString := [js "text", js "image", js "video", js "voice"]

/-- `entry.save()` for a new document: the validators of `JournalEntrySchema`
run (`type` required and in the enum, `content` required), then the document
is inserted at the end of the collection unless its `_id` exists. -/
def JournalEntry.create (entry : JournalEntry) (entries : List JournalEntry) :
    Except SaveError (List JournalEntry) :=
  if !entryTypes.contains entry.type || entry.content == [] then
    .error .validation
  else if entries.any (fun e => e._id == entry._id) then
    .error (.duplicateKey ._id)
  else
    .ok (entries ++ [entry])

/-- The create-entry handler, run for the authenticated `user` after the
upload middleware; `file` is `req.file`. An absent `content` fails the
`required` validator like the empty string. The response is the saved entry
with `userId` populated, selecting `username displayName`. -/
def postEntries (a : Ambient) (s : Store) (user : User) (body : EntryBody)
    (file : Option StoredFile) : Response × Store :=
  if !truthy body.type then
    (⟨400, .error "Type is required"⟩, s)
  else
    let type := body.type.getD []
    let finalContent :=
      match file with
      | some f => some (js "/uploads/" ++ f.filename)
      | none => body.content
    if file.isNone && type != js "text" then
      (⟨400, .error "File is required for this entry type"⟩, s)
    else
      let entry : JournalEntry :=
        { _id := a.newId, userId := user._id, type := type,
          content := finalContent.getD [], timestamp := a.now, likes := [], comments := [] }
      match entry.create s.entries with
      | .error e => (⟨500, .thrown e⟩, s)
      | .ok entries =>
        (⟨201, .created
            { _id := entry._id,
              userId := (User.findById s.users entry.userId).map
                (fun u => ⟨u._id, u.username, u.displayName⟩),
              type := entry.type, content := entry.content, timestamp := entry.timestamp,
              likes := entry.likes, comments := entry.comments }⟩,
         { s with entries := entries })

/-- The route `app.post("/api/entries", auth, upload.single("file"), handler)`:
an error raised by the upload goes to the error-handling middleware. -/
def postEntriesRoute (L : Libs) (a : Ambient) (ua : UploadAmbient) (s : Store)
    (authorization : Option JSString) (body : EntryBody) (file : Option UploadedFile) :
    Response × Store :=
  guarded L a s authorization (fun user =>
    match upload L a ua s file with
    | .error err => (errorMiddleware err, s)
    | .ok (stored, s2) => postEntries a s2 user body stored)

/-! ## Runs of the API -/

/-- A request to the API, with the surroundings in which it is served. -/
inductive Request where
  | register (a : Ambient) (body : RegisterBody)
  | login (a : Ambient) (body : LoginBody)
  | createEntry (a : Ambient) (ua : UploadAmbient) (authorization : Option JSString)
      (body : EntryBody) (file : Option UploadedFile)
  | listEntries (a : Ambient) (authorization : Option JSString)
  | like (a : Ambient) (authorization : Option JSString) (id : ObjectId)
  | comment (a : Ambient) (authorization : Option JSString) (id : ObjectId)
      (text : Option JSString)
  | deleteEntry (a : Ambient) (authorization : Option JSString) (id : ObjectId)
  | deleteComment (a : Ambient) (authorization : Option JSString)
      (entryId commentId : ObjectId)
  | currentUser (a : Ambient) (authorization : Option JSString)

/-- The routes of the server: every route but register and login runs behind
`auth`. -/
def handle (L : Libs) (s : Store) : Request → Response × Store
  | .register a body => postRegister L a s body
  | .login a body => postLogin L a s body
  | .createEntry a ua authorization body file =>
    postEntriesRoute L a ua s authorization body file
  | .listEntries a authorization => guarded L a s authorization (getEntries s)
  | .like a authorization id => guarded L a s authorization (fun user => postLike s user id)
  | .comment a authorization id text =>
    guarded L a s authorization (fun user => postComment a s user id text)
  | .deleteEntry a authorization id =>
    guarded L a s authorization (fun user => deleteEntry L a s user id)
  | .deleteComment a authorization entryId commentId =>
    guarded L a s authorization (fun user => deleteComment s user entryId commentId)
  | .currentUser a authorization => guarded L a s authorization (getUser s)

/-- The store after serving the requests one after the other. -/
def run (L : Libs) (s : Store) (requests : List Request) : Store :=
  requests.foldl (fun st r => (handle L st r).2) s

/-- The file behind an entry, for a server whose upload directory lies under
`root`: none for a `text` entry. -/
def backingFile (L : Libs) (root : JSString) (e : JournalEntry) : Option JSString :=
  if e.type = js "text" then none else some (L.pathJoin root e.content)

/-- The backing files of the stored entries, in order. -/
def fileKeys (L : Libs) (root : JSString) (s : Store) : List (Option JSString) :=
  s.entries.map (backingFile L root)

/-- The stored entries that are not text have their files present, and no two
of them share a file. -/
def FilesKept (L : Libs) (root : JSString) (s : Store) : Prop :=
  (∀ p, some p ∈ fileKeys L root s → p ∈ s.files) ∧
  (fileKeys L root s).Pairwise (fun k1 k2 => ∀ p, k1 = some p → k2 ≠ some p)

/-- A request served by a process that runs in `root` (its working directory
and its `__dirname`), whose upload, if any, draws a file name not yet present. -/
def admissible (L : Libs) (root : JSString) (s : Store) : Request → Bool
  | .createEntry a ua _ _ (some f) =>
    ua.cwd == root && !s.files.contains (L.pathJoin root (js "/uploads/" ++ filename a ua f))
  | .deleteEntry a _ _ => a.dirname == root
  | _ => true

/-- Every request of the run is admissible in the store it meets. -/
def admissibleRun (L : Libs) (root : JSString) : Store → List Request → Bool
  | _, [] => true
  | s, r :: rs => admissible L root s r && admissibleRun L root (handle L s r).2 rs

/-! ## The client: `AuthContext.js`, `JournalScreen.js`, `EntryCard.js` -/

/-- State of the client: `AsyncStorage` (`userToken`, `userData`), the default
`Authorization` header of `axios`, the state of `AuthContext` (`user`,
`token`), the navigation stack (its last route is shown), and the state of the
journal screen. `AsyncStorage` is taken to succeed. -/
structure Client where
  userToken : Option JSString
  userData : Option UserInfo
  authorization : Option JSString
  user : Option UserInfo
  token : Option JSString
  routes : List String
  entries : List EntryView
  isLoading : Bool
  newText : JSString
  newComment : JSString
  selectedEntry : Option ObjectId
  commentModalVisible : Bool
  alerts : List (JSString × JSString)
deriving DecidableEq, Repr

/-- How an `axios` call ends: resolved with data, or rejected with
`error.response?.status`. -/
inductive Reply (α : Type) where
  | ok (data : α)
  | error (status : Option Nat)
deriving DecidableEq, Repr

/-- `logout` of `AuthContext`. -/
def logout (c : Client) : Client :=
  { c with userToken := none, userData := none, authorization := none,
           token := none, user := none }

/-- `navigation.replace(name)`. -/
def navigationReplace (name : String) (c : Client) : Client :=
  { c with routes := c.routes.dropLast ++ [name] }

/-- `navigation.reset` to a stack holding the single route `name`. -/
def navigationReset (name : String) (c : Client) : Client :=
  { c with routes := [name] }

/-- `Alert.alert(title, message)` and the alerts of `AlertContext`. -/
def showAlert (title message : JSString) (c : Client) : Client :=
  { c with alerts := c.alerts ++ [(title, message)] }

/-- `fetchEntries`, given how `GET /api/entries` ends. -/
def fetchEntries (c : Client) (reply : Reply (List EntryView)) : Client :=
  let c := { c with isLoading := true }
  let c :=
    match reply with
    | .ok data => { c with entries := data }
    | .error status =>
      if status == some 401 then navigationReplace "Login" (logout c)
      else showAlert (js "Error") (js "Failed to load entries") c
  { c with isLoading := false }

/-- `addTextEntry`, given how the `POST` and the reload after it end. -/
def addTextEntry (c : Client) (reply : Reply Unit) (reload : Reply (List EntryView)) :
    Client :=
  if trim c.newText == [] then c
  else
    match reply with
    | .ok _ => fetchEntries { c with newText := [] } reload
    | .error status =>
      if status == some 401 then navigationReplace "Login" (logout c)
      else showAlert (js "Error") (js "Failed to add text entry") c

/-- The file part that `addMediaEntry` appends to the form: MIME type and name
chosen from the entry type. -/
def mediaFile (type : JSString) (now : Date) (size : Nat) : UploadedFile :=
  { originalname :=
      type ++ js "-" ++ decimal now ++ js "." ++
        (if type = js "image" then js "jpg" else if type = js "video" then js "mp4"
         else js "m4a"),
    mimetype :=
      if type = js "image" then js "image/jpeg"
      else if type = js "video" then js "video/mp4"
      else js "audio/m4a",
    size := size }

/-- `addMediaEntry`, given how the `POST` and the reload after it end. -/
def addMediaEntry (c : Client) (type : JSString) (reply : Reply Unit)
    (reload : Reply (List EntryView)) : Client :=
  match reply with
  | .ok _ => fetchEntries c reload
  | .error status =>
    if status == some 401 then navigationReplace "Login" (logout c)
    else showAlert (js "Error") (js "Failed to upload " ++ type) c

/-- The `Delete` button of the dialog that `deleteEntry` shows. -/
def deleteEntryPressed (c : Client) (reply : Reply Unit) (reload : Reply (List EntryView)) :
    Client :=
  match reply with
  | .ok _ =>
    fetchEntries (showAlert (js "Success") (js "Entry deleted successfully") c) reload
  | .error status =>
    if status == some 401 then navigationReset "Login" (logout c)
    else showAlert (js "Error") (js "Failed to delete entry") c

/-- `deleteComment` of the journal screen. -/
def deleteCommentPressed (c : Client) (reply : Reply Unit) (reload : Reply (List EntryView)) :
    Client :=
  match reply with
  | .ok _ =>
    fetchEntries (showAlert (js "Success") (js "Comment deleted successfully") c) reload
  | .error status =>
    if status == some 401 then navigationReplace "Login" (logout c)
    else showAlert (js "Error") (js "Failed to delete comment") c

/-- `handleLike`. -/
def handleLike (c : Client) (reply : Reply Unit) (reload : Reply (List EntryView)) : Client :=
  match reply with
  | .ok _ => fetchEntries c reload
  | .error status =>
    if status == some 401 then navigationReplace "Login" (logout c)
    else showAlert (js "Error") (js "Failed to like entry") c

/-- `submitComment`. -/
def submitComment (c : Client) (reply : Reply Unit) (reload : Reply (List EntryView)) :
    Client :=
  if trim c.newComment == [] || c.selectedEntry.isNone then c
  else
    match reply with
    | .ok _ =>
      fetchEntries { c with newComment := [], commentModalVisible := false } reload
    | .error status =>
      if status == some 401 then navigationReplace "Login" (logout c)
      else showAlert (js "Error") (js "Failed to add comment") c

/-- `formatTime` of the entry card, on a whole number of milliseconds.
JavaScript numbers are doubles: for a whole number below 2^53 each step here
(the division, `Math.floor`, `%`, and the decimal writing of the minutes) is
exact, and that is the range this definition covers. From 2^53 on, where the
division rounds and large minutes are written with an exponent, it gives no
value. -/
def formatTime (milliseconds : Nat) : Option JSString :=
  if milliseconds < 2 ^ 53 then
    let seconds := milliseconds / 1000
    let minutes := seconds / 60
    let remainingSeconds := seconds % 60
    some (decimal minutes ++ js ":" ++ (if remainingSeconds < 10 then js "0" else js "") ++
      decimal remainingSeconds)
  else
    none

/-! ## Projections of a user record, for the statements -/

/-- A user record with the password hash blanked. -/
def User.withoutPassword (u : User) : User := { u with password := [] }

/-- The three fields of a user that `populate` can select for list-all: id,
username and display name. -/
def User.card (u : User) : ObjectId × JSString × JSString := (u._id, u.username, u.displayName)

/-! ## A concrete instance of the libraries -/

/-- A small instance of the library functions, on which the handlers can be
evaluated: the hash is the password behind its salt, a token lists the user
id and the second it was issued, and it verifies for seven days. -/
def demoLibs : Libs where
  hash := fun p salt => salt :: p
  compare := fun p h => h != [] && h.drop 1 == p
  sign := fun userId now => [userId, now / 1000]
  verify := fun token now =>
    match token with
    | [userId, iat] => if now / 1000 < iat + 604800 then some userId else none
    | _ => none
  pathJoin := fun dir rel => dir ++ rel

/-! ## Sample data -/

/-- Surroundings of a sample request. -/
def sampleAmbient : Ambient := ⟨5000, 9, 17, js "/srv"⟩

/-- A registered user, as `demoLibs` stores her. -/
def alice : User := ⟨1, js "alice", 17 :: js "secret1", js "Alice", none, true, 0⟩

/-- A second registered user, with an email. -/
def bob : User :=
  ⟨2, js "bob", 17 :: js "hunter22", js "Bob", some (js "bob@example.com"), true, 0⟩

/-- An image entry of `alice`, liked by `bob`. -/
def photo : JournalEntry := ⟨7, 1, js "image", js "/uploads/1-2.jpg", 100, [2], []⟩

/-- A text entry of `bob`. -/
def note : JournalEntry := ⟨8, 2, js "text", js "hello", 200, [], []⟩

/-- A store with two users, two entries and the file behind `photo`. -/
def sampleStore : Store := ⟨[alice, bob], [photo, note], [js "/srv/uploads/1-2.jpg"]⟩

/-- The sample store with `alice` deactivated. -/
def dormantStore : Store :=
  { sampleStore with users := [{ alice with isActive := false }, bob] }

/-- The empty store. -/
def emptyStore : Store := ⟨[], [], []⟩

/-- Surroundings of the `n`-th request of a run: second `n`, fresh id `n`. -/
def ambientAt (n : Nat) : Ambient := ⟨1000 * n, n, 17, js "/srv"⟩

/-- The store after `bob` registers with the email `alice`. -/
def shadowStore : Store :=
  (postRegister demoLibs (ambientAt 1) emptyStore
    ⟨some (js "bob"), some (js "hunter22"), some (js "Bob"), some (js "alice")⟩).2

/-- The store after `alice` (password `secret1`) and then `bob` (same password,
email `alice`) register, and `alice` is deactivated. -/
def deactivatedStore : Store :=
  let s1 := (postRegister demoLibs (ambientAt 1) emptyStore
    ⟨some (js "alice"), some (js "secret1"), some (js "Alice"), none⟩).2
  let s2 := (postRegister demoLibs (ambientAt 2) s1
    ⟨some (js "bob"), some (js "secret1"), some (js "Bob"), some (js "alice")⟩).2
  let deactivate := fun (u : User) =>
    if u.username = js "alice" then { u with isActive := false } else u
  { s2 with users := s2.users.map deactivate }

/-- Surroundings of a sample upload. -/
def sampleUpload : UploadAmbient := ⟨42, js "/srv", fun name => name.drop (name.length - 4)⟩

/-- The header with which `alice` authenticates under `demoLibs`. -/
def aliceHeader : Option JSString := some (js "Bearer " ++ demoLibs.sign 1 0)

/-- A comment of `bob`. -/
def hello : Comment := ⟨31, 2, js "hi", 300⟩

/-- A comment of `alice`. -/
def thanks : Comment := ⟨32, 1, js "thanks", 400⟩

/-- An entry of `alice` with two comments. -/
def diary : JournalEntry := ⟨9, 1, js "text", js "today", 150, [], [hello, thanks]⟩

/-- The sample store with `diary` added. -/
def chatStore : Store := { sampleStore with entries := [photo, note, diary] }

/-- The sample store with other password hashes. -/
def rehashedStore : Store :=
  { sampleStore with
    users := [{ alice with password := js "x" }, { bob with password := js "y" }] }

/-- The sample store with `alice` under another username. -/
def renamedStore : Store :=
  { sampleStore with users := [{ alice with username := js "alicia" }, bob] }

/-- Two uploads that draw the same file name, then the first entry deleted:
`alice` registers, posts two images in the same millisecond with the same
random number, and deletes the first. -/
def collidingRun : List Request :=
  [ .register (ambientAt 1) ⟨some (js "alice"), some (js "secret1"), some (js "Alice"), none⟩,
    .createEntry ⟨5000, 10, 17, js "/srv"⟩ sampleUpload aliceHeader ⟨some (js "image"), none⟩
      (some ⟨js "a.jpg", js "image/jpeg", 10⟩),
    .createEntry ⟨5000, 11, 17, js "/srv"⟩ sampleUpload aliceHeader ⟨some (js "image"), none⟩
      (some ⟨js "b.jpg", js "image/jpeg", 20⟩),
    .deleteEntry ⟨6000, 12, 17, js "/srv"⟩ aliceHeader 10 ]

/-- The same run with distinct file names. -/
def distinctRun : List Request :=
  [ .register (ambientAt 1) ⟨some (js "alice"), some (js "secret1"), some (js "Alice"), none⟩,
    .createEntry ⟨5000, 10, 17, js "/srv"⟩ sampleUpload aliceHeader ⟨some (js "image"), none⟩
      (some ⟨js "a.jpg", js "image/jpeg", 10⟩),
    .createEntry ⟨5001, 11, 17, js "/srv"⟩ sampleUpload aliceHeader ⟨some (js "image"), none⟩
      (some ⟨js "b.jpg", js "image/jpeg", 20⟩),
    .deleteEntry ⟨6000, 12, 17, js "/srv"⟩ aliceHeader 10 ]

/-- A run in which `alice` registers, posts an image, and presses like three
times on it. -/
def likingRun : List Request :=
  [ .register (ambientAt 1) ⟨some (js "alice"), some (js "secret1"), some (js "Alice"), none⟩,
    .createEntry ⟨5000, 10, 17, js "/srv"⟩ sampleUpload aliceHeader ⟨some (js "image"), none⟩
      (some ⟨js "a.jpg", js "image/jpeg", 10⟩),
    .like ⟨6000, 11, 17, js "/srv"⟩ aliceHeader 10,
    .like ⟨6001, 12, 17, js "/srv"⟩ aliceHeader 10,
    .like ⟨6002, 13, 17, js "/srv"⟩ aliceHeader 10 ]

/-- The server started from the repository root (`node backend/server.js`):
uploads are written under `/repo`, while `__dirname` is `/repo/backend`.
`alice` registers and posts an image. -/
def rootUploadRun : List Request :=
  [ .register ⟨1000, 1, 17, js "/repo/backend"⟩
      ⟨some (js "alice"), some (js "secret1"), some (js "Alice"), none⟩,
    .createEntry ⟨5000, 10, 17, js "/repo/backend"⟩
      ⟨42, js "/repo", fun name => name.drop (name.length - 4)⟩ aliceHeader
      ⟨some (js "image"), none⟩ (some ⟨js "a.jpg", js "image/jpeg", 10⟩) ]

/-- A logged-in client on the journal screen, about to post a text and a
comment. -/
def sampleClient : Client :=
  { userToken := some (demoLibs.sign 1 0),
    userData := some ⟨1, js "alice", js "Alice", none⟩,
    authorization := some (js "Bearer " ++ demoLibs.sign 1 0),
    user := some ⟨1, js "alice", js "Alice", none⟩,
    token := some (demoLibs.sign 1 0),
    routes := ["Journal"], entries := [], isLoading := false,
    newText := js "hello", newComment := js "nice", selectedEntry := some 7,
    commentModalVisible := true, alerts := [] }

/-! ## Lemmas on the collections -/

theorem JournalEntry.findById_id {es : List JournalEntry} {id : ObjectId} {e : JournalEntry}
    (h : JournalEntry.findById es id = some e) : e._id = id := by
  have := List.find?_some h
  simpa using this

theorem JournalEntry.findById_save {es : List JournalEntry} {id : ObjectId}
    {e e2 : JournalEntry} (h : JournalEntry.findById es id = some e) (hid : e2._id = id) :
    JournalEntry.findById (e2.save es) id = some e2 := by
  induction es with
  | nil => simp [JournalEntry.findById] at h
  | cons x xs ih =>
    unfold JournalEntry.save
    by_cases hx : x._id = id
    · simp [JournalEntry.findById, hx, hid]
    · have hx2 : ¬ x._id = e2._id := by rw [hid]; exact hx
      have h2 : JournalEntry.findById xs id = some e := by
        simpa [JournalEntry.findById, List.find?_cons, hx] using h
      simp only [hx2, if_false]
      simpa [JournalEntry.findById, List.find?_cons, hx] using ih h2

/-- What the like handler does to a stored entry. -/
theorem postLike_found {s : Store} {u : User} {id : ObjectId} {e : JournalEntry}
    (h : JournalEntry.findById s.entries id = some e) :
    postLike s u id =
      (⟨200, .entry { e with likes :=
          (if u._id ∈ e.likes then e.likes.filter (fun v => decide (v ≠ u._id))
           else e.likes ++ [u._id]) }⟩,
       { s with entries := JournalEntry.save { e with likes :=
          (if u._id ∈ e.likes then e.likes.filter (fun v => decide (v ≠ u._id))
           else e.likes ++ [u._id]) } s.entries }) := by
  unfold postLike
  simp only [h]
  by_cases hm : u._id ∈ e.likes
  · have hc : e.likes.contains u._id = true := by simpa using hm
    have hf : (fun id : ObjectId => id != u._id) = (fun v => decide (v ≠ u._id)) := by
      funext v
      by_cases hv : v = u._id <;> simp [bne, hv]
    simp [hc, hm, hf]
  · have hc : e.likes.contains u._id = false := by simpa using hm
    simp [hc, hm]

/-- On an existing entry the like handler answers 200 with the entry whose
likes are toggled, and stores it. -/
theorem postLike_effect (s : Store) (u : User) (id : ObjectId) (e : JournalEntry)
    (h : JournalEntry.findById s.entries id = some e) :
    ∃ e2 : JournalEntry,
      postLike s u id = (⟨200, .entry e2⟩, { s with entries := e2.save s.entries }) ∧
      JournalEntry.findById (postLike s u id).2.entries id = some e2 ∧
      e2 = { e with likes := e2.likes } ∧
      (u._id ∈ e.likes → e2.likes = e.likes.filter (fun v => decide (v ≠ u._id))) ∧
      (u._id ∉ e.likes → e2.likes = e.likes ++ [u._id]) ∧
      (u._id ∈ e2.likes ↔ u._id ∉ e.likes) := by
  refine ⟨{ e with likes :=
          (if u._id ∈ e.likes then e.likes.filter (fun v => decide (v ≠ u._id))
           else e.likes ++ [u._id]) }, postLike_found h, ?_, rfl, ?_, ?_, ?_⟩
  · rw [postLike_found h]
    exact JournalEntry.findById_save h
      (show e._id = id from JournalEntry.findById_id h)
  · intro hm; simp [hm]
  · intro hm; simp [hm]
  · by_cases hm : u._id ∈ e.likes <;> simp [hm]

theorem JournalEntry.findById_mem {es : List JournalEntry} {id : ObjectId} {e : JournalEntry}
    (h : JournalEntry.findById es id = some e) : e ∈ es :=
  List.mem_of_find?_eq_some h

/-- With unique ids, deleting by id removes exactly the documents with that id. -/
theorem JournalEntry.mem_findByIdAndDelete {es : List JournalEntry} {id : ObjectId}
    (hnd : (es.map (fun e => e._id)).Nodup) (x : JournalEntry) :
    x ∈ JournalEntry.findByIdAndDelete es id ↔ x ∈ es ∧ x._id ≠ id := by
  unfold JournalEntry.findByIdAndDelete
  induction es with
  | nil => simp
  | cons y ys ih =>
    have hnd2 : (ys.map (fun e => e._id)).Nodup := (List.nodup_cons.1 hnd).2
    have hy : ∀ z ∈ ys, z._id ≠ y._id := by
      intro z hz hzy
      have := (List.nodup_cons.1 hnd).1
      have hm : z._id ∈ ys.map (fun e => e._id) := List.mem_map_of_mem (fun e => e._id) hz
      rw [hzy] at hm
      exact this hm
    by_cases hyid : y._id = id
    · have : (y._id == id) = true := by simpa using hyid
      rw [List.eraseP_cons, this, cond_true]
      constructor
      · intro hx
        exact ⟨List.mem_cons_of_mem _ hx, fun h => hy x hx (h.trans hyid.symm)⟩
      · rintro ⟨hx, hne⟩
        rcases List.mem_cons.1 hx with h | h
        · subst h; exact absurd hyid hne
        · exact h
    · have : (y._id == id) = false := by simpa using hyid
      rw [List.eraseP_cons, this, cond_false, List.mem_cons, List.mem_cons, ih hnd2]
      constructor
      · rintro (h | ⟨h1, h2⟩)
        · subst h; exact ⟨Or.inl rfl, hyid⟩
        · exact ⟨Or.inr h1, h2⟩
      · rintro ⟨h | h, h2⟩
        · exact Or.inl h
        · exact Or.inr ⟨h, h2⟩

/-! ## Lemmas on the handlers -/

theorem truthy_eq_true_iff (o : Option JSString) :
    truthy o = true ↔ ∃ x, o = some x ∧ x ≠ [] := by
  cases o with
  | none => simp [truthy]
  | some x => cases x <;> simp [truthy]

theorem truthy_some_cons {x : JSString} (h : x ≠ []) : truthy (some x) = true := by
  cases x with
  | nil => exact absurd rfl h
  | cons c cs => rfl

theorem User.findOne_isSome_iff (users : List User) (p : User → Bool) :
    (User.findOne users p).isSome = true ↔ ∃ u ∈ users, p u = true := by
  unfold User.findOne
  simp [List.find?_isSome]

theorem User.findOne_eq_none_iff (users : List User) (p : User → Bool) :
    User.findOne users p = none ↔ ∀ u ∈ users, p u = false := by
  unfold User.findOne
  simp [List.find?_eq_none]

/-- The email a register request asks to store: the trimmed email when one is
given and not blank. -/
theorem emailGiven_iff (email : Option JSString) :
    (truthy email && trim (email.getD []) != []) = true ↔
      ∃ e, email = some e ∧ trim e ≠ [] := by
  cases email with
  | none => simp [truthy]
  | some e =>
    cases e with
    | nil => simp [truthy, trim]
    | cons c cs => simp [truthy]

/-- Register, once the required fields, the password length and the username
check have passed. -/
theorem postRegister_fresh_username (L : Libs) (a : Ambient) (s : Store) (body : RegisterBody)
    (n p d : JSString) (hu : body.username = some n) (hp : body.password = some p)
    (hd : body.displayName = some d) (hn : n ≠ []) (hd0 : d ≠ []) (hlen : 6 ≤ p.length)
    (hfree : ∀ u ∈ s.users, u.username ≠ n) :
    postRegister L a s body =
      if (truthy body.email && trim (body.email.getD []) != []) &&
          (User.findOne s.users
            (fun u => u.email == some (trim (body.email.getD [])))).isSome then
        (⟨400, .error "Email already exists"⟩, s)
      else
        match User.save
            { _id := a.newId, username := n, password := L.hash p a.salt, displayName := d,
              email := if (truthy body.email && trim (body.email.getD []) != []) then
                  some (trim (body.email.getD [])) else none,
              isActive := true, createdAt := a.now } s.users with
        | .error (.duplicateKey .username) => (⟨400, .error "Username already exists"⟩, s)
        | .error (.duplicateKey .email) => (⟨400, .error "Email already exists"⟩, s)
        | .error e => (⟨500, .thrown e⟩, s)
        | .ok users =>
          (⟨201, .session (some "User created successfully") (L.sign a.newId a.now)
              ⟨a.newId, n, d,
               if (truthy body.email && trim (body.email.getD []) != []) then
                  some (trim (body.email.getD [])) else none⟩⟩,
           { s with users := users }) := by
  have hp0 : p ≠ [] := by
    intro h; subst h; simp at hlen
  have hnone : User.findOne s.users (fun u => u.username == n) = none := by
    rw [User.findOne_eq_none_iff]
    intro u hu1
    simpa using hfree u hu1
  unfold postRegister
  simp only [hu, hp, hd, truthy_some_cons hn, truthy_some_cons hp0, truthy_some_cons hd0,
    Option.getD_some, Bool.not_true, Bool.or_self, Bool.false_eq_true, if_false,
    Nat.not_lt.2 hlen, hnone]

theorem User.save_ne_duplicate_email (user : User) (users : List User)
    (h : user.email.isSome = true → ∀ u ∈ users, u.email ≠ user.email) :
    user.save users ≠ .error (.duplicateKey .email) := by
  unfold User.save
  split
  · simp
  · split
    · simp
    · split
      · simp
      · split
        · rename_i hdup
          simp only [Bool.and_eq_true, List.any_eq_true, beq_iff_eq] at hdup
          obtain ⟨h1, u, hu, he⟩ := hdup
          exact absurd he (h h1 u hu)
        · simp

theorem User.save_ok (user : User) (users : List User)
    (h1 : user.username ≠ []) (h2 : user.password ≠ []) (h3 : user.displayName ≠ [])
    (hid : ∀ u ∈ users, u._id ≠ user._id) (hname : ∀ u ∈ users, u.username ≠ user.username)
    (hemail : user.email.isSome = true → ∀ u ∈ users, u.email ≠ user.email) :
    user.save users = .ok (users ++ [user]) := by
  unfold User.save
  have e1 : ¬ (user.username = [] ∨ user.password = [] ∨ user.displayName = []) := by
    simp [h1, h2, h3]
  have e2 : users.any (fun u => u._id == user._id) = false := by
    simpa using hid
  have e3 : users.any (fun u => u.username == user.username) = false := by
    simpa using hname
  have e4 : (user.email.isSome && users.any (fun u => u.email == user.email)) = false := by
    cases hs : user.email.isSome with
    | false => simp
    | true =>
      have := hemail hs
      simpa using this
  simp [e1, e2, e3, e4]

/-! ## Registration followed by login -/

/-- The pattern that `auth` strips from the header. -/
theorem js_bearer : js "Bearer " = [66, 101, 97, 114, 101, 114, 32] := by decide

/-- Replacing a non-empty pattern in a string that starts with it rewrites that
first occurrence only. -/
theorem replace_append_self (pat repl t : JSString) (hpat : pat ≠ []) :
    replace pat repl (pat ++ t) = repl ++ t := by
  cases pat with
  | nil => exact absurd rfl hpat
  | cons c cs =>
    have hpre : (c :: cs).isPrefixOf (c :: (cs ++ t)) = true := by
      simp
    show replace (c :: cs) repl (c :: (cs ++ t)) = repl ++ t
    unfold replace
    rw [if_pos hpre]
    simp

theorem User.save_eq_ok {user : User} {users us : List User}
    (h : user.save users = .ok us) :
    us = users ++ [user] ∧ ∀ u ∈ users, u._id ≠ user._id := by
  unfold User.save at h
  split at h
  · cases h
  · split at h
    · cases h
    · rename_i hid
      split at h
      · cases h
      · split at h
        · cases h
        · cases h
          refine ⟨rfl, ?_⟩
          simpa using hid

/-- What a successful registration leaves behind. -/
theorem postRegister_created (L : Libs) (a : Ambient) (s : Store) (body : RegisterBody)
    (h201 : (postRegister L a s body).1.status = 201) :
    ∃ n p d, body.username = some n ∧ body.password = some p ∧ body.displayName = some d ∧
      n ≠ [] ∧ p ≠ [] ∧ d ≠ [] ∧ 6 ≤ p.length ∧
      (∀ u ∈ s.users, u.username ≠ n) ∧ (∀ u ∈ s.users, u._id ≠ a.newId) ∧
      ∃ email, (postRegister L a s body).2 =
        { s with users := s.users ++ [⟨a.newId, n, L.hash p a.salt, d, email, true, a.now⟩] } := by
  unfold postRegister at h201 ⊢
  split at h201
  · simp at h201
  · rename_i hreq
    simp only [Bool.or_eq_true, Bool.not_eq_true', not_or, Bool.not_eq_false] at hreq
    obtain ⟨⟨h1, h2⟩, h3⟩ := hreq
    obtain ⟨n, hn, hn0⟩ := (truthy_eq_true_iff _).1 h1
    obtain ⟨p, hp, hp0⟩ := (truthy_eq_true_iff _).1 h2
    obtain ⟨d, hd, hd0⟩ := (truthy_eq_true_iff _).1 h3
    simp only [hn, hp, hd, truthy_some_cons hn0, truthy_some_cons hp0, truthy_some_cons hd0,
      Option.getD_some, Bool.not_true, Bool.or_self, Bool.false_eq_true, if_false] at h201 ⊢
    split at h201
    · simp at h201
    · rename_i hlen
      simp only [hlen, if_false]
      cases hfo : User.findOne s.users (fun u => u.username == n) with
      | some w => rw [hfo] at h201; simp at h201
      | none =>
        rw [hfo] at h201
        simp only [] at h201 ⊢
        have hfree : ∀ u ∈ s.users, u.username ≠ n := by
          intro u hu
          have := (User.findOne_eq_none_iff _ _).1 hfo u hu
          simpa using this
        split at h201
        · simp at h201
        · rename_i hcond
          simp only [hcond, if_false]
          revert h201
          generalize hsv : User.save _ s.users = r
          intro h201
          cases r with
          | error err =>
            cases err with
            | validation => simp at h201
            | duplicateKey k => cases k <;> simp at h201
          | ok us =>
            obtain ⟨hus, hid⟩ := User.save_eq_ok hsv
            refine ⟨n, p, d, rfl, rfl, rfl, hn0, hp0, hd0, Nat.not_lt.1 hlen, hfree, hid, ?_⟩
            refine ⟨if (truthy body.email && trim (body.email.getD []) != []) = true then
                some (trim (body.email.getD [])) else none, ?_⟩
            simp [hsv, hus]

theorem User.findById_append_new (users : List User) (nu : User)
    (hid : ∀ u ∈ users, u._id ≠ nu._id) :
    User.findById (users ++ [nu]) nu._id = some nu := by
  unfold User.findById
  rw [List.find?_append]
  have : users.find? (fun u => u._id == nu._id) = none := by
    rw [List.find?_eq_none]
    intro u hu
    simpa using hid u hu
  rw [this]
  simp

/-- After a registration answered 201, a login with the same username and
password succeeds and the token it returns passes `auth`, which resolves it to
the new user, provided no active user stored before has the new username as
email, `compare` accepts the hash of the password, and `verify` inverts a
non-empty `sign` within seven days. -/
theorem register_login_auth (L : Libs) (a1 a2 a3 : Ambient) (s : Store) (body : RegisterBody)
    (n p : JSString)
    (hc : ∀ x salt, L.compare x (L.hash x salt) = true)
    (hv : ∀ userId t t2, t2 / 1000 < t / 1000 + 604800 →
      L.verify (L.sign userId t) t2 = some userId)
    (hs : ∀ userId t, L.sign userId t ≠ [])
    (hu : body.username = some n) (hp : body.password = some p)
    (h201 : (postRegister L a1 s body).1.status = 201)
    (hshadow : ∀ v ∈ s.users, v.isActive = true → v.email ≠ some n)
    (ht : a3.now / 1000 < a2.now / 1000 + 604800) :
    ∃ nu : User, (postRegister L a1 s body).2.users = s.users ++ [nu] ∧
      nu._id = a1.newId ∧ nu.username = n ∧
      ∃ token info,
        postLogin L a2 (postRegister L a1 s body).2 ⟨some n, some p⟩ =
          (⟨200, .session none token info⟩, (postRegister L a1 s body).2) ∧
        info.id = nu._id ∧
        auth L a3 (postRegister L a1 s body).2 (some (js "Bearer " ++ token)) = .next nu := by
  obtain ⟨n2, p2, d, hn, hp2, _, hn0, hp0, _, _, hfree, hid, email, hst⟩ :=
    postRegister_created L a1 s body h201
  rw [hu] at hn; cases hn
  rw [hp] at hp2; cases hp2
  rw [hst]
  refine ⟨⟨a1.newId, n, L.hash p a1.salt, d, email, true, a1.now⟩, rfl, rfl, rfl,
    L.sign a1.newId a2.now, ⟨a1.newId, n, d, email⟩, ?_, rfl, ?_⟩
  · have hfind : User.findOne (s.users ++ [⟨a1.newId, n, L.hash p a1.salt, d, email, true, a1.now⟩])
        (fun u => (u.username == n || u.email == some n) && u.isActive) =
        some ⟨a1.newId, n, L.hash p a1.salt, d, email, true, a1.now⟩ := by
      unfold User.findOne
      rw [List.find?_append]
      have : s.users.find? (fun u => (u.username == n || u.email == some n) && u.isActive)
          = none := by
        rw [List.find?_eq_none]
        intro u hu1
        cases hact : u.isActive with
        | false => simp
        | true =>
          have h1 := hfree u hu1
          have h2 := hshadow u hu1 hact
          simp [h1, h2]
      rw [this]
      simp
    unfold postLogin
    simp only [truthy_some_cons hn0, truthy_some_cons hp0, Option.getD_some, Bool.not_true,
      Bool.or_self, Bool.false_eq_true, if_false, hfind, hc]
  · unfold auth
    have hrep : replace (js "Bearer ") [] (js "Bearer " ++ L.sign a1.newId a2.now) =
        L.sign a1.newId a2.now := by
      rw [replace_append_self _ _ _ (by decide)]
      rfl
    have hfb := User.findById_append_new s.users
      ⟨a1.newId, n, L.hash p a1.salt, d, email, true, a1.now⟩ hid
    simp only [Option.map_some', hrep, truthy_some_cons (hs a1.newId a2.now), Bool.not_true,
      Bool.false_eq_true, if_false, Option.getD_some, hv a1.newId a2.now a3.now ht, hfb]

/-! ## Lemmas on comments -/

/-- A string trims to the empty string exactly when it consists of white
space only. -/
theorem trim_eq_nil_iff (t : JSString) : trim t = [] ↔ ∀ c ∈ t, isWhiteSpace c = true := by
  unfold trim
  rw [List.reverse_eq_nil_iff, List.dropWhile_eq_nil_iff]
  constructor
  · intro h
    have hd : t.dropWhile isWhiteSpace = [] := by
      by_contra hne
      have hpos : 0 < (t.dropWhile isWhiteSpace).length := List.length_pos.2 hne
      have hnot := List.dropWhile_get_zero_not isWhiteSpace t hpos
      have hmem : (t.dropWhile isWhiteSpace).get ⟨0, hpos⟩ ∈ (t.dropWhile isWhiteSpace).reverse :=
        List.mem_reverse.2 (List.get_mem _ _ _)
      exact hnot (h _ hmem)
    exact List.dropWhile_eq_nil_iff.1 hd
  · intro h x hx
    have hx2 : x ∈ t.dropWhile isWhiteSpace := List.mem_reverse.1 hx
    exact h x ((List.dropWhile_suffix isWhiteSpace).subset hx2)

/-- What `findIndex` finds: the list splits around the first element that
satisfies the predicate. -/
theorem findIndex_eq_some {α : Type} {p : α → Bool} {l : List α} {i : Nat}
    (h : findIndex p l = some i) :
    ∃ pre c post, l = pre ++ c :: post ∧ pre.length = i ∧ p c = true ∧
      (∀ x ∈ pre, p x = false) ∧ l.get? i = some c ∧ l.eraseIdx i = pre ++ post := by
  induction l generalizing i with
  | nil => simp [findIndex] at h
  | cons x xs ih =>
    unfold findIndex at h
    by_cases hx : p x = true
    · rw [if_pos hx] at h
      cases h
      exact ⟨[], x, xs, rfl, rfl, hx, by simp, rfl, rfl⟩
    · rw [if_neg hx] at h
      cases hf : findIndex p xs with
      | none => rw [hf] at h; simp at h
      | some j =>
        rw [hf] at h
        simp only [Option.map_some', Option.some.injEq] at h
        subst h
        obtain ⟨pre, c, post, h1, h2, h3, h4, h5, h6⟩ := ih hf
        refine ⟨x :: pre, c, post, by rw [h1]; rfl, by simp [h2], h3, ?_, ?_, ?_⟩
        · intro y hy
          rcases List.mem_cons.1 hy with rfl | hy
          · simpa using hx
          · exact h4 y hy
        · simpa using h5
        · simp [h6]

theorem findIndex_eq_none {α : Type} {p : α → Bool} {l : List α}
    (h : findIndex p l = none) : ∀ x ∈ l, p x = false := by
  induction l with
  | nil => simp
  | cons x xs ih =>
    unfold findIndex at h
    by_cases hx : p x = true
    · rw [if_pos hx] at h; cases h
    · rw [if_neg hx] at h
      intro y hy
      rcases List.mem_cons.1 hy with rfl | hy
      · simpa using hx
      · refine ih ?_ y hy
        cases hf : findIndex p xs with
        | none => rfl
        | some j => rw [hf] at h; simp at h

/-- The delete-comment handler on a stored entry in which the comment is found. -/
theorem deleteComment_found (s : Store) (u : User) (entryId commentId : ObjectId)
    (e : JournalEntry) (pre post : List Comment) (c : Comment)
    (hf : JournalEntry.findById s.entries entryId = some e)
    (hsplit : e.comments = pre ++ c :: post) (hc : c._id = commentId)
    (hpre : ∀ x ∈ pre, x._id ≠ commentId) :
    deleteComment s u entryId commentId =
      if c.userId ≠ u._id ∧ e.userId ≠ u._id then
        (⟨403, .error "Not authorized to delete this comment"⟩, s)
      else
        (⟨200, .message "Comment deleted successfully"⟩,
         { s with entries := JournalEntry.save { e with comments := pre ++ post } s.entries }) := by
  have hidx : findIndex (fun x : Comment => x._id == commentId) e.comments = some pre.length := by
    rw [hsplit]
    clear hsplit
    induction pre with
    | nil => simp [findIndex, hc]
    | cons y ys ih =>
      have hy : y._id ≠ commentId := hpre y (List.mem_cons_self _ _)
      have := ih (fun x hx => hpre x (List.mem_cons_of_mem _ hx))
      simp [findIndex, hy, this]
  have hget : e.comments.get? pre.length = some c := by
    rw [hsplit, List.get?_eq_getElem?, List.getElem?_append_right (Nat.le_refl _)]
    simp
  have herase : e.comments.eraseIdx pre.length = pre ++ post := by
    rw [hsplit, List.eraseIdx_append_of_length_le (Nat.le_refl _)]
    simp
  unfold deleteComment
  simp only [hf, hidx, hget, herase]
  by_cases h1 : c.userId = u._id
  · simp [h1]
  · by_cases h2 : e.userId = u._id
    · simp [h2]
    · simp [h1, h2]

/-! ## Lemmas on stores that differ in hidden user fields -/

/-- Looking up through a projection: when the filter only reads what the
projection keeps, two collections with the same projections give the same
projected result. -/
theorem find?_congr_of_map {α β : Type} (f : α → β) (p : α → Bool)
    (hp : ∀ x y, f x = f y → p x = p y) :
    ∀ (l1 l2 : List α), l1.map f = l2.map f → (l1.find? p).map f = (l2.find? p).map f := by
  intro l1
  induction l1 with
  | nil =>
    intro l2 h
    cases l2 with
    | nil => rfl
    | cons y ys => simp at h
  | cons x xs ih =>
    intro l2 h
    cases l2 with
    | nil => simp at h
    | cons y ys =>
      simp only [List.map_cons, List.cons.injEq] at h
      have hxy := hp x y h.1
      cases hpx : p x with
      | true =>
        have hpy : p y = true := by rw [← hxy]; exact hpx
        simp [List.find?_cons, hpx, hpy, h.1]
      | false =>
        have hpy : p y = false := by rw [← hxy]; exact hpx
        simp only [List.find?_cons, hpx, hpy]
        exact ih ys h.2

theorem any_congr_of_map {α β : Type} (f : α → β) (p : α → Bool)
    (hp : ∀ x y, f x = f y → p x = p y) :
    ∀ (l1 l2 : List α), l1.map f = l2.map f → l1.any p = l2.any p := by
  intro l1
  induction l1 with
  | nil =>
    intro l2 h
    cases l2 with
    | nil => rfl
    | cons y ys => simp at h
  | cons x xs ih =>
    intro l2 h
    cases l2 with
    | nil => simp at h
    | cons y ys =>
      simp only [List.map_cons, List.cons.injEq] at h
      simp only [List.any_cons, hp x y h.1, ih ys h.2]

theorem withoutPassword_fields {x y : User} (h : x.withoutPassword = y.withoutPassword) :
    x._id = y._id ∧ x.username = y.username ∧ x.displayName = y.displayName ∧
    x.email = y.email ∧ x.isActive = y.isActive ∧ x.createdAt = y.createdAt := by
  cases x; cases y
  simp only [User.withoutPassword, User.mk.injEq] at h
  simp [h]

/-- `auth` on two stores that differ only in password hashes: the same
rejection, or two users that differ only in the password hash. -/
theorem auth_congr (L : Libs) (a : Ambient) (s1 s2 : Store)
    (hU : s1.users.map User.withoutPassword = s2.users.map User.withoutPassword)
    (hdr : Option JSString) :
    (∃ res, auth L a s1 hdr = .respond res ∧ auth L a s2 hdr = .respond res) ∨
    (∃ u1 u2, auth L a s1 hdr = .next u1 ∧ auth L a s2 hdr = .next u2 ∧
      u1.withoutPassword = u2.withoutPassword) := by
  unfold auth
  simp only []
  split
  · exact Or.inl ⟨_, rfl, rfl⟩
  · cases hv : L.verify ((hdr.map (replace (js "Bearer ") [])).getD []) a.now with
    | none => exact Or.inl ⟨_, rfl, rfl⟩
    | some userId =>
      have hfind := find?_congr_of_map User.withoutPassword (fun u => u._id == userId)
        (fun x y h => by simp only [(withoutPassword_fields h).1]) s1.users s2.users hU
      simp only [User.findById]
      cases h1 : s1.users.find? (fun u => u._id == userId) with
      | none =>
        cases h2 : s2.users.find? (fun u => u._id == userId) with
        | none => exact Or.inl ⟨_, rfl, rfl⟩
        | some v2 => rw [h1, h2] at hfind; simp at hfind
      | some v1 =>
        cases h2 : s2.users.find? (fun u => u._id == userId) with
        | none => rw [h1, h2] at hfind; simp at hfind
        | some v2 =>
          rw [h1, h2] at hfind
          simp only [Option.map_some', Option.some.injEq] at hfind
          have hact := (withoutPassword_fields hfind).2.2.2.2.1
          simp only [hact]
          cases v2.isActive with
          | false => exact Or.inl ⟨_, rfl, rfl⟩
          | true => exact Or.inr ⟨v1, v2, rfl, rfl, hfind⟩

/-- Looking a user up by id and keeping fields other than the password. -/
theorem findById_map_congr {γ : Type} (g : User → γ)
    (hg : ∀ x y : User, x.withoutPassword = y.withoutPassword → g x = g y)
    (us1 us2 : List User)
    (hU : us1.map User.withoutPassword = us2.map User.withoutPassword) (id : ObjectId) :
    (User.findById us1 id).map g = (User.findById us2 id).map g := by
  have hfind := find?_congr_of_map User.withoutPassword (fun u => u._id == id)
    (fun x y h => by simp only [(withoutPassword_fields h).1]) us1 us2 hU
  unfold User.findById
  cases h1 : us1.find? (fun u => u._id == id) with
  | none =>
    cases h2 : us2.find? (fun u => u._id == id) with
    | none => rfl
    | some v2 => rw [h1, h2] at hfind; simp at hfind
  | some v1 =>
    cases h2 : us2.find? (fun u => u._id == id) with
    | none => rw [h1, h2] at hfind; simp at hfind
    | some v2 =>
      rw [h1, h2] at hfind
      simp only [Option.map_some', Option.some.injEq] at hfind
      simp [hg v1 v2 hfind]

theorem populateComment_congr (us1 us2 : List User)
    (hU : us1.map User.withoutPassword = us2.map User.withoutPassword) (c : Comment) :
    populateComment us1 c = populateComment us2 c := by
  unfold populateComment
  rw [findById_map_congr (fun u => CommentAuthorRef.mk u._id u.displayName)
    (fun x y h => by
      simp only [(withoutPassword_fields h).1, (withoutPassword_fields h).2.2.1])
    us1 us2 hU]

theorem populate_congr (us1 us2 : List User)
    (hU : us1.map User.withoutPassword = us2.map User.withoutPassword) (e : JournalEntry) :
    populate us1 e = populate us2 e := by
  unfold populate
  rw [findById_map_congr (fun u => AuthorRef.mk u._id u.username u.displayName)
    (fun x y h => by
      simp only [(withoutPassword_fields h).1, (withoutPassword_fields h).2.1,
        (withoutPassword_fields h).2.2.1])
    us1 us2 hU]
  have : populateComment us1 = populateComment us2 := by
    funext c; exact populateComment_congr us1 us2 hU c
  rw [this]

theorem save_congr (user : User) (us1 us2 : List User)
    (hU : us1.map User.withoutPassword = us2.map User.withoutPassword) :
    (∃ err, user.save us1 = .error err ∧ user.save us2 = .error err) ∨
    (user.save us1 = .ok (us1 ++ [user]) ∧ user.save us2 = .ok (us2 ++ [user])) := by
  have h1 := any_congr_of_map User.withoutPassword (fun u => u._id == user._id)
    (fun x y h => by simp only [(withoutPassword_fields h).1]) us1 us2 hU
  have h2 := any_congr_of_map User.withoutPassword (fun u => u.username == user.username)
    (fun x y h => by simp only [(withoutPassword_fields h).2.1]) us1 us2 hU
  have h3 := any_congr_of_map User.withoutPassword (fun u => u.email == user.email)
    (fun x y h => by simp only [(withoutPassword_fields h).2.2.2.1]) us1 us2 hU
  unfold User.save
  rw [h1, h2, h3]
  split
  · exact Or.inl ⟨_, rfl, rfl⟩
  · split
    · exact Or.inl ⟨_, rfl, rfl⟩
    · split
      · exact Or.inl ⟨_, rfl, rfl⟩
      · split
        · exact Or.inl ⟨_, rfl, rfl⟩
        · exact Or.inr ⟨rfl, rfl⟩

theorem findOne_isSome_congr (p : User → Bool)
    (hp : ∀ x y : User, x.withoutPassword = y.withoutPassword → p x = p y)
    (us1 us2 : List User)
    (hU : us1.map User.withoutPassword = us2.map User.withoutPassword) :
    (User.findOne us1 p).isSome = (User.findOne us2 p).isSome := by
  have := find?_congr_of_map User.withoutPassword p hp us1 us2 hU
  unfold User.findOne
  cases h1 : us1.find? p <;> cases h2 : us2.find? p <;> rw [h1, h2] at this <;> simp at this ⊢

theorem postRegister_congr (L : Libs) (a : Ambient) (s1 s2 : Store)
    (hU : s1.users.map User.withoutPassword = s2.users.map User.withoutPassword)
    (body : RegisterBody) :
    (postRegister L a s1 body).1 = (postRegister L a s2 body).1 := by
  unfold postRegister
  split
  · rfl
  · simp only []
    split
    · rfl
    · have hname := findOne_isSome_congr (fun u => u.username == body.username.getD [])
        (fun x y h => by simp only [(withoutPassword_fields h).2.1]) s1.users s2.users hU
      have hmail := findOne_isSome_congr
        (fun u => u.email == some (trim (body.email.getD [])))
        (fun x y h => by simp only [(withoutPassword_fields h).2.2.2.1]) s1.users s2.users hU
      cases hn1 : User.findOne s1.users (fun u => u.username == body.username.getD []) with
      | some w1 =>
        cases hn2 : User.findOne s2.users (fun u => u.username == body.username.getD []) with
        | some w2 => rfl
        | none => rw [hn1, hn2] at hname; simp at hname
      | none =>
        cases hn2 : User.findOne s2.users (fun u => u.username == body.username.getD []) with
        | some w2 => rw [hn1, hn2] at hname; simp at hname
        | none =>
          simp only [hmail]
          split
          · rfl
          · rcases save_congr
              { _id := a.newId, username := body.username.getD [],
                password := L.hash (body.password.getD []) a.salt,
                displayName := body.displayName.getD [],
                email := if (truthy body.email && trim (body.email.getD []) != []) = true
                  then some (trim (body.email.getD [])) else none,
                isActive := true, createdAt := a.now } s1.users s2.users hU with
              ⟨err, e1, e2⟩ | ⟨e1, e2⟩
            · rw [e1, e2]
              cases err with
              | validation => rfl
              | duplicateKey k => cases k <;> rfl
            · rw [e1, e2]

theorem postLogin_congr (L : Libs) (a : Ambient) (s1 s2 : Store)
    (hU : s1.users.map User.withoutPassword = s2.users.map User.withoutPassword)
    (body : LoginBody)
    (h1 : (postLogin L a s1 body).1.status = 200)
    (h2 : (postLogin L a s2 body).1.status = 200) :
    (postLogin L a s1 body).1 = (postLogin L a s2 body).1 := by
  have hfind := find?_congr_of_map User.withoutPassword
    (fun u => (u.username == body.username.getD [] ||
      u.email == some (body.username.getD [])) && u.isActive)
    (fun x y h => by
      simp only [(withoutPassword_fields h).2.1, (withoutPassword_fields h).2.2.2.1,
        (withoutPassword_fields h).2.2.2.2.1])
    s1.users s2.users hU
  unfold postLogin at h1 h2 ⊢
  unfold User.findOne at h1 h2 ⊢
  split
  · rfl
  · rename_i hreq
    simp only [hreq, if_false] at h1 h2
    cases hf1 : s1.users.find? (fun u => (u.username == body.username.getD [] ||
        u.email == some (body.username.getD [])) && u.isActive) with
    | none => rw [hf1] at h1; simp at h1
    | some v1 =>
      cases hf2 : s2.users.find? (fun u => (u.username == body.username.getD [] ||
          u.email == some (body.username.getD [])) && u.isActive) with
      | none => rw [hf2] at h2; simp at h2
      | some v2 =>
        rw [hf1, hf2] at hfind
        simp only [Option.map_some', Option.some.injEq] at hfind
        obtain ⟨e1, e2, e3, e4, _, _⟩ := withoutPassword_fields hfind
        rw [hf1] at h1
        rw [hf2] at h2
        cases hc1 : L.compare (body.password.getD []) v1.password with
        | false => simp [hc1] at h1
        | true =>
          cases hc2 : L.compare (body.password.getD []) v2.password with
          | false => simp [hc2] at h2
          | true => simp [hf1, hf2, hc1, hc2, e1, e2, e3, e4]

/-- The outcome of a guarded route on two stores that differ only in password
hashes, for handlers that answer alike for users differing only there. -/
theorem guarded_congr (L : Libs) (a : Ambient) (s1 s2 : Store)
    (hU : s1.users.map User.withoutPassword = s2.users.map User.withoutPassword)
    (hdr : Option JSString) (k1 k2 : User → Response × Store)
    (hk : ∀ u1 u2 : User, u1.withoutPassword = u2.withoutPassword → (k1 u1).1 = (k2 u2).1) :
    (guarded L a s1 hdr k1).1 = (guarded L a s2 hdr k2).1 := by
  unfold guarded
  rcases auth_congr L a s1 s2 hU hdr with ⟨res, e1, e2⟩ | ⟨u1, u2, e1, e2, hu⟩
  · rw [e1, e2]
  · rw [e1, e2]
    exact hk u1 u2 hu

theorem postEntries_congr (a : Ambient) (s1 s2 : Store)
    (hU : s1.users.map User.withoutPassword = s2.users.map User.withoutPassword)
    (hE : s1.entries = s2.entries) (u1 u2 : User)
    (hu : u1.withoutPassword = u2.withoutPassword) (body : EntryBody)
    (file : Option StoredFile) :
    (postEntries a s1 u1 body file).1 = (postEntries a s2 u2 body file).1 := by
  have hid := (withoutPassword_fields hu).1
  have hpop := findById_map_congr (fun u => AuthorRef.mk u._id u.username u.displayName)
    (fun x y h => by
      simp only [(withoutPassword_fields h).1, (withoutPassword_fields h).2.1,
        (withoutPassword_fields h).2.2.1])
    s1.users s2.users hU u2._id
  unfold postEntries
  simp only [hE, hid]
  split
  · rfl
  · split
    · rfl
    · split
      · rfl
      · simp only [hpop]

theorem postLogin_user_object (L : Libs) (a : Ambient) (s : Store) (body : LoginBody)
    (msg : Option String) (token : JSString) (info : UserInfo)
    (h : (postLogin L a s body).1.body = .session msg token info) :
    ∃ v ∈ s.users, info = ⟨v._id, v.username, v.displayName, v.email⟩ := by
  unfold postLogin at h
  split at h
  · simp at h
  · simp only [] at h
    cases hf : User.findOne s.users (fun u => (u.username == body.username.getD [] ||
        u.email == some (body.username.getD [])) && u.isActive) with
    | none => rw [hf] at h; simp at h
    | some v =>
      rw [hf] at h
      simp only [] at h
      split at h
      · simp at h
      · simp only [Body.session.injEq] at h
        exact ⟨v, List.mem_of_find?_eq_some hf, h.2.2.symm⟩

theorem delete_congr (L : Libs) (a : Ambient) (s1 s2 : Store)
    (hE : s1.entries = s2.entries) (u1 u2 : User)
    (hu : u1.withoutPassword = u2.withoutPassword) (id cid : ObjectId) :
    (deleteEntry L a s1 u1 id).1 = (deleteEntry L a s2 u2 id).1 ∧
    (deleteComment s1 u1 id cid).1 = (deleteComment s2 u2 id cid).1 := by
  have hid := (withoutPassword_fields hu).1
  constructor
  · unfold deleteEntry
    simp only [hE, hid]
    cases JournalEntry.findById s2.entries id with
    | none => rfl
    | some e =>
      simp only []
      split <;> rfl
  · unfold deleteComment
    simp only [hE, hid]
    cases JournalEntry.findById s2.entries id with
    | none => rfl
    | some e =>
      simp only []
      cases findIndex (fun comment => comment._id == cid) e.comments with
      | none => rfl
      | some i =>
        simp only []
        cases e.comments.get? i with
        | none => rfl
        | some c =>
          simp only []
          split <;> rfl

theorem populate_of_card (us1 us2 : List User) (hU : us1.map User.card = us2.map User.card)
    (e : JournalEntry) : populate us1 e = populate us2 e := by
  have hfind : ∀ id, (User.findById us1 id).map User.card = (User.findById us2 id).map User.card := by
    intro id
    exact find?_congr_of_map User.card (fun u => u._id == id)
      (fun x y h => by
        have : x._id = y._id := congrArg Prod.fst h
        simp only [this]) us1 us2 hU
  have hauthor : ∀ id, (User.findById us1 id).map (fun u => AuthorRef.mk u._id u.username u.displayName) =
      (User.findById us2 id).map (fun u => AuthorRef.mk u._id u.username u.displayName) := by
    intro id
    have := congrArg (Option.map (fun c : ObjectId × JSString × JSString =>
      AuthorRef.mk c.1 c.2.1 c.2.2)) (hfind id)
    simpa [Option.map_map, Function.comp, User.card] using this
  have hcomment : ∀ id, (User.findById us1 id).map (fun u => CommentAuthorRef.mk u._id u.displayName) =
      (User.findById us2 id).map (fun u => CommentAuthorRef.mk u._id u.displayName) := by
    intro id
    have := congrArg (Option.map (fun c : ObjectId × JSString × JSString =>
      CommentAuthorRef.mk c.1 c.2.2)) (hfind id)
    simpa [Option.map_map, Function.comp, User.card] using this
  unfold populate
  rw [hauthor]
  have : populateComment us1 = populateComment us2 := by
    funext c
    unfold populateComment
    rw [hcomment]
  rw [this]

theorem User.findById_some_id {us : List User} {id : ObjectId} {u : User}
    (h : User.findById us id = some u) : u._id = id := by
  have := List.find?_some h
  simpa using this

/-! ## Lemmas on rejected registrations -/

theorem postRegister_status_of_taken (L : Libs) (a : Ambient) (s : Store) (body : RegisterBody)
    (n : JSString) (hn : body.username = some n) (hex : ∃ u ∈ s.users, u.username = n) :
    (postRegister L a s body).1.status = 400 := by
  have hsome : (User.findOne s.users (fun u => u.username == n)).isSome = true := by
    rw [User.findOne_isSome_iff]
    obtain ⟨u, hu1, hu2⟩ := hex
    exact ⟨u, hu1, by simp [hu2]⟩
  obtain ⟨w, hw⟩ := Option.isSome_iff_exists.1 hsome
  unfold postRegister
  split
  · rfl
  · simp only []
    split
    · rfl
    · simp only [hn, Option.getD_some, hw]

theorem postRegister_status_of_email_taken (L : Libs) (a : Ambient) (s : Store)
    (body : RegisterBody) (e : JSString) (he : body.email = some e) (ht : trim e ≠ [])
    (hex : ∃ u ∈ s.users, u.email = some (trim e)) :
    (postRegister L a s body).1.status = 400 := by
  have hgiven : (truthy body.email && trim (body.email.getD []) != []) = true :=
    (emailGiven_iff body.email).2 ⟨e, he, ht⟩
  have hsome : (User.findOne s.users (fun u => u.email == some (trim e))).isSome = true := by
    rw [User.findOne_isSome_iff]
    obtain ⟨u, hu1, hu2⟩ := hex
    exact ⟨u, hu1, by simp [hu2]⟩
  unfold postRegister
  split
  · rfl
  · simp only []
    split
    · rfl
    · split
      · rfl
      · rw [he] at hgiven
        simp only [Option.getD_some] at hgiven
        simp only [he, Option.getD_some, hgiven, hsome, Bool.and_self, if_true]

/-! ## Lemmas on created entries and on the stores the handlers leave -/

/-- A new entry is saved only when it is valid and its id is free. -/
theorem JournalEntry.create_eq_ok {entry : JournalEntry} {entries es : List JournalEntry}
    (h : entry.create entries = .ok es) :
    es = entries ++ [entry] ∧ entry.type ∈ entryTypes ∧ entry.content ≠ [] ∧
      ∀ e ∈ entries, e._id ≠ entry._id := by
  unfold JournalEntry.create at h
  split at h
  · cases h
  · rename_i hval
    split at h
    · cases h
    · rename_i hid
      cases h
      simp only [Bool.or_eq_true, Bool.not_eq_true', beq_iff_eq, not_or] at hval
      refine ⟨rfl, ?_, hval.2, ?_⟩
      · have := hval.1
        simpa using this
      · simpa using hid

/-- What a create-entry answered 201 stored and returned. -/
theorem postEntries_created (a : Ambient) (s : Store) (u : User) (body : EntryBody)
    (file : Option StoredFile) (h : (postEntries a s u body file).1.status = 201) :
    ∃ t c, body.type = some t ∧ t ∈ entryTypes ∧ c ≠ [] ∧
      (∀ f, file = some f → c = js "/uploads/" ++ f.filename) ∧
      (file = none → body.content = some c ∧ t = js "text") ∧
      (∀ e ∈ s.entries, e._id ≠ a.newId) ∧
      postEntries a s u body file =
        (⟨201, .created ⟨a.newId,
            (User.findById s.users u._id).map (fun x => ⟨x._id, x.username, x.displayName⟩),
            t, c, a.now, [], []⟩⟩,
         ⟨s.users, s.entries ++ [⟨a.newId, u._id, t, c, a.now, [], []⟩], s.files⟩) := by
  unfold postEntries at h ⊢
  split at h
  · simp at h
  · rename_i htype
    have htype2 : truthy body.type = true := by simpa using htype
    obtain ⟨t, ht, ht0⟩ := (truthy_eq_true_iff _).1 htype2
    simp only [htype, if_false]
    simp only [ht, Option.getD_some] at h ⊢
    split at h
    · simp at h
    · rename_i hfile
      simp only [hfile, if_false]
      revert h
      generalize hc : JournalEntry.create _ s.entries = r
      intro h
      cases r with
      | error err => simp at h
      | ok es =>
        obtain ⟨hes, hty, hcont, hid⟩ := JournalEntry.create_eq_ok hc
        cases file with
        | some f =>
          refine ⟨t, js "/uploads/" ++ f.filename, rfl, hty, hcont, ?_, ?_, hid, ?_⟩
          · intro f2 hf2; cases hf2; rfl
          · intro hn; cases hn
          · simp [hes]
        | none =>
          have htext : t = js "text" := by simpa using hfile
          cases hbc : body.content with
          | none =>
            rw [hbc] at hcont
            exact absurd rfl hcont
          | some c =>
            rw [hbc] at hcont hes
            refine ⟨t, c, rfl, hty, hcont, ?_, ?_, hid, ?_⟩
            · intro f2 hf2; cases hf2
            · intro _; exact ⟨rfl, htext⟩
            · simp [hes, hbc]

/-- The error middleware answers 400 or 500. -/
theorem errorMiddleware_status (err : JSError) :
    (errorMiddleware err).status = 400 ∨ (errorMiddleware err).status = 500 := by
  unfold errorMiddleware
  split
  · exact Or.inl rfl
  · exact Or.inr rfl

/-- Every rejection by `auth` is a 401. -/
theorem auth_respond_status {L : Libs} {a : Ambient} {s : Store} {hdr : Option JSString}
    {res : Response} (h : auth L a s hdr = .respond res) : res.status = 401 := by
  unfold auth at h
  simp only [] at h
  split at h
  · cases h; rfl
  · split at h
    · cases h; rfl
    · split at h
      · cases h; rfl
      · split at h
        · cases h; rfl
        · cases h

/-- The outcomes of the upload middleware. -/
theorem upload_cases (L : Libs) (a : Ambient) (ua : UploadAmbient) (s : Store)
    (file : Option UploadedFile) :
    (∃ err, upload L a ua s file = .error err) ∨
    (file = none ∧ upload L a ua s file = .ok (none, s)) ∨
    (∃ f, file = some f ∧ fileFilter f = .ok true ∧ f.size < fileSizeLimit ∧
      upload L a ua s file =
        .ok (some ⟨filename a ua f⟩,
          ⟨s.users, s.entries,
            s.files ++ [L.pathJoin ua.cwd (js "/uploads/" ++ filename a ua f)]⟩)) := by
  unfold upload
  cases file with
  | none => exact Or.inr (Or.inl ⟨rfl, rfl⟩)
  | some f =>
    simp only []
    have hff : fileFilter f = .ok true ∨ ∃ err, fileFilter f = .error err := by
      unfold fileFilter
      split
      · exact Or.inl rfl
      · exact Or.inr ⟨_, rfl⟩
    rcases hff with hff | ⟨err, hff⟩
    · rw [hff]
      simp only []
      by_cases hsize : fileSizeLimit ≤ f.size
      · simp only [hsize, if_true]
        exact Or.inl ⟨_, rfl⟩
      · simp only [hsize, if_false]
        exact Or.inr (Or.inr ⟨f, rfl, hff, Nat.lt_of_not_le hsize, rfl⟩)
    · rw [hff]
      exact Or.inl ⟨_, rfl⟩

/-- A create-entry route answered 201: the guard admitted a user, the upload
went through, and the handler created the entry. -/
theorem postEntriesRoute_created (L : Libs) (a : Ambient) (ua : UploadAmbient) (s : Store)
    (hdr : Option JSString) (body : EntryBody) (file : Option UploadedFile)
    (h : (postEntriesRoute L a ua s hdr body file).1.status = 201) :
    ∃ u stored s2, auth L a s hdr = .next u ∧ upload L a ua s file = .ok (stored, s2) ∧
      postEntriesRoute L a ua s hdr body file = postEntries a s2 u body stored ∧
      (postEntries a s2 u body stored).1.status = 201 := by
  unfold postEntriesRoute guarded at h ⊢
  cases hauth : auth L a s hdr with
  | respond res =>
    rw [hauth] at h
    have := auth_respond_status hauth
    simp only [] at h
    omega
  | next u =>
    rw [hauth] at h
    simp only [] at h ⊢
    cases hup : upload L a ua s file with
    | error err =>
      rw [hup] at h
      simp only [] at h
      rcases errorMiddleware_status err with h4 | h5 <;> omega
    | ok r =>
      obtain ⟨stored, s2⟩ := r
      rw [hup] at h
      exact ⟨u, stored, s2, rfl, rfl, rfl, h⟩

/-- Saving a loaded entry replaces the document found under its id, in place. -/
theorem JournalEntry.save_split {es : List JournalEntry} {id : ObjectId} {e e2 : JournalEntry}
    (h : JournalEntry.findById es id = some e) (hid : e2._id = id) :
    ∃ pre post, es = pre ++ e :: post ∧ (∀ x ∈ pre, x._id ≠ id) ∧
      e2.save es = pre ++ e2 :: post := by
  induction es with
  | nil => simp [JournalEntry.findById] at h
  | cons x xs ih =>
    by_cases hx : x._id = id
    · have hxe : x = e := by
        simpa [JournalEntry.findById, List.find?_cons, hx] using h
      subst hxe
      refine ⟨[], xs, rfl, by simp, ?_⟩
      unfold JournalEntry.save
      simp [hx, hid]
    · have h2 : JournalEntry.findById xs id = some e := by
        simpa [JournalEntry.findById, List.find?_cons, hx] using h
      obtain ⟨pre, post, h1, hpre, hsave⟩ := ih h2
      refine ⟨x :: pre, post, by rw [h1]; rfl, ?_, ?_⟩
      · intro y hy
        rcases List.mem_cons.1 hy with rfl | hy
        · exact hx
        · exact hpre y hy
      · unfold JournalEntry.save
        have hx2 : ¬ x._id = e2._id := by rw [hid]; exact hx
        simp [hx2, hsave]

/-- The store after a like: untouched, or the addressed entry with its likes
toggled, in place. -/
theorem postLike_store (s : Store) (u : User) (id : ObjectId) :
    ((postLike s u id).1.status ≠ 200 ∧ (postLike s u id).2 = s) ∨
      ∃ pre e post, s.entries = pre ++ e :: post ∧ e._id = id ∧
        (∀ x ∈ pre, x._id ≠ id) ∧ (postLike s u id).1.status = 200 ∧
        (postLike s u id).2 = ⟨s.users, pre ++ { e with likes :=
          (if u._id ∈ e.likes then e.likes.filter (fun v => decide (v ≠ u._id))
           else e.likes ++ [u._id]) } :: post, s.files⟩ := by
  cases hf : JournalEntry.findById s.entries id with
  | none => left; unfold postLike; simp [hf]
  | some e =>
    right
    have hid : e._id = id := JournalEntry.findById_id hf
    rw [postLike_found hf]
    obtain ⟨pre, post, h1, hpre, hsave⟩ := JournalEntry.save_split hf
      (show ({ e with likes :=
        (if u._id ∈ e.likes then e.likes.filter (fun v => decide (v ≠ u._id))
         else e.likes ++ [u._id]) } : JournalEntry)._id = id from hid)
    exact ⟨pre, e, post, h1, hid, hpre, rfl, by rw [hsave]⟩

/-- The store after an add-comment: untouched, or the addressed entry with new
comments, in place. -/
theorem postComment_store (a : Ambient) (s : Store) (u : User) (id : ObjectId)
    (text : Option JSString) :
    ((postComment a s u id text).1.status ≠ 200 ∧ (postComment a s u id text).2 = s) ∨
      ∃ pre e post comments, s.entries = pre ++ e :: post ∧ e._id = id ∧
        (∀ x ∈ pre, x._id ≠ id) ∧ (postComment a s u id text).1.status = 200 ∧
        (postComment a s u id text).2 =
          ⟨s.users, pre ++ { e with comments := comments } :: post, s.files⟩ := by
  unfold postComment
  split
  · left; exact ⟨by simp, rfl⟩
  · cases hf : JournalEntry.findById s.entries id with
    | none => left; exact ⟨by simp, rfl⟩
    | some e =>
      right
      have hid : e._id = id := JournalEntry.findById_id hf
      obtain ⟨pre, post, h1, hpre, hsave⟩ := JournalEntry.save_split hf
        (show ({ e with comments := e.comments ++
          [Comment.mk a.newId u._id (trim (text.getD [])) a.now] } : JournalEntry)._id = id
          from hid)
      exact ⟨pre, e, post, _, h1, hid, hpre, rfl, by simp only []; rw [hsave]⟩

/-- The store after a delete-comment: untouched, or the addressed entry with
new comments, in place. -/
theorem deleteComment_store (s : Store) (u : User) (id commentId : ObjectId) :
    ((deleteComment s u id commentId).1.status ≠ 200 ∧ (deleteComment s u id commentId).2 = s) ∨
      ∃ pre e post comments, s.entries = pre ++ e :: post ∧ e._id = id ∧
        (∀ x ∈ pre, x._id ≠ id) ∧ (deleteComment s u id commentId).1.status = 200 ∧
        (deleteComment s u id commentId).2 =
          ⟨s.users, pre ++ { e with comments := comments } :: post, s.files⟩ := by
  unfold deleteComment
  cases hf : JournalEntry.findById s.entries id with
  | none => left; exact ⟨by simp, rfl⟩
  | some e =>
    simp only []
    cases findIndex (fun comment => comment._id == commentId) e.comments with
    | none => left; exact ⟨by simp, rfl⟩
    | some i =>
      simp only []
      cases e.comments.get? i with
      | none => left; exact ⟨by simp, rfl⟩
      | some c =>
        simp only []
        split
        · left; exact ⟨by simp, rfl⟩
        · right
          have hid : e._id = id := JournalEntry.findById_id hf
          obtain ⟨pre, post, h1, hpre, hsave⟩ := JournalEntry.save_split hf
            (show ({ e with comments := e.comments.eraseIdx i } : JournalEntry)._id = id
              from hid)
          exact ⟨pre, e, post, _, h1, hid, hpre, rfl, by simp only []; rw [hsave]⟩

/-! ## Lemmas on runs of the API -/

/-- A property of the store that every request preserves holds after a run. -/
theorem run_induction (L : Libs) (P : Store → Prop)
    (hstep : ∀ s r, P s → P (handle L s r).2) :
    ∀ (requests : List Request) (s : Store), P s → P (run L s requests) := by
  intro requests
  induction requests with
  | nil => intro s h; exact h
  | cons r rs ih =>
    intro s h
    exact ih _ (hstep s r h)

/-- A guarded route leaves the store as it was, or is the handler run for the
admitted user. -/
theorem guarded_cases (L : Libs) (a : Ambient) (s : Store) (hdr : Option JSString)
    (k : User → Response × Store) :
    (guarded L a s hdr k).2 = s ∨ ∃ u, auth L a s hdr = .next u ∧ guarded L a s hdr k = k u := by
  unfold guarded
  cases h : auth L a s hdr with
  | next u => exact Or.inr ⟨u, rfl, rfl⟩
  | respond res => exact Or.inl rfl

/-- Register leaves the entries and the files; login leaves the store. -/
theorem postRegister_entries (L : Libs) (a : Ambient) (s : Store) (body : RegisterBody) :
    (postRegister L a s body).2.entries = s.entries ∧
    (postRegister L a s body).2.files = s.files := by
  unfold postRegister
  split
  · exact ⟨rfl, rfl⟩
  · simp only []
    split
    · exact ⟨rfl, rfl⟩
    · split
      · exact ⟨rfl, rfl⟩
      · split
        · exact ⟨rfl, rfl⟩
        · split <;> exact ⟨rfl, rfl⟩

/-- Login leaves the store. -/
theorem postLogin_store (L : Libs) (a : Ambient) (s : Store) (body : LoginBody) :
    (postLogin L a s body).2 = s := by
  unfold postLogin
  split
  · rfl
  · simp only []
    split
    · rfl
    · split <;> rfl

/-- The store after a delete-entry: untouched, or the entry found under the
id erased and, for an entry that is not text, its file unlinked. -/
theorem deleteEntry_store (L : Libs) (a : Ambient) (s : Store) (u : User) (id : ObjectId) :
    (deleteEntry L a s u id).2 = s ∨
      ∃ e, JournalEntry.findById s.entries id = some e ∧
        (deleteEntry L a s u id).2 =
          ⟨s.users, JournalEntry.findByIdAndDelete s.entries id,
            if e.type ≠ js "text" ∧ e.content ≠ [] then
              s.files.filter (fun f => decide (f ≠ L.pathJoin a.dirname e.content))
            else s.files⟩ := by
  unfold deleteEntry
  cases hf : JournalEntry.findById s.entries id with
  | none => left; rfl
  | some e =>
    simp only []
    split
    · left; rfl
    · right
      refine ⟨e, rfl, ?_⟩
      by_cases hc : e.type ≠ js "text" ∧ e.content ≠ []
      · have hb : (e.type != js "text" && e.content != []) = true := by
          simp [hc.1, hc.2]
        simp only [hb, if_true, hc, and_self, ne_eq, not_false_eq_true]
        congr 1
        by_cases hin : s.files.contains (L.pathJoin a.dirname e.content) = true
        · simp only [hin, if_true]
          congr 1
          funext f
          by_cases hfe : f = L.pathJoin a.dirname e.content <;> simp [bne, hfe]
        · simp only [hin, Bool.false_eq_true, if_false]
          symm
          rw [List.filter_eq_self]
          intro f hf2
          have : f ≠ L.pathJoin a.dirname e.content := by
            intro heq
            apply hin
            rw [← heq]
            simpa using hf2
          simpa using this
      · have hb : (e.type != js "text" && e.content != []) = false := by
          by_cases h1 : e.type = js "text"
          · simp [h1]
          · have h2 : e.content = [] := by
              by_contra h2
              exact hc ⟨h1, h2⟩
            simp [h2]
        simp only [hb, Bool.false_eq_true, if_false, hc]

/-- The store after the create-entry handler: untouched, or one entry with no
likes and no comments appended. -/
theorem postEntries_store (a : Ambient) (s : Store) (u : User) (body : EntryBody)
    (file : Option StoredFile) :
    (postEntries a s u body file).2 = s ∨
      ∃ e : JournalEntry, e.likes = [] ∧ e.comments = [] ∧
        (∀ f, file = some f → e.content = js "/uploads/" ++ f.filename) ∧
        (file = none → e.type = js "text") ∧
        (postEntries a s u body file).2 = ⟨s.users, s.entries ++ [e], s.files⟩ := by
  by_cases h : (postEntries a s u body file).1.status = 201
  · right
    obtain ⟨t, c, _, _, _, hfile, hnone, _, hpost⟩ := postEntries_created a s u body file h
    refine ⟨⟨a.newId, u._id, t, c, a.now, [], []⟩, rfl, rfl, hfile, fun hn => (hnone hn).2, ?_⟩
    rw [hpost]
  · left
    unfold postEntries at h ⊢
    split
    · rfl
    · rename_i htype
      simp only [htype, if_false] at h
      simp only []
      split
      · rfl
      · rename_i hfile
        simp only [hfile, if_false] at h
        revert h
        generalize JournalEntry.create _ s.entries = r
        intro h
        cases r with
        | error err => rfl
        | ok es => simp at h

/-- The store after the create-entry route: untouched; or the uploaded file
kept and nothing else (the handler rejected the request); or an entry appended,
with the uploaded file kept when there is one. -/
theorem postEntriesRoute_store (L : Libs) (a : Ambient) (ua : UploadAmbient) (s : Store)
    (hdr : Option JSString) (body : EntryBody) (file : Option UploadedFile) :
    (postEntriesRoute L a ua s hdr body file).2 = s ∨
    (∃ f, file = some f ∧ (postEntriesRoute L a ua s hdr body file).2 =
      ⟨s.users, s.entries,
        s.files ++ [L.pathJoin ua.cwd (js "/uploads/" ++ filename a ua f)]⟩) ∨
    (∃ e : JournalEntry, file = none ∧ e.likes = [] ∧ e.comments = [] ∧ e.type = js "text" ∧
      (postEntriesRoute L a ua s hdr body file).2 = ⟨s.users, s.entries ++ [e], s.files⟩) ∨
    (∃ (f : UploadedFile) (e : JournalEntry), file = some f ∧ e.likes = [] ∧ e.comments = [] ∧
      e.content = js "/uploads/" ++ filename a ua f ∧
      (postEntriesRoute L a ua s hdr body file).2 =
        ⟨s.users, s.entries ++ [e],
          s.files ++ [L.pathJoin ua.cwd (js "/uploads/" ++ filename a ua f)]⟩) := by
  unfold postEntriesRoute guarded
  cases auth L a s hdr with
  | respond res => exact Or.inl rfl
  | next u =>
    simp only []
    rcases upload_cases L a ua s file with ⟨err, he⟩ | ⟨hf, he⟩ | ⟨f, hf, _, _, he⟩
    · rw [he]; exact Or.inl rfl
    · rw [he]
      simp only []
      rcases postEntries_store a s u body none with h2 | ⟨e, h1, h2, _, h4, h5⟩
      · exact Or.inl h2
      · exact Or.inr (Or.inr (Or.inl ⟨e, hf, h1, h2, h4 rfl, h5⟩))
    · rw [he]
      simp only []
      rcases postEntries_store a
          ⟨s.users, s.entries,
            s.files ++ [L.pathJoin ua.cwd (js "/uploads/" ++ filename a ua f)]⟩
          u body (some ⟨filename a ua f⟩) with h2 | ⟨e, h1, h2, h3, _, h5⟩
      · exact Or.inr (Or.inl ⟨f, hf, h2⟩)
      · exact Or.inr (Or.inr (Or.inr ⟨f, e, hf, h1, h2, h3 _ rfl, h5⟩))

/-- Deleting by id only removes. -/
theorem mem_findByIdAndDelete_subset {es : List JournalEntry} {id : ObjectId}
    {x : JournalEntry} (h : x ∈ JournalEntry.findByIdAndDelete es id) : x ∈ es :=
  List.mem_of_mem_eraseP h

/-- Every request keeps the likes of every entry free of repetitions. -/
theorem handle_likes_nodup (L : Libs) (s : Store) (r : Request)
    (h : ∀ e ∈ s.entries, e.likes.Nodup) : ∀ e ∈ (handle L s r).2.entries, e.likes.Nodup := by
  cases r with
  | register a body =>
    show ∀ e ∈ (postRegister L a s body).2.entries, e.likes.Nodup
    rw [(postRegister_entries L a s body).1]; exact h
  | login a body =>
    show ∀ e ∈ (postLogin L a s body).2.entries, e.likes.Nodup
    rw [postLogin_store]; exact h
  | createEntry a ua hdr body file =>
    show ∀ e ∈ (postEntriesRoute L a ua s hdr body file).2.entries, e.likes.Nodup
    rcases postEntriesRoute_store L a ua s hdr body file with
      h1 | ⟨f, _, h1⟩ | ⟨e, _, hl, _, _, h1⟩ | ⟨f, e, _, hl, _, _, h1⟩
    · rw [h1]; exact h
    · rw [h1]; exact h
    · rw [h1]
      intro x hx
      rcases List.mem_append.1 hx with hx | hx
      · exact h x hx
      · rw [List.mem_singleton.1 hx, hl]; exact List.nodup_nil
    · rw [h1]
      intro x hx
      rcases List.mem_append.1 hx with hx | hx
      · exact h x hx
      · rw [List.mem_singleton.1 hx, hl]; exact List.nodup_nil
  | listEntries a hdr =>
    show ∀ e ∈ (guarded L a s hdr (getEntries s)).2.entries, e.likes.Nodup
    rcases guarded_cases L a s hdr (getEntries s) with h1 | ⟨u, _, h1⟩
    · rw [h1]; exact h
    · rw [h1]; exact h
  | like a hdr id =>
    show ∀ e ∈ (guarded L a s hdr (fun user => postLike s user id)).2.entries, e.likes.Nodup
    rcases guarded_cases L a s hdr (fun user => postLike s user id) with h1 | ⟨u, _, h1⟩
    · rw [h1]; exact h
    · rw [h1]
      rcases postLike_store s u id with ⟨_, h2⟩ | ⟨pre, e, post, hs, _, _, _, h2⟩
      · rw [h2]; exact h
      · rw [h2]
        have he : e.likes.Nodup := h e (by rw [hs]; simp)
        intro x hx
        simp only [List.mem_append, List.mem_cons] at hx
        rcases hx with hx | hx | hx
        · exact h x (by rw [hs]; simp [hx])
        · rw [hx]
          show (if u._id ∈ e.likes then e.likes.filter (fun v => decide (v ≠ u._id))
            else e.likes ++ [u._id]).Nodup
          split
          · exact he.filter _
          · rename_i hnot
            exact List.Nodup.append he (List.nodup_singleton _)
              (by
                intro y hy1 hy2
                rw [List.mem_singleton.1 hy2] at hy1
                exact hnot hy1)
        · exact h x (by rw [hs]; simp [hx])
  | comment a hdr id text =>
    show ∀ e ∈ (guarded L a s hdr (fun user => postComment a s user id text)).2.entries,
      e.likes.Nodup
    rcases guarded_cases L a s hdr (fun user => postComment a s user id text) with
      h1 | ⟨u, _, h1⟩
    · rw [h1]; exact h
    · rw [h1]
      rcases postComment_store a s u id text with ⟨_, h2⟩ | ⟨pre, e, post, c, hs, _, _, _, h2⟩
      · rw [h2]; exact h
      · rw [h2]
        intro x hx
        simp only [List.mem_append, List.mem_cons] at hx
        rcases hx with hx | hx | hx
        · exact h x (by rw [hs]; simp [hx])
        · rw [hx]; exact h e (by rw [hs]; simp)
        · exact h x (by rw [hs]; simp [hx])
  | deleteEntry a hdr id =>
    show ∀ e ∈ (guarded L a s hdr (fun user => deleteEntry L a s user id)).2.entries,
      e.likes.Nodup
    rcases guarded_cases L a s hdr (fun user => deleteEntry L a s user id) with
      h1 | ⟨u, _, h1⟩
    · rw [h1]; exact h
    · rw [h1]
      rcases deleteEntry_store L a s u id with h2 | ⟨e, _, h2⟩
      · rw [h2]; exact h
      · rw [h2]
        intro x hx
        exact h x (mem_findByIdAndDelete_subset hx)
  | deleteComment a hdr entryId commentId =>
    show ∀ e ∈ (guarded L a s hdr
      (fun user => deleteComment s user entryId commentId)).2.entries, e.likes.Nodup
    rcases guarded_cases L a s hdr (fun user => deleteComment s user entryId commentId) with
      h1 | ⟨u, _, h1⟩
    · rw [h1]; exact h
    · rw [h1]
      rcases deleteComment_store s u entryId commentId with
        ⟨_, h2⟩ | ⟨pre, e, post, c, hs, _, _, _, h2⟩
      · rw [h2]; exact h
      · rw [h2]
        intro x hx
        simp only [List.mem_append, List.mem_cons] at hx
        rcases hx with hx | hx | hx
        · exact h x (by rw [hs]; simp [hx])
        · rw [hx]; exact h e (by rw [hs]; simp)
        · exact h x (by rw [hs]; simp [hx])
  | currentUser a hdr =>
    show ∀ e ∈ (guarded L a s hdr (getUser s)).2.entries, e.likes.Nodup
    rcases guarded_cases L a s hdr (getUser s) with h1 | ⟨u, _, h1⟩
    · rw [h1]; exact h
    · rw [h1]; exact h

/-- Deleting by id excises the document found under the id. -/
theorem findByIdAndDelete_split {es : List JournalEntry} {id : ObjectId} {e : JournalEntry}
    (h : JournalEntry.findById es id = some e) :
    ∃ pre post, es = pre ++ e :: post ∧ JournalEntry.findByIdAndDelete es id = pre ++ post := by
  induction es with
  | nil => simp [JournalEntry.findById] at h
  | cons x xs ih =>
    by_cases hx : x._id = id
    · have hxe : x = e := by
        simpa [JournalEntry.findById, List.find?_cons, hx] using h
      subst hxe
      refine ⟨[], xs, rfl, ?_⟩
      simp [JournalEntry.findByIdAndDelete, List.eraseP_cons, hx]
    · have h2 : JournalEntry.findById xs id = some e := by
        simpa [JournalEntry.findById, List.find?_cons, hx] using h
      obtain ⟨pre, post, h1, hdel⟩ := ih h2
      refine ⟨x :: pre, post, by rw [h1]; rfl, ?_⟩
      unfold JournalEntry.findByIdAndDelete at hdel ⊢
      simp [List.eraseP_cons, hx, hdel]

/-- `FilesKept` only reads the backing files and the files present. -/
theorem FilesKept_of_keys {L : Libs} {root : JSString} {s s2 : Store}
    (h : FilesKept L root s) (hk : fileKeys L root s2 = fileKeys L root s)
    (hf : ∀ p ∈ s.files, p ∈ s2.files) : FilesKept L root s2 := by
  unfold FilesKept at h ⊢
  rw [hk]
  exact ⟨fun p hp => hf p (h.1 p hp), h.2⟩

/-- Replacing an entry by one with the same backing file keeps the keys. -/
theorem fileKeys_replace (L : Libs) (root : JSString) (users : List User)
    (files : List JSString) (pre post : List JournalEntry) (e e2 : JournalEntry)
    (h : backingFile L root e2 = backingFile L root e) :
    fileKeys L root ⟨users, pre ++ e2 :: post, files⟩ =
      List.map (backingFile L root) (pre ++ e :: post) := by
  simp [fileKeys, h]

/-! ## Lemmas on the files behind the entries -/

/-- A store with the same entries and the same files keeps `FilesKept`. -/
theorem FilesKept_same {L : Libs} {root : JSString} {s s2 : Store}
    (h : FilesKept L root s) (he : s2.entries = s.entries) (hf : s2.files = s.files) :
    FilesKept L root s2 :=
  FilesKept_of_keys h (by simp [fileKeys, he]) (by intro p hp; rw [hf]; exact hp)

/-- Replacing the likes or the comments of an entry keeps `FilesKept`. -/
theorem FilesKept_replace {L : Libs} {root : JSString} {s : Store}
    (h : FilesKept L root s) (pre post : List JournalEntry) (e e2 : JournalEntry)
    (hs : s.entries = pre ++ e :: post) (htype : e2.type = e.type)
    (hcontent : e2.content = e.content) :
    FilesKept L root ⟨s.users, pre ++ e2 :: post, s.files⟩ := by
  apply FilesKept_of_keys h
  · rw [fileKeys_replace L root s.users s.files pre post e e2
      (by simp [backingFile, htype, hcontent])]
    simp [fileKeys, hs]
  · intro p hp; exact hp

/-- Appending an entry keeps `FilesKept` when its backing file, if any, is
new and is written. -/
theorem FilesKept_append {L : Libs} {root : JSString} {s : Store}
    (h : FilesKept L root s) (e : JournalEntry) (files : List JSString)
    (hsub : ∀ p ∈ s.files, p ∈ files)
    (hnew : ∀ p, backingFile L root e = some p → p ∈ files ∧ p ∉ s.files) :
    FilesKept L root ⟨s.users, s.entries ++ [e], files⟩ := by
  unfold FilesKept at h ⊢
  have hk : fileKeys L root ⟨s.users, s.entries ++ [e], files⟩ =
      fileKeys L root s ++ [backingFile L root e] := by
    simp [fileKeys]
  rw [hk]
  constructor
  · intro p hp
    rcases List.mem_append.1 hp with hp | hp
    · exact hsub p (h.1 p hp)
    · exact (hnew p (List.mem_singleton.1 hp).symm).1
  · rw [List.pairwise_append]
    refine ⟨h.2, List.pairwise_singleton _ _, ?_⟩
    intro k1 hk1 k2 hk2 p hp hp2
    rw [List.mem_singleton.1 hk2] at hp2
    have := (hnew p hp2).2
    rw [hp] at hk1
    exact this (h.1 p hk1)

/-- Deleting an entry and unlinking its file keeps `FilesKept`. -/
theorem FilesKept_delete {L : Libs} {root : JSString} {s : Store}
    (h : FilesKept L root s) (id : ObjectId) (e : JournalEntry)
    (hf : JournalEntry.findById s.entries id = some e) :
    FilesKept L root ⟨s.users, JournalEntry.findByIdAndDelete s.entries id,
      if e.type ≠ js "text" ∧ e.content ≠ [] then
        s.files.filter (fun f => decide (f ≠ L.pathJoin root e.content))
      else s.files⟩ := by
  obtain ⟨pre, post, hs, hdel⟩ := findByIdAndDelete_split hf
  unfold FilesKept at h ⊢
  have hk : fileKeys L root s =
      pre.map (backingFile L root) ++ backingFile L root e :: post.map (backingFile L root) := by
    simp [fileKeys, hs]
  have hk2 : fileKeys L root ⟨s.users, JournalEntry.findByIdAndDelete s.entries id,
      if e.type ≠ js "text" ∧ e.content ≠ [] then
        s.files.filter (fun f => decide (f ≠ L.pathJoin root e.content))
      else s.files⟩ = pre.map (backingFile L root) ++ post.map (backingFile L root) := by
    simp [fileKeys, hdel]
  rw [hk2]
  rw [hk] at h
  obtain ⟨hA, hB⟩ := h
  have hB2 := List.pairwise_append.1 hB
  have hBpost := List.pairwise_cons.1 hB2.2.1
  constructor
  · intro p hp
    have hpold : p ∈ s.files := by
      apply hA
      rcases List.mem_append.1 hp with hp | hp
      · exact List.mem_append_left _ hp
      · exact List.mem_append_right _ (List.mem_cons_of_mem _ hp)
    show p ∈ (if e.type ≠ js "text" ∧ e.content ≠ [] then
        s.files.filter (fun f => decide (f ≠ L.pathJoin root e.content))
      else s.files)
    split
    · rename_i hc
      have hke : backingFile L root e = some (L.pathJoin root e.content) := by
        simp [backingFile, hc.1]
      have hne : p ≠ L.pathJoin root e.content := by
        intro heq
        rcases List.mem_append.1 hp with hp | hp
        · exact hB2.2.2 (some p) hp (backingFile L root e) (List.mem_cons_self _ _) p rfl
            (by rw [hke, heq])
        · exact hBpost.1 (some p) hp (L.pathJoin root e.content) hke (by rw [heq])
      simp [hpold, hne]
    · exact hpold
  · rw [List.pairwise_append]
    refine ⟨hB2.1, hBpost.2, ?_⟩
    intro k1 hk1 k2 hk2
    exact hB2.2.2 k1 hk1 k2 (List.mem_cons_of_mem _ hk2)

/-- Every admissible request keeps `FilesKept`. -/
theorem handle_FilesKept (L : Libs) (root : JSString) (s : Store) (r : Request)
    (hadm : admissible L root s r = true) (h : FilesKept L root s) :
    FilesKept L root (handle L s r).2 := by
  cases r with
  | register a body =>
    exact FilesKept_same h (postRegister_entries L a s body).1 (postRegister_entries L a s body).2
  | login a body =>
    show FilesKept L root (postLogin L a s body).2
    rw [postLogin_store]; exact h
  | createEntry a ua hdr body file =>
    show FilesKept L root (postEntriesRoute L a ua s hdr body file).2
    rcases postEntriesRoute_store L a ua s hdr body file with
      h1 | ⟨f, hf, h1⟩ | ⟨e, _, _, _, htext, h1⟩ | ⟨f, e, hf, _, _, hcontent, h1⟩
    · rw [h1]; exact h
    · rw [h1]
      exact FilesKept_of_keys h rfl (fun p hp => List.mem_append_left _ hp)
    · rw [h1]
      exact FilesKept_append h e s.files (fun p hp => hp)
        (by intro p hp; simp [backingFile, htext] at hp)
    · rw [h1]
      subst hf
      simp only [admissible, Bool.and_eq_true, beq_iff_eq, Bool.not_eq_true',
        List.contains_eq_any_beq, List.any_eq_false, beq_iff_eq] at hadm
      obtain ⟨hcwd, hfresh⟩ := hadm
      apply FilesKept_append h e _ (fun p hp => List.mem_append_left _ hp)
      intro p hp
      unfold backingFile at hp
      split at hp
      · cases hp
      · simp only [Option.some.injEq] at hp
        rw [hcontent] at hp
        rw [hcwd, ← hp]
        refine ⟨by simp, ?_⟩
        intro hin
        exact hfresh _ hin rfl
  | listEntries a hdr =>
    show FilesKept L root (guarded L a s hdr (getEntries s)).2
    rcases guarded_cases L a s hdr (getEntries s) with h1 | ⟨u, _, h1⟩
    · rw [h1]; exact h
    · rw [h1]; exact h
  | like a hdr id =>
    show FilesKept L root (guarded L a s hdr (fun user => postLike s user id)).2
    rcases guarded_cases L a s hdr (fun user => postLike s user id) with h1 | ⟨u, _, h1⟩
    · rw [h1]; exact h
    · rw [h1]
      rcases postLike_store s u id with ⟨_, h2⟩ | ⟨pre, e, post, hs, _, _, _, h2⟩
      · rw [h2]; exact h
      · rw [h2]; exact FilesKept_replace h pre post e _ hs rfl rfl
  | comment a hdr id text =>
    show FilesKept L root (guarded L a s hdr (fun user => postComment a s user id text)).2
    rcases guarded_cases L a s hdr (fun user => postComment a s user id text) with
      h1 | ⟨u, _, h1⟩
    · rw [h1]; exact h
    · rw [h1]
      rcases postComment_store a s u id text with ⟨_, h2⟩ | ⟨pre, e, post, c, hs, _, _, _, h2⟩
      · rw [h2]; exact h
      · rw [h2]; exact FilesKept_replace h pre post e _ hs rfl rfl
  | deleteEntry a hdr id =>
    show FilesKept L root (guarded L a s hdr (fun user => deleteEntry L a s user id)).2
    rcases guarded_cases L a s hdr (fun user => deleteEntry L a s user id) with
      h1 | ⟨u, _, h1⟩
    · rw [h1]; exact h
    · rw [h1]
      rcases deleteEntry_store L a s u id with h2 | ⟨e, hf, h2⟩
      · rw [h2]; exact h
      · rw [h2]
        have hdir : a.dirname = root := by simpa [admissible] using hadm
        rw [hdir]
        exact FilesKept_delete h id e hf
  | deleteComment a hdr entryId commentId =>
    show FilesKept L root
      (guarded L a s hdr (fun user => deleteComment s user entryId commentId)).2
    rcases guarded_cases L a s hdr (fun user => deleteComment s user entryId commentId) with
      h1 | ⟨u, _, h1⟩
    · rw [h1]; exact h
    · rw [h1]
      rcases deleteComment_store s u entryId commentId with
        ⟨_, h2⟩ | ⟨pre, e, post, c, hs, _, _, _, h2⟩
      · rw [h2]; exact h
      · rw [h2]; exact FilesKept_replace h pre post e _ hs rfl rfl
  | currentUser a hdr =>
    show FilesKept L root (guarded L a s hdr (getUser s)).2
    rcases guarded_cases L a s hdr (getUser s) with h1 | ⟨u, _, h1⟩
    · rw [h1]; exact h
    · rw [h1]; exact h

/-- An admissible run keeps `FilesKept`. -/
theorem run_FilesKept (L : Libs) (root : JSString) :
    ∀ (requests : List Request) (s : Store), FilesKept L root s →
      admissibleRun L root s requests = true → FilesKept L root (run L s requests) := by
  intro requests
  induction requests with
  | nil => intro s h _; exact h
  | cons r rs ih =>
    intro s h hadm
    simp only [admissibleRun, Bool.and_eq_true] at hadm
    exact ih _ (handle_FilesKept L root s r hadm.1 h) hadm.2

/-! ## Lemmas on the client -/

/-- The filter accepts every file part the client builds. -/
theorem fileFilter_mediaFile (type : JSString) (now : Date) (size : Nat) :
    fileFilter (mediaFile type now size) = .ok true := by
  unfold fileFilter mediaFile
  by_cases h1 : type = js "image"
  · rw [if_pos]; simp only [h1, if_true]; decide
  · by_cases h2 : type = js "video"
    · rw [if_pos]; simp only [h1, h2, if_true, if_false]; decide
    · rw [if_pos]; simp only [h1, h2, if_false]; decide

/-- Below sixty, the padded seconds are two decimal digits. -/
theorem padded_seconds : ∀ n < 60,
    (if n < 10 then js "0" else js "") ++ decimal n = [48 + n / 10, 48 + n % 10] := by
  decide

/-- `findById` finds a user as soon as one with that id is stored, and none otherwise. -/
theorem User.findById_cases (users : List User) (id : ObjectId) :
    (∃ y ∈ users, y._id = id ∧ User.findById users id = some y) ∨
    ((∀ x ∈ users, x._id ≠ id) ∧ User.findById users id = none) := by
  cases hf : User.findById users id with
  | none =>
    right
    refine ⟨?_, rfl⟩
    intro x hx hid
    unfold User.findById at hf
    have := List.find?_eq_none.1 hf x hx
    simp [hid] at this
  | some y =>
    left
    exact ⟨y, List.mem_of_find?_eq_some hf, User.findById_some_id hf, rfl⟩

/-! ## Lemmas on deleting an entry and on the rejections answered 400 -/

/-- When the author deletes a stored entry `e` (entries have unique ids and,
as the schema requires, a non-empty content), the call answers 200; the
entries left are exactly the others; the following list-all shows no entry
with the id of `e` and shows every other entry; if `e.type` is not `text`, the
path `path.join(__dirname, e.content)` names no file afterwards, whether or
not it named one, and all other files remain; for a `text` entry the files are
untouched. Where the upload was written is not part of this statement. -/
theorem deleteEntry_owner (L : Libs) (a : Ambient) (s : Store) (u : User) (id : ObjectId)
    (e : JournalEntry) (h : JournalEntry.findById s.entries id = some e)
    (hown : e.userId = u._id) (hc : e.content ≠ [])
    (hnd : (s.entries.map (fun x => x._id)).Nodup) :
    (deleteEntry L a s u id).1 = ⟨200, .message "Entry deleted successfully"⟩ ∧
    (∀ x, x ∈ (deleteEntry L a s u id).2.entries ↔ x ∈ s.entries ∧ x ≠ e) ∧
    (∀ v : User, ∃ views,
      (getEntries (deleteEntry L a s u id).2 v).1 = ⟨200, .entries views⟩ ∧
      (∀ w ∈ views, w._id ≠ e._id) ∧
      (∀ x ∈ s.entries, x ≠ e → populate s.users x ∈ views)) ∧
    (e.type ≠ js "text" → L.pathJoin a.dirname e.content ∉ (deleteEntry L a s u id).2.files) ∧
    (∀ f ∈ s.files, f ≠ L.pathJoin a.dirname e.content →
      f ∈ (deleteEntry L a s u id).2.files) ∧
    (e.type = js "text" → (deleteEntry L a s u id).2.files = s.files) ∧
    (deleteEntry L a s u id).2.users = s.users := by
  have hid : e._id = id := JournalEntry.findById_id h
  have hmem : e ∈ s.entries := JournalEntry.findById_mem h
  have hb : (e.userId != u._id) = false := by simpa using hown
  have hent : (deleteEntry L a s u id).2.entries = JournalEntry.findByIdAndDelete s.entries id := by
    unfold deleteEntry
    simp only [h, hb, Bool.false_eq_true, if_false]
  have hfiles : (deleteEntry L a s u id).2.files =
      if e.type != js "text" && e.content != [] then
        (if s.files.contains (L.pathJoin a.dirname e.content) then
          s.files.filter (fun f => f != L.pathJoin a.dirname e.content)
        else s.files)
      else s.files := by
    unfold deleteEntry
    simp only [h, hb, Bool.false_eq_true, if_false]
  have hdiff : ∀ x ∈ s.entries, (x._id ≠ id ↔ x ≠ e) := by
    intro x hx
    constructor
    · intro h1 h2; exact h1 (h2 ▸ hid)
    · intro h1 h2
      apply h1
      have := List.inj_on_of_nodup_map hnd hx hmem (h2.trans hid.symm)
      exact this
  have hmemiff : ∀ x, x ∈ (deleteEntry L a s u id).2.entries ↔ x ∈ s.entries ∧ x ≠ e := by
    intro x
    rw [hent, JournalEntry.mem_findByIdAndDelete hnd]
    constructor
    · rintro ⟨h1, h2⟩; exact ⟨h1, (hdiff x h1).1 h2⟩
    · rintro ⟨h1, h2⟩; exact ⟨h1, (hdiff x h1).2 h2⟩
  have husers : (deleteEntry L a s u id).2.users = s.users := by
    unfold deleteEntry
    simp only [h, hb, Bool.false_eq_true, if_false]
  refine ⟨?_, hmemiff, ?_, ?_, ?_, ?_, husers⟩
  · unfold deleteEntry
    simp only [h, hb, Bool.false_eq_true, if_false]
  · intro v
    refine ⟨_, rfl, ?_, ?_⟩
    · intro w hw
      obtain ⟨x, hx, rfl⟩ := List.mem_map.1 hw
      have hx2 : x ∈ (deleteEntry L a s u id).2.entries :=
        (List.perm_insertionSort newerFirst _).mem_iff.1 hx
      have := (hmemiff x).1 hx2
      show x._id ≠ e._id
      rw [hid]
      exact (hdiff x this.1).2 this.2
    · intro x hx hxe
      rw [husers]
      apply List.mem_map_of_mem
      exact (List.perm_insertionSort newerFirst _).mem_iff.2 ((hmemiff x).2 ⟨hx, hxe⟩)
  · intro ht
    rw [hfiles]
    have hcond : (e.type != js "text" && e.content != []) = true := by
      simp [ht, hc]
    simp only [hcond, if_true]
    split
    · simp
    · rename_i hcon
      simpa using hcon
  · intro f hf hfne
    rw [hfiles]
    split
    · split
      · simp [hf, hfne]
      · exact hf
    · exact hf
  · intro ht
    rw [hfiles]
    simp [ht]

/-- The owner delete of the sample store, where uploads lie under `__dirname`. -/
theorem deleteEntry_owner_witness :
    (deleteEntry demoLibs sampleAmbient sampleStore alice 7).1 =
      ⟨200, .message "Entry deleted successfully"⟩ ∧
    (∀ x, x ∈ (deleteEntry demoLibs sampleAmbient sampleStore alice 7).2.entries ↔
      x ∈ sampleStore.entries ∧ x ≠ photo) ∧
    (∀ v : User, ∃ views,
      (getEntries (deleteEntry demoLibs sampleAmbient sampleStore alice 7).2 v).1 =
        ⟨200, .entries views⟩ ∧
      (∀ w ∈ views, w._id ≠ photo._id) ∧
      (∀ x ∈ sampleStore.entries, x ≠ photo → populate sampleStore.users x ∈ views)) ∧
    (photo.type ≠ js "text" →
      demoLibs.pathJoin sampleAmbient.dirname photo.content ∉
        (deleteEntry demoLibs sampleAmbient sampleStore alice 7).2.files) ∧
    (∀ f ∈ sampleStore.files, f ≠ demoLibs.pathJoin sampleAmbient.dirname photo.content →
      f ∈ (deleteEntry demoLibs sampleAmbient sampleStore alice 7).2.files) ∧
    (photo.type = js "text" →
      (deleteEntry demoLibs sampleAmbient sampleStore alice 7).2.files = sampleStore.files) ∧
    (deleteEntry demoLibs sampleAmbient sampleStore alice 7).2.users = sampleStore.users :=
  deleteEntry_owner demoLibs sampleAmbient sampleStore alice 7 photo
    (by decide) (by decide) (by decide) (by decide)

/-- The validation rejections that the explicit guards and the size limit
answer with 400: missing register fields, missing login fields, a short
password, a username already stored, an email already stored, a missing entry
type, a missing file for an entry whose type is not `text`, a blank comment
text, and an upload that reaches the size limit. -/
theorem validation_rejected_400 (L : Libs) (a : Ambient) (ua : UploadAmbient) (s : Store) :
    (∀ body : RegisterBody,
      (truthy body.username = false ∨ truthy body.password = false ∨
        truthy body.displayName = false) →
      postRegister L a s body = (⟨400, .error "Please provide all required fields"⟩, s)) ∧
    (∀ body : LoginBody, (truthy body.username = false ∨ truthy body.password = false) →
      postLogin L a s body = (⟨400, .error "Please provide username and password"⟩, s)) ∧
    (∀ (body : RegisterBody) (p : JSString), body.password = some p → p.length < 6 →
      (postRegister L a s body).1.status = 400) ∧
    (∀ (body : RegisterBody) (n : JSString), body.username = some n →
      (∃ u ∈ s.users, u.username = n) → (postRegister L a s body).1.status = 400) ∧
    (∀ (body : RegisterBody) (e : JSString), body.email = some e → trim e ≠ [] →
      (∃ u ∈ s.users, u.email = some (trim e)) → (postRegister L a s body).1.status = 400) ∧
    (∀ (u : User) (body : EntryBody) (file : Option StoredFile), truthy body.type = false →
      postEntries a s u body file = (⟨400, .error "Type is required"⟩, s)) ∧
    (∀ (u : User) (body : EntryBody) (t : JSString), body.type = some t → t ≠ [] →
      t ≠ js "text" →
      postEntries a s u body none = (⟨400, .error "File is required for this entry type"⟩, s)) ∧
    (∀ (u : User) (id : ObjectId) (text : Option JSString),
      (∀ t, text = some t → ∀ c ∈ t, isWhiteSpace c = true) →
      postComment a s u id text = (⟨400, .error "Comment text is required"⟩, s)) ∧
    (∀ (f : UploadedFile) (hdr : Option JSString) (body : EntryBody) (u : User),
      fileFilter f = .ok true → fileSizeLimit ≤ f.size → auth L a s hdr = .next u →
      postEntriesRoute L a ua s hdr body (some f) = (⟨400, .error "File too large"⟩, s)) := by
  refine ⟨?_, ?_, ?_, ?_, ?_, ?_, ?_, ?_, ?_⟩
  · intro body h
    unfold postRegister
    rcases h with h | h | h <;> simp [h]
  · intro body h
    unfold postLogin
    rcases h with h | h <;> simp [h]
  · intro body p hp hlen
    unfold postRegister
    split
    · rfl
    · simp [hp, hlen]
  · intro body n hn hex
    exact postRegister_status_of_taken L a s body n hn hex
  · intro body e he ht hex
    exact postRegister_status_of_email_taken L a s body e he ht hex
  · intro u body file h
    unfold postEntries
    simp [h]
  · intro u body t ht ht0 htext
    unfold postEntries
    simp [ht, truthy_some_cons ht0, htext]
  · intro u id text h
    unfold postComment
    cases text with
    | none => simp [truthy]
    | some t =>
      have := (trim_eq_nil_iff t).2 (h t rfl)
      simp [this]
  · intro f hdr body u hf hsize hauth
    unfold postEntriesRoute guarded upload
    simp only [hauth, hf, hsize, if_true]
    rfl

/-! ## Claims -/

/-- C1: two like calls in succession by the same user on an existing entry
both answer 200 and leave the entry with exactly the same users in `likes` as
before the first call (and the same list when the user was not in it); every
other field of the entry, the users and the files are as before. -/
theorem postLike_twice_same_users (s : Store) (u : User) (id : ObjectId) (e : JournalEntry)
    (h : JournalEntry.findById s.entries id = some e) :
    (postLike s u id).1.status = 200 ∧
    (postLike (postLike s u id).2 u id).1.status = 200 ∧
    ∃ e2 : JournalEntry,
      JournalEntry.findById (postLike (postLike s u id).2 u id).2.entries id = some e2 ∧
      (∀ v, v ∈ e2.likes ↔ v ∈ e.likes) ∧
      e2 = { e with likes := e2.likes } ∧
      (u._id ∉ e.likes → e2.likes = e.likes) ∧
      (postLike (postLike s u id).2 u id).2.users = s.users ∧
      (postLike (postLike s u id).2 u id).2.files = s.files := by
  obtain ⟨e1, h1, hf1, he1, hin, hout, _⟩ := postLike_effect s u id e h
  obtain ⟨e2, h2, hf2, he2, hin2, hout2, _⟩ :=
    postLike_effect (postLike s u id).2 u id e1 hf1
  refine ⟨by rw [h1], by rw [h2], e2, hf2, ?_, ?_, ?_, ?_, ?_⟩
  · intro v
    by_cases hm : u._id ∈ e.likes
    · have hn : u._id ∉ e1.likes := by rw [hin hm]; simp
      rw [hout2 hn, hin hm]
      by_cases hv : v = u._id
      · subst hv; simp [hm]
      · simp [hv]
    · have hn : u._id ∈ e1.likes := by rw [hout hm]; simp
      rw [hin2 hn, hout hm]
      by_cases hv : v = u._id
      · subst hv; simp [hm]
      · simp [hv]
  · rw [he2, he1]
  · intro hm
    have hn : u._id ∈ e1.likes := by rw [hout hm]; simp
    rw [hin2 hn, hout hm, List.filter_append]
    have : e.likes.filter (fun v => decide (v ≠ u._id)) = e.likes := by
      rw [List.filter_eq_self]
      intro a ha
      have : a ≠ u._id := fun hh => hm (hh ▸ ha)
      simpa using this
    rw [this]; simp
  · rw [h2, h1]
  · rw [h2, h1]

theorem postLike_twice_same_users_witness :
    (postLike sampleStore bob 7).1.status = 200 ∧
    (postLike (postLike sampleStore bob 7).2 bob 7).1.status = 200 ∧
    ∃ e2 : JournalEntry,
      JournalEntry.findById (postLike (postLike sampleStore bob 7).2 bob 7).2.entries 7 =
        some e2 ∧
      (∀ v, v ∈ e2.likes ↔ v ∈ photo.likes) ∧
      e2 = { photo with likes := e2.likes } ∧
      (bob._id ∉ photo.likes → e2.likes = photo.likes) ∧
      (postLike (postLike sampleStore bob 7).2 bob 7).2.users = sampleStore.users ∧
      (postLike (postLike sampleStore bob 7).2 bob 7).2.files = sampleStore.files :=
  postLike_twice_same_users sampleStore bob 7 photo (by decide)

/-- C2: on an existing entry one like call answers 200 and flips the membership
of the user exactly once: when the user is in `likes`, the stored likes become
the old ones with every occurrence of the user filtered out (the others in
their order); when the user is not in `likes`, the user is appended at the end.
Nothing else of the entry changes. -/
theorem postLike_flips_membership (s : Store) (u : User) (id : ObjectId) (e : JournalEntry)
    (h : JournalEntry.findById s.entries id = some e) :
    ∃ e2 : JournalEntry,
      postLike s u id = (⟨200, .entry e2⟩, { s with entries := e2.save s.entries }) ∧
      JournalEntry.findById (postLike s u id).2.entries id = some e2 ∧
      e2 = { e with likes := e2.likes } ∧
      (u._id ∈ e.likes → e2.likes = e.likes.filter (fun v => decide (v ≠ u._id))) ∧
      (u._id ∉ e.likes → e2.likes = e.likes ++ [u._id]) ∧
      (u._id ∈ e2.likes ↔ u._id ∉ e.likes) :=
  postLike_effect s u id e h

theorem postLike_flips_membership_witness :
    ∃ e2 : JournalEntry,
      postLike sampleStore alice 7 =
        (⟨200, .entry e2⟩, { sampleStore with entries := e2.save sampleStore.entries }) ∧
      JournalEntry.findById (postLike sampleStore alice 7).2.entries 7 = some e2 ∧
      e2 = { photo with likes := e2.likes } ∧
      (alice._id ∈ photo.likes →
        e2.likes = photo.likes.filter (fun v => decide (v ≠ alice._id))) ∧
      (alice._id ∉ photo.likes → e2.likes = photo.likes ++ [alice._id]) ∧
      (alice._id ∈ e2.likes ↔ alice._id ∉ photo.likes) :=
  postLike_flips_membership sampleStore alice 7 photo (by decide)

/-- C3 (the code at a failing input): with libraries for which `compare`
accepts every hash of the password and `verify` inverts `sign` before expiry,
`bob` registers with the email `alice` (201), then `alice` registers with the
password `secret1` (201); her login with the same username and password is
answered 400 `Invalid login credentials`, because the lookup by username or
email finds `bob` first. -/
theorem register_then_login_shadowed :
    (∀ p salt, demoLibs.compare p (demoLibs.hash p salt) = true) ∧
    (∀ userId t t2, t2 / 1000 < t / 1000 + 604800 →
      demoLibs.verify (demoLibs.sign userId t) t2 = some userId) ∧
    (postRegister demoLibs (ambientAt 1) emptyStore
      ⟨some (js "bob"), some (js "hunter22"), some (js "Bob"), some (js "alice")⟩).1.status
        = 201 ∧
    (postRegister demoLibs (ambientAt 2) shadowStore
      ⟨some (js "alice"), some (js "secret1"), some (js "Alice"), none⟩).1.status = 201 ∧
    (postLogin demoLibs (ambientAt 3)
      (postRegister demoLibs (ambientAt 2) shadowStore
        ⟨some (js "alice"), some (js "secret1"), some (js "Alice"), none⟩).2
      ⟨some (js "alice"), some (js "secret1")⟩).1 =
        ⟨400, .error "Invalid login credentials"⟩ := by
  refine ⟨?_, ?_, by decide, by decide, by decide⟩
  · intro p salt
    simp [demoLibs]
  · intro userId t t2 ht
    simp [demoLibs, ht]

/-- C4: the `auth` middleware calls `next()` with user `u` exactly when the
header yields a non-empty token, the token verifies to a user id, and that id
resolves to the stored user `u` with `isActive = true`; the guarded handler then
runs for exactly that user. In every other case the response is 401 and the
outcome of the route does not depend on the handler (it is not run) and the
store is untouched. -/
theorem auth_guard_iff (L : Libs) (a : Ambient) (s : Store) (authorization : Option JSString) :
    (∀ u : User, auth L a s authorization = .next u ↔
      ∃ token userId, authorization.map (replace (js "Bearer ") []) = some token ∧
        token ≠ [] ∧ L.verify token a.now = some userId ∧
        User.findById s.users userId = some u ∧ u.isActive = true) ∧
    ((∃ u : User, auth L a s authorization = .next u ∧
        ∀ handler, guarded L a s authorization handler = handler u) ∨
     (∃ res : Response, auth L a s authorization = .respond res ∧ res.status = 401 ∧
        ∀ handler, guarded L a s authorization handler = (res, s))) := by
  constructor
  · intro u
    unfold auth
    cases htok : authorization.map (replace (js "Bearer ") []) with
    | none => simp [truthy]
    | some token =>
      cases token with
      | nil => simp [truthy]
      | cons c cs =>
        cases hv : L.verify (c :: cs) a.now with
        | none => simp [truthy, hv]
        | some userId =>
          cases hf : User.findById s.users userId with
          | none => simp [truthy, hv, hf]
          | some user =>
            cases ha : user.isActive with
            | false =>
              simp only [truthy, hv, hf, ha, Option.getD_some, Bool.not_true, Bool.not_false,
                Bool.false_eq_true, if_false, if_true]
              constructor
              · intro h; cases h
              · rintro ⟨t2, id2, h1, _, h3, h4, h5⟩
                cases h1
                rw [hv] at h3; cases h3
                rw [hf] at h4; cases h4
                rw [ha] at h5; cases h5
            | true =>
              simp only [truthy, hv, hf, ha, Option.getD_some, Bool.not_true,
                Bool.false_eq_true, if_false]
              constructor
              · intro h
                cases h
                exact ⟨c :: cs, userId, rfl, by simp, hv, hf, ha⟩
              · rintro ⟨t2, id2, h1, _, h3, h4, _⟩
                cases h1
                rw [hv] at h3; cases h3
                rw [hf] at h4; cases h4
                rfl
  · unfold guarded
    cases hr : auth L a s authorization with
    | next u => exact Or.inl ⟨u, rfl, fun _ => rfl⟩
    | respond res =>
      refine Or.inr ⟨res, rfl, ?_, fun _ => rfl⟩
      unfold auth at hr
      simp only [] at hr
      split at hr
      · cases hr; rfl
      · split at hr
        · cases hr; rfl
        · split at hr
          · cases hr; rfl
          · split at hr
            · cases hr; rfl
            · cases hr

/-- C5: `DELETE /api/entries/:id` by a user who is not the author of the
stored entry answers 403 and leaves the whole store as it was: the entries,
the files, and the entry itself. -/
theorem deleteEntry_not_owner (L : Libs) (a : Ambient) (s : Store) (u : User) (id : ObjectId)
    (e : JournalEntry) (h : JournalEntry.findById s.entries id = some e)
    (hne : e.userId ≠ u._id) :
    deleteEntry L a s u id = (⟨403, .error "Not authorized to delete this entry"⟩, s) ∧
    (deleteEntry L a s u id).2.entries = s.entries ∧
    (deleteEntry L a s u id).2.files = s.files ∧
    JournalEntry.findById (deleteEntry L a s u id).2.entries id = some e := by
  have hb : (e.userId != u._id) = true := by simpa using hne
  have h1 : deleteEntry L a s u id =
      (⟨403, .error "Not authorized to delete this entry"⟩, s) := by
    unfold deleteEntry
    simp only [h, hb, if_true]
  rw [h1]
  exact ⟨rfl, rfl, rfl, h⟩

theorem deleteEntry_not_owner_witness :
    deleteEntry demoLibs sampleAmbient sampleStore bob 7 =
      (⟨403, .error "Not authorized to delete this entry"⟩, sampleStore) ∧
    (deleteEntry demoLibs sampleAmbient sampleStore bob 7).2.entries = sampleStore.entries ∧
    (deleteEntry demoLibs sampleAmbient sampleStore bob 7).2.files = sampleStore.files ∧
    JournalEntry.findById (deleteEntry demoLibs sampleAmbient sampleStore bob 7).2.entries 7 =
      some photo :=
  deleteEntry_not_owner demoLibs sampleAmbient sampleStore bob 7 photo (by decide) (by decide)

/-- C6: with the server started from the repository root, an upload is
written under `/repo/uploads/` while delete-entry resolves the content against
`__dirname`, here `/repo/backend`. The author uploads an image and deletes the
entry: the call answers 200 and the entry is gone, but the uploaded file is
still in storage. -/
theorem deleteEntry_owner_file_kept :
    (run demoLibs emptyStore rootUploadRun).entries =
      [⟨10, 1, js "image", js "/uploads/5000-42.jpg", 5000, [], []⟩] ∧
    (run demoLibs emptyStore rootUploadRun).files = [js "/repo/uploads/5000-42.jpg"] ∧
    (handle demoLibs (run demoLibs emptyStore rootUploadRun)
      (.deleteEntry ⟨6000, 12, 17, js "/repo/backend"⟩ aliceHeader 10)).1 =
        ⟨200, .message "Entry deleted successfully"⟩ ∧
    (handle demoLibs (run demoLibs emptyStore rootUploadRun)
      (.deleteEntry ⟨6000, 12, 17, js "/repo/backend"⟩ aliceHeader 10)).2.entries = [] ∧
    (handle demoLibs (run demoLibs emptyStore rootUploadRun)
      (.deleteEntry ⟨6000, 12, 17, js "/repo/backend"⟩ aliceHeader 10)).2.files =
        [js "/repo/uploads/5000-42.jpg"] := by
  decide

/-- C7 (as stated, refuted): the store holds a user named `alice`, the request
has that username and a password of 8 characters, and its display name is the
empty string; the answer is `Please provide all required fields`, not
`Username already exists`. -/
theorem register_duplicate_username_blank_displayName :
    (∃ u ∈ sampleStore.users, u.username = js "alice") ∧
    6 ≤ (js "another1").length ∧
    postRegister demoLibs sampleAmbient sampleStore
        ⟨some (js "alice"), some (js "another1"), some (js ""), none⟩ =
      (⟨400, .error "Please provide all required fields"⟩, sampleStore) ∧
    (postRegister demoLibs sampleAmbient sampleStore
        ⟨some (js "alice"), some (js "another1"), some (js ""), none⟩).1.body ≠
      .error "Username already exists" := by
  decide

/-- C7 (amended): when the store holds a user with the non-empty username
`n`, a register request with username `n`, a password of at least 6 characters,
a non-empty display name and any email (or none) is answered 400
`Username already exists`, and the store is unchanged. -/
theorem register_duplicate_username (L : Libs) (a : Ambient) (s : Store) (body : RegisterBody)
    (n p d : JSString) (hu : body.username = some n) (hp : body.password = some p)
    (hd : body.displayName = some d) (hn : n ≠ []) (hd0 : d ≠ []) (hlen : 6 ≤ p.length)
    (hex : ∃ u ∈ s.users, u.username = n) :
    postRegister L a s body = (⟨400, .error "Username already exists"⟩, s) := by
  have hp0 : p ≠ [] := by
    intro h; subst h; simp at hlen
  have hsome : (User.findOne s.users (fun u => u.username == n)).isSome = true := by
    rw [User.findOne_isSome_iff]
    obtain ⟨u, hu1, hu2⟩ := hex
    exact ⟨u, hu1, by simp [hu2]⟩
  obtain ⟨w, hw⟩ := Option.isSome_iff_exists.1 hsome
  unfold postRegister
  simp only [hu, hp, hd, truthy_some_cons hn, truthy_some_cons hp0, truthy_some_cons hd0,
    Option.getD_some, Bool.not_true, Bool.or_self, Bool.false_eq_true, if_false,
    Nat.not_lt.2 hlen, hw]

theorem register_duplicate_username_witness :
    postRegister demoLibs sampleAmbient sampleStore
        ⟨some (js "alice"), some (js "another1"), some (js "Alice II"),
          some (js "a@example.org")⟩ =
      (⟨400, .error "Username already exists"⟩, sampleStore) :=
  register_duplicate_username demoLibs sampleAmbient sampleStore
    ⟨some (js "alice"), some (js "another1"), some (js "Alice II"), some (js "a@example.org")⟩
    (js "alice") (js "another1") (js "Alice II") rfl rfl rfl
    (by decide) (by decide) (by decide) (by decide)

/-- C8: a register request whose password has fewer than 6 characters is
answered 400 and the store is unchanged (no user is created), whatever the
other fields and the store. -/
theorem register_short_password (L : Libs) (a : Ambient) (s : Store) (body : RegisterBody)
    (p : JSString) (hp : body.password = some p) (hlen : p.length < 6) :
    (postRegister L a s body).1.status = 400 ∧ (postRegister L a s body).2 = s := by
  unfold postRegister
  split
  · exact ⟨rfl, rfl⟩
  · simp [hp, hlen]

theorem register_short_password_witness :
    (postRegister demoLibs sampleAmbient sampleStore
        ⟨some (js "carol"), some (js "12345"), some (js "Carol"), none⟩).1.status = 400 ∧
    (postRegister demoLibs sampleAmbient sampleStore
        ⟨some (js "carol"), some (js "12345"), some (js "Carol"), none⟩).2 = sampleStore :=
  register_short_password demoLibs sampleAmbient sampleStore
    ⟨some (js "carol"), some (js "12345"), some (js "Carol"), none⟩ (js "12345") rfl
    (by decide)

/-- C9: for a register request with all required fields, a password of at
least 6 characters and an unused username, the answer is
`Email already exists` if and only if an email is given, is not blank after
trimming, and some stored user has the trimmed email; that answer is a 400 and
leaves the store unchanged. Otherwise (in particular for every request without
email or with a blank one), when the generated id is fresh and the hash is a
non-empty string, the answer is 201 and one user is appended whose email is the
trimmed value when one was given and not blank, and absent otherwise. -/
theorem register_email_conflict_iff (L : Libs) (a : Ambient) (s : Store) (body : RegisterBody)
    (n p d : JSString) (hu : body.username = some n) (hp : body.password = some p)
    (hd : body.displayName = some d) (hn : n ≠ []) (hd0 : d ≠ []) (hlen : 6 ≤ p.length)
    (hfree : ∀ u ∈ s.users, u.username ≠ n) :
    ((postRegister L a s body).1.body = .error "Email already exists" ↔
        ∃ e, body.email = some e ∧ trim e ≠ [] ∧ ∃ u ∈ s.users, u.email = some (trim e)) ∧
    ((postRegister L a s body).1.body = .error "Email already exists" →
        postRegister L a s body = (⟨400, .error "Email already exists"⟩, s)) ∧
    ((∀ u ∈ s.users, u._id ≠ a.newId) → L.hash p a.salt ≠ [] →
      (¬ ∃ e, body.email = some e ∧ trim e ≠ [] ∧ ∃ u ∈ s.users, u.email = some (trim e)) →
      ∃ nu : User,
        postRegister L a s body =
          (⟨201, .session (some "User created successfully") (L.sign a.newId a.now)
              ⟨a.newId, n, d, nu.email⟩⟩, { s with users := s.users ++ [nu] }) ∧
        nu = ⟨a.newId, n, L.hash p a.salt, d, nu.email, true, a.now⟩ ∧
        (∀ e, body.email = some e → trim e ≠ [] → nu.email = some (trim e)) ∧
        ((body.email = none ∨ ∃ e, body.email = some e ∧ trim e = []) → nu.email = none)) := by
  rw [postRegister_fresh_username L a s body n p d hu hp hd hn hd0 hlen hfree]
  cases hg : (truthy body.email && trim (body.email.getD []) != []) with
  | true =>
    obtain ⟨e, he, hte⟩ := (emailGiven_iff body.email).1 hg
    simp only [he, Option.getD_some, Bool.true_and, if_true]
    cases hfound : (User.findOne s.users (fun u => u.email == some (trim e))).isSome with
    | true =>
      obtain ⟨w, hw, hwe⟩ := (User.findOne_isSome_iff _ _).1 hfound
      have hwe2 : w.email = some (trim e) := by simpa using hwe
      simp only [if_true, true_iff, forall_const, true_and]
      refine ⟨⟨e, rfl, hte, w, hw, hwe2⟩, ?_⟩
      intro _ _ hno
      exact absurd ⟨e, rfl, hte, w, hw, hwe2⟩ hno
    | false =>
      have hnone : ∀ u ∈ s.users, u.email ≠ some (trim e) := by
        intro u hu1 hu2
        have : (User.findOne s.users (fun u => u.email == some (trim e))).isSome = true :=
          (User.findOne_isSome_iff _ _).2 ⟨u, hu1, by simp [hu2]⟩
        rw [hfound] at this; cases this
      have hnd := User.save_ne_duplicate_email
        { _id := a.newId, username := n, password := L.hash p a.salt, displayName := d,
          email := some (trim e), isActive := true, createdAt := a.now } s.users
        (fun _ => hnone)
      have hrhs : ¬ ∃ e2, some e = some e2 ∧ trim e2 ≠ [] ∧
          ∃ u ∈ s.users, u.email = some (trim e2) := by
        rintro ⟨e2, h1, _, u, hu1, hu2⟩
        cases h1
        exact hnone u hu1 hu2
      simp only [Bool.false_eq_true, if_false]
      refine ⟨?_, ?_, ?_⟩
      · constructor
        · intro hb
          exfalso
          revert hb hnd
          generalize User.save _ s.users = r
          intro hnd hb
          cases r with
          | ok us => simp at hb
          | error err =>
            cases err with
            | validation => simp at hb
            | duplicateKey k => cases k <;> simp at hb hnd
        · intro h; exact absurd h hrhs
      · intro hb
        exfalso
        revert hb hnd
        generalize User.save _ s.users = r
        intro hnd hb
        cases r with
        | ok us => simp at hb
        | error err =>
          cases err with
          | validation => simp at hb
          | duplicateKey k => cases k <;> simp at hb hnd
      · intro hid hh _
        rw [User.save_ok _ _ hn hh hd0 hid hfree (fun _ => hnone)]
        exact ⟨⟨a.newId, n, L.hash p a.salt, d, some (trim e), true, a.now⟩, rfl, rfl,
          fun e2 h1 _ => by cases h1; rfl,
          fun h => by
            rcases h with h | ⟨e2, h1, h2⟩
            · cases h
            · cases h1; exact absurd h2 hte⟩
  | false =>
    have hng : ¬ ∃ e, body.email = some e ∧ trim e ≠ [] := by
      intro h
      have := (emailGiven_iff body.email).2 h
      rw [hg] at this; cases this
    have hnd := User.save_ne_duplicate_email
      { _id := a.newId, username := n, password := L.hash p a.salt, displayName := d,
        email := none, isActive := true, createdAt := a.now } s.users
      (fun h => by simp at h)
    have hrhs : ¬ ∃ e, body.email = some e ∧ trim e ≠ [] ∧
        ∃ u ∈ s.users, u.email = some (trim e) := by
      rintro ⟨e, h1, h2, _⟩
      exact hng ⟨e, h1, h2⟩
    simp only [Bool.false_and, Bool.false_eq_true, if_false]
    refine ⟨?_, ?_, ?_⟩
    · constructor
      · intro hb
        exfalso
        revert hb hnd
        generalize User.save _ s.users = r
        intro hnd hb
        cases r with
        | ok us => simp at hb
        | error err =>
          cases err with
          | validation => simp at hb
          | duplicateKey k => cases k <;> simp at hb hnd
      · intro h; exact absurd h hrhs
    · intro hb
      exfalso
      revert hb hnd
      generalize User.save _ s.users = r
      intro hnd hb
      cases r with
      | ok us => simp at hb
      | error err =>
        cases err with
        | validation => simp at hb
        | duplicateKey k => cases k <;> simp at hb hnd
    · intro hid hh _
      rw [User.save_ok _ _ hn hh hd0 hid hfree (fun h => by simp at h)]
      exact ⟨⟨a.newId, n, L.hash p a.salt, d, none, true, a.now⟩, rfl, rfl,
        fun e2 h1 h2 => absurd ⟨e2, h1, h2⟩ hng, fun _ => rfl⟩

theorem register_email_conflict_iff_witness :
    ((postRegister demoLibs sampleAmbient sampleStore
        ⟨some (js "carol"), some (js "secret3"), some (js "Carol"),
          some (js "  bob@example.com ")⟩).1.body = .error "Email already exists" ↔
        ∃ e, some (js "  bob@example.com ") = some e ∧ trim e ≠ [] ∧
          ∃ u ∈ sampleStore.users, u.email = some (trim e)) ∧
    ((postRegister demoLibs sampleAmbient sampleStore
        ⟨some (js "carol"), some (js "secret3"), some (js "Carol"),
          some (js "  bob@example.com ")⟩).1.body = .error "Email already exists" →
        postRegister demoLibs sampleAmbient sampleStore
          ⟨some (js "carol"), some (js "secret3"), some (js "Carol"),
            some (js "  bob@example.com ")⟩ =
          (⟨400, .error "Email already exists"⟩, sampleStore)) ∧
    ((∀ u ∈ sampleStore.users, u._id ≠ sampleAmbient.newId) →
      demoLibs.hash (js "secret3") sampleAmbient.salt ≠ [] →
      (¬ ∃ e, some (js "  bob@example.com ") = some e ∧ trim e ≠ [] ∧
          ∃ u ∈ sampleStore.users, u.email = some (trim e)) →
      ∃ nu : User,
        postRegister demoLibs sampleAmbient sampleStore
          ⟨some (js "carol"), some (js "secret3"), some (js "Carol"),
            some (js "  bob@example.com ")⟩ =
          (⟨201, .session (some "User created successfully")
              (demoLibs.sign sampleAmbient.newId sampleAmbient.now)
              ⟨sampleAmbient.newId, js "carol", js "Carol", nu.email⟩⟩,
           { sampleStore with users := sampleStore.users ++ [nu] }) ∧
        nu = ⟨sampleAmbient.newId, js "carol",
              demoLibs.hash (js "secret3") sampleAmbient.salt, js "Carol", nu.email, true,
              sampleAmbient.now⟩ ∧
        (∀ e, some (js "  bob@example.com ") = some e → trim e ≠ [] →
          nu.email = some (trim e)) ∧
        ((some (js "  bob@example.com ") = none ∨
            ∃ e, some (js "  bob@example.com ") = some e ∧ trim e = []) →
          nu.email = none)) :=
  register_email_conflict_iff demoLibs sampleAmbient sampleStore
    ⟨some (js "carol"), some (js "secret3"), some (js "Carol"),
      some (js "  bob@example.com ")⟩
    (js "carol") (js "secret3") (js "Carol") rfl rfl rfl
    (by decide) (by decide) (by decide) (by decide)

/-- C10 (as stated, refuted): in a store reached by two registrations and a
deactivation, `alice` is inactive and `secret1` is her correct password, yet a
login with her username and that password is answered 200 with a token: the
lookup finds the active user `bob`, whose email is `alice` and whose password
is the same. -/
theorem login_inactive_shadowed :
    (∃ u ∈ deactivatedStore.users, u.isActive = false ∧ u.username = js "alice" ∧
      demoLibs.compare (js "secret1") u.password = true) ∧
    (postLogin demoLibs (ambientAt 4) deactivatedStore
        ⟨some (js "alice"), some (js "secret1")⟩).1 =
      ⟨200, .session none (demoLibs.sign 2 4000)
        ⟨2, js "bob", js "Bob", some (js "alice")⟩⟩ := by
  decide

/-- C10 (amended): for a user with `isActive = false`, a login with that
user's username or email and any non-empty password (the correct one included)
is answered 400 `Invalid login credentials`, with no token and the store
unchanged, provided no active user has that same string as username or email;
and whenever a login with that identifier does return a token, the token is
issued for an active user, different from the inactive one, who carries the
identifier and whose password was accepted. -/
theorem login_inactive_rejected (L : Libs) (a : Ambient) (s : Store) (body : LoginBody)
    (u : User) (ident pw : JSString) (_hu : u ∈ s.users) (hin : u.isActive = false)
    (_hm : u.username = ident ∨ u.email = some ident)
    (hb : body.username = some ident) (hp : body.password = some pw)
    (hi : ident ≠ []) (hpw : pw ≠ []) :
    ((∀ v ∈ s.users, v.isActive = true → v.username ≠ ident ∧ v.email ≠ some ident) →
      postLogin L a s body = (⟨400, .error "Invalid login credentials"⟩, s)) ∧
    (∀ msg token info, (postLogin L a s body).1.body = .session msg token info →
      ∃ v ∈ s.users, v.isActive = true ∧ v ≠ u ∧
        (v.username = ident ∨ v.email = some ident) ∧
        L.compare pw v.password = true ∧ info.id = v._id ∧ token = L.sign v._id a.now) := by
  have hunf : postLogin L a s body =
      match User.findOne s.users
          (fun u => (u.username == ident || u.email == some ident) && u.isActive) with
      | none => (⟨400, .error "Invalid login credentials"⟩, s)
      | some user =>
        if !L.compare pw user.password then
          (⟨400, .error "Invalid login credentials"⟩, s)
        else
          (⟨200, .session none (L.sign user._id a.now)
              ⟨user._id, user.username, user.displayName, user.email⟩⟩, s) := by
    unfold postLogin
    simp only [hb, hp, truthy_some_cons hi, truthy_some_cons hpw, Option.getD_some,
      Bool.not_true, Bool.or_self, Bool.false_eq_true, if_false]
  rw [hunf]
  constructor
  · intro hno
    have : User.findOne s.users
        (fun u => (u.username == ident || u.email == some ident) && u.isActive) = none := by
      rw [User.findOne_eq_none_iff]
      intro v hv
      cases hva : v.isActive with
      | false => simp
      | true =>
        have := hno v hv hva
        simp [this.1, this.2]
    rw [this]
  · intro msg token info hbody
    cases hf : User.findOne s.users
        (fun u => (u.username == ident || u.email == some ident) && u.isActive) with
    | none => rw [hf] at hbody; simp at hbody
    | some v =>
      rw [hf] at hbody
      have hv : v ∈ s.users := List.mem_of_find?_eq_some hf
      have hpv := List.find?_some hf
      simp only [Bool.and_eq_true, Bool.or_eq_true, beq_iff_eq] at hpv
      cases hc : L.compare pw v.password with
      | false => simp [hc] at hbody
      | true =>
        simp only [hc, Bool.not_true, Bool.false_eq_true, if_false, Body.session.injEq] at hbody
        obtain ⟨_, h2, h3⟩ := hbody
        refine ⟨v, hv, hpv.2, ?_, hpv.1, hc, ?_, h2.symm⟩
        · intro hvu
          rw [hvu, hin] at hpv
          exact absurd hpv.2 (by simp)
        · rw [← h3]

theorem login_inactive_rejected_witness :
    ((∀ v ∈ dormantStore.users, v.isActive = true →
        v.username ≠ js "alice" ∧ v.email ≠ some (js "alice")) →
      postLogin demoLibs sampleAmbient dormantStore ⟨some (js "alice"), some (js "secret1")⟩ =
        (⟨400, .error "Invalid login credentials"⟩, dormantStore)) ∧
    (∀ msg token info,
      (postLogin demoLibs sampleAmbient dormantStore
        ⟨some (js "alice"), some (js "secret1")⟩).1.body = .session msg token info →
      ∃ v ∈ dormantStore.users, v.isActive = true ∧ v ≠ { alice with isActive := false } ∧
        (v.username = js "alice" ∨ v.email = some (js "alice")) ∧
        demoLibs.compare (js "secret1") v.password = true ∧ info.id = v._id ∧
        token = demoLibs.sign v._id sampleAmbient.now) :=
  login_inactive_rejected demoLibs sampleAmbient dormantStore
    ⟨some (js "alice"), some (js "secret1")⟩ { alice with isActive := false }
    (js "alice") (js "secret1") (by decide) rfl (by decide) rfl rfl (by decide) (by decide)

/-- C11: for a comment text that is absent, empty or made of white space
only, and any entry id (stored or not), add-comment answers 400
`Comment text is required` and returns the store as it was, so the comments of
every entry are unchanged. -/
theorem postComment_blank (a : Ambient) (s : Store) (u : User) (id : ObjectId)
    (text : Option JSString)
    (hblank : ∀ t, text = some t → ∀ c ∈ t, isWhiteSpace c = true) :
    postComment a s u id text = (⟨400, .error "Comment text is required"⟩, s) ∧
    ∀ entryId, (JournalEntry.findById (postComment a s u id text).2.entries entryId).map
        (fun e => e.comments) =
      (JournalEntry.findById s.entries entryId).map (fun e => e.comments) := by
  have h1 : postComment a s u id text = (⟨400, .error "Comment text is required"⟩, s) := by
    unfold postComment
    cases text with
    | none => simp [truthy]
    | some t =>
      have := (trim_eq_nil_iff t).2 (hblank t rfl)
      simp [this]
  rw [h1]
  exact ⟨rfl, fun _ => rfl⟩

theorem postComment_blank_witness :
    postComment sampleAmbient sampleStore bob 7 (some (js "   ")) =
      (⟨400, .error "Comment text is required"⟩, sampleStore) ∧
    ∀ entryId,
      (JournalEntry.findById
        (postComment sampleAmbient sampleStore bob 7 (some (js "   "))).2.entries entryId).map
        (fun e => e.comments) =
      (JournalEntry.findById sampleStore.entries entryId).map (fun e => e.comments) :=
  postComment_blank sampleAmbient sampleStore bob 7 (some (js "   ")) (by decide)

/-- C12: for a stored entry `e`, a user `u` and a text with at least one
character that is not white space, add-comment answers 200; the stored entry
is `e` with exactly one comment appended at the end, whose author is `u` and
whose text is the trimmed input (not empty); the earlier comments are kept in
place and the count grows by one; the response shows the same comments with
their authors populated. -/
theorem postComment_appends (a : Ambient) (s : Store) (u : User) (id : ObjectId)
    (e : JournalEntry) (t : JSString)
    (h : JournalEntry.findById s.entries id = some e)
    (htext : ∃ c ∈ t, isWhiteSpace c = false) :
    (postComment a s u id (some t)).1.status = 200 ∧
    JournalEntry.findById (postComment a s u id (some t)).2.entries id =
      some { e with comments := e.comments ++ [Comment.mk a.newId u._id (trim t) a.now] } ∧
    (postComment a s u id (some t)).1.body = .commented
      { _id := e._id, userId := e.userId, type := e.type, content := e.content,
        timestamp := e.timestamp, likes := e.likes,
        comments := (e.comments ++ [Comment.mk a.newId u._id (trim t) a.now]).map
          (populateComment s.users) } ∧
    (e.comments ++ [Comment.mk a.newId u._id (trim t) a.now]).length =
      e.comments.length + 1 ∧
    trim t ≠ [] := by
  have htrim : trim t ≠ [] := by
    intro h0
    obtain ⟨c, hc, hw⟩ := htext
    have := (trim_eq_nil_iff t).1 h0 c hc
    rw [hw] at this; cases this
  have ht0 : t ≠ [] := by
    intro h0; subst h0; exact htrim rfl
  obtain ⟨e2, he2⟩ : ∃ e2 : JournalEntry,
      e2 = { e with comments := e.comments ++ [Comment.mk a.newId u._id (trim t) a.now] } :=
    ⟨_, rfl⟩
  have h1 : postComment a s u id (some t) =
      (⟨200, .commented
          { _id := e._id, userId := e.userId, type := e.type, content := e.content,
            timestamp := e.timestamp, likes := e.likes,
            comments := (e.comments ++ [Comment.mk a.newId u._id (trim t) a.now]).map
              (populateComment s.users) }⟩,
       { s with entries := e2.save s.entries }) := by
    unfold postComment
    simp [truthy_some_cons ht0, htrim, h, he2]
  rw [h1, ← he2]
  refine ⟨rfl, ?_, rfl, by simp, htrim⟩
  have hid : e._id = id := JournalEntry.findById_id h
  exact JournalEntry.findById_save h (show e2._id = id by rw [he2]; exact hid)

theorem postComment_appends_witness :
    (postComment sampleAmbient sampleStore bob 7 (some (js "  nice  "))).1.status = 200 ∧
    JournalEntry.findById
        (postComment sampleAmbient sampleStore bob 7 (some (js "  nice  "))).2.entries 7 =
      some { photo with comments := photo.comments ++
        [Comment.mk sampleAmbient.newId bob._id (trim (js "  nice  ")) sampleAmbient.now] } ∧
    (postComment sampleAmbient sampleStore bob 7 (some (js "  nice  "))).1.body = .commented
      { _id := photo._id, userId := photo.userId, type := photo.type, content := photo.content,
        timestamp := photo.timestamp, likes := photo.likes,
        comments := (photo.comments ++
          [Comment.mk sampleAmbient.newId bob._id (trim (js "  nice  ")) sampleAmbient.now]).map
            (populateComment sampleStore.users) } ∧
    (photo.comments ++
        [Comment.mk sampleAmbient.newId bob._id (trim (js "  nice  ")) sampleAmbient.now]).length =
      photo.comments.length + 1 ∧
    trim (js "  nice  ") ≠ [] :=
  postComment_appends sampleAmbient sampleStore bob 7 photo (js "  nice  ")
    (by decide) (by decide)

/-- C13: for a stored entry `e` (comment ids unique) and a comment `c` of `e`,
delete-comment answers 403 exactly when the requester is neither the author of
`c` nor the owner of `e`, and then the store is unchanged; when the requester
is the author of `c` or the owner of `e`, it answers 200 and `c` is gone from
the stored comments. -/
theorem deleteComment_forbidden_iff (s : Store) (u : User) (entryId : ObjectId)
    (e : JournalEntry) (c : Comment)
    (hf : JournalEntry.findById s.entries entryId = some e) (hc : c ∈ e.comments)
    (hnd : (e.comments.map (fun x => x._id)).Nodup) :
    ((deleteComment s u entryId c._id).1.status = 403 ↔
      (c.userId ≠ u._id ∧ e.userId ≠ u._id)) ∧
    ((c.userId ≠ u._id ∧ e.userId ≠ u._id) →
      deleteComment s u entryId c._id =
        (⟨403, .error "Not authorized to delete this comment"⟩, s)) ∧
    ((c.userId = u._id ∨ e.userId = u._id) →
      (deleteComment s u entryId c._id).1 = ⟨200, .message "Comment deleted successfully"⟩ ∧
      ∃ e2, JournalEntry.findById (deleteComment s u entryId c._id).2.entries entryId = some e2 ∧
        e2.comments = e.comments.erase c ∧ c ∉ e2.comments) := by
  obtain ⟨pre, post, hsplit⟩ := List.append_of_mem hc
  have hnd2 : e.comments.Nodup := List.Nodup.of_map _ hnd
  have hcpre : c ∉ pre := by
    intro hin
    rw [hsplit] at hnd2
    have := (List.nodup_append.1 hnd2).2.2
    exact this hin (List.mem_cons_self _ _)
  have hcpost : c ∉ post := by
    rw [hsplit] at hnd2
    exact (List.nodup_cons.1 (List.nodup_append.1 hnd2).2.1).1
  have hpre : ∀ x ∈ pre, x._id ≠ c._id := by
    intro x hx hxc
    have hxm : x ∈ e.comments := by rw [hsplit]; exact List.mem_append_left _ hx
    have := List.inj_on_of_nodup_map hnd hxm hc hxc
    exact hcpre (this ▸ hx)
  have hid : e._id = entryId := JournalEntry.findById_id hf
  rw [deleteComment_found s u entryId c._id e pre post c hf hsplit rfl hpre]
  by_cases hcond : c.userId ≠ u._id ∧ e.userId ≠ u._id
  · rw [if_pos hcond]
    refine ⟨⟨fun _ => hcond, fun _ => rfl⟩, fun _ => rfl, ?_⟩
    intro h
    rcases h with h | h
    · exact absurd h hcond.1
    · exact absurd h hcond.2
  · rw [if_neg hcond]
    refine ⟨⟨fun h => by simp at h, fun h => absurd h hcond⟩, fun h => absurd h hcond, ?_⟩
    intro _
    refine ⟨rfl, { e with comments := pre ++ post }, ?_, ?_, ?_⟩
    · exact JournalEntry.findById_save hf hid
    · show pre ++ post = e.comments.erase c
      rw [hsplit, List.erase_append_right _ hcpre]
      simp
    · show c ∉ pre ++ post
      simp [hcpre, hcpost]

theorem deleteComment_forbidden_iff_witness :
    ((deleteComment chatStore bob 9 thanks._id).1.status = 403 ↔
      (thanks.userId ≠ bob._id ∧ diary.userId ≠ bob._id)) ∧
    ((thanks.userId ≠ bob._id ∧ diary.userId ≠ bob._id) →
      deleteComment chatStore bob 9 thanks._id =
        (⟨403, .error "Not authorized to delete this comment"⟩, chatStore)) ∧
    ((thanks.userId = bob._id ∨ diary.userId = bob._id) →
      (deleteComment chatStore bob 9 thanks._id).1 =
        ⟨200, .message "Comment deleted successfully"⟩ ∧
      ∃ e2, JournalEntry.findById (deleteComment chatStore bob 9 thanks._id).2.entries 9 =
          some e2 ∧
        e2.comments = diary.comments.erase thanks ∧ thanks ∉ e2.comments) :=
  deleteComment_forbidden_iff chatStore bob 9 diary thanks (by decide) (by decide) (by decide)

/-- C14: a delete-comment answered 200 removes exactly one comment, the first
whose id is `commentId`: the old sequence is `pre ++ c :: post` with
`c._id = commentId` and no such id in `pre`, the stored sequence is
`pre ++ post` (the others unchanged and in order), one shorter. -/
theorem deleteComment_excises (s : Store) (u : User) (entryId commentId : ObjectId)
    (h200 : (deleteComment s u entryId commentId).1.status = 200) :
    ∃ e pre c post, JournalEntry.findById s.entries entryId = some e ∧
      e.comments = pre ++ c :: post ∧ c._id = commentId ∧
      (∀ x ∈ pre, x._id ≠ commentId) ∧
      JournalEntry.findById (deleteComment s u entryId commentId).2.entries entryId =
        some { e with comments := pre ++ post } ∧
      (pre ++ post).length + 1 = e.comments.length := by
  cases hf : JournalEntry.findById s.entries entryId with
  | none =>
    unfold deleteComment at h200
    simp [hf] at h200
  | some e =>
    cases hi : findIndex (fun x : Comment => x._id == commentId) e.comments with
    | none =>
      unfold deleteComment at h200
      simp [hf, hi] at h200
    | some i =>
      obtain ⟨pre, c, post, hsplit, _, hpc, hpre, _, _⟩ := findIndex_eq_some hi
      have hc : c._id = commentId := by simpa using hpc
      have hpre2 : ∀ x ∈ pre, x._id ≠ commentId := by
        intro x hx
        simpa using hpre x hx
      have hfound := deleteComment_found s u entryId commentId e pre post c hf hsplit hc hpre2
      have hid : e._id = entryId := JournalEntry.findById_id hf
      rw [hfound] at h200 ⊢
      by_cases hcond : c.userId ≠ u._id ∧ e.userId ≠ u._id
      · rw [if_pos hcond] at h200
        simp at h200
      · rw [if_neg hcond]
        refine ⟨e, pre, c, post, rfl, hsplit, hc, hpre2, ?_, ?_⟩
        · exact JournalEntry.findById_save hf hid
        · rw [hsplit]; simp; omega

theorem deleteComment_excises_witness :
    ∃ e pre c post, JournalEntry.findById chatStore.entries 9 = some e ∧
      e.comments = pre ++ c :: post ∧ c._id = 31 ∧
      (∀ x ∈ pre, x._id ≠ 31) ∧
      JournalEntry.findById (deleteComment chatStore bob 9 31).2.entries 9 =
        some { e with comments := pre ++ post } ∧
      (pre ++ post).length + 1 = e.comments.length :=
  deleteComment_excises chatStore bob 9 31 (by decide)

/-- C15: list-all answers 200 with the populated views of a permutation of the
stored entries (each stored entry exactly once, the ids of the views being a
permutation of the stored ids), ordered by timestamp from newest to oldest. -/
theorem getEntries_sorted (s : Store) (u : User) :
    ∃ sorted : List JournalEntry,
      getEntries s u = (⟨200, .entries (sorted.map (populate s.users))⟩, s) ∧
      sorted.Perm s.entries ∧
      ((sorted.map (populate s.users)).map (fun w => w._id)).Perm
        (s.entries.map (fun e => e._id)) ∧
      ((sorted.map (populate s.users)).map (fun w => w.timestamp)).Sorted (fun t1 t2 => t2 ≤ t1) := by
  refine ⟨s.entries.insertionSort newerFirst, rfl, List.perm_insertionSort _ _, ?_, ?_⟩
  · rw [List.map_map]
    exact (List.perm_insertionSort newerFirst s.entries).map _
  · rw [List.map_map]
    have hs := List.sorted_insertionSort newerFirst s.entries
    exact (List.pairwise_map.2 (hs.imp (fun h => h)))

/-- C16: on two stores that differ only in the password hashes of their users,
register, create-entry, list-all, like, add-comment, get-user, delete-entry and
delete-comment answer identically (status and whole body), and so does login
whenever it succeeds on both; the user object of a login response is the id,
username, display name and email of a stored user. The user objects of the
other responses are the records `UserInfo`, `AuthorRef`, `CommentAuthorRef`
and `Profile`, none of which has a password field. -/
theorem responses_independent_of_password (L : Libs) (a : Ambient) (ua : UploadAmbient)
    (s1 s2 : Store)
    (hU : s1.users.map User.withoutPassword = s2.users.map User.withoutPassword)
    (hE : s1.entries = s2.entries) :
    (∀ body, (postRegister L a s1 body).1 = (postRegister L a s2 body).1) ∧
    (∀ body, (postLogin L a s1 body).1.status = 200 → (postLogin L a s2 body).1.status = 200 →
      (postLogin L a s1 body).1 = (postLogin L a s2 body).1) ∧
    (∀ body msg token info, (postLogin L a s1 body).1.body = .session msg token info →
      ∃ v ∈ s1.users, info = ⟨v._id, v.username, v.displayName, v.email⟩) ∧
    (∀ hdr body file, (postEntriesRoute L a ua s1 hdr body file).1 =
      (postEntriesRoute L a ua s2 hdr body file).1) ∧
    (∀ hdr, (guarded L a s1 hdr (getEntries s1)).1 = (guarded L a s2 hdr (getEntries s2)).1) ∧
    (∀ hdr id, (guarded L a s1 hdr (fun u => postLike s1 u id)).1 =
      (guarded L a s2 hdr (fun u => postLike s2 u id)).1) ∧
    (∀ hdr id text, (guarded L a s1 hdr (fun u => postComment a s1 u id text)).1 =
      (guarded L a s2 hdr (fun u => postComment a s2 u id text)).1) ∧
    (∀ hdr, (guarded L a s1 hdr (getUser s1)).1 = (guarded L a s2 hdr (getUser s2)).1) ∧
    (∀ hdr id, (guarded L a s1 hdr (fun u => deleteEntry L a s1 u id)).1 =
      (guarded L a s2 hdr (fun u => deleteEntry L a s2 u id)).1) ∧
    (∀ hdr id cid, (guarded L a s1 hdr (fun u => deleteComment s1 u id cid)).1 =
      (guarded L a s2 hdr (fun u => deleteComment s2 u id cid)).1) := by
  refine ⟨postRegister_congr L a s1 s2 hU, postLogin_congr L a s1 s2 hU,
    postLogin_user_object L a s1, ?_, ?_, ?_, ?_, ?_, ?_, ?_⟩
  · intro hdr body file
    unfold postEntriesRoute
    apply guarded_congr L a s1 s2 hU
    intro u1 u2 hu
    unfold upload
    cases file with
    | none => exact postEntries_congr a s1 s2 hU hE u1 u2 hu body none
    | some f =>
      simp only []
      cases fileFilter f with
      | error err => rfl
      | ok b =>
        cases b with
        | false => exact postEntries_congr a s1 s2 hU hE u1 u2 hu body none
        | true =>
          by_cases hsize : fileSizeLimit ≤ f.size
          · simp only [hsize, if_true]
          · simp only [hsize, if_false]
            exact postEntries_congr a
              ⟨s1.users, s1.entries,
                s1.files ++ [L.pathJoin ua.cwd (js "/uploads/" ++ filename a ua f)]⟩
              ⟨s2.users, s2.entries,
                s2.files ++ [L.pathJoin ua.cwd (js "/uploads/" ++ filename a ua f)]⟩
              hU hE u1 u2 hu body _
  · intro hdr
    apply guarded_congr L a s1 s2 hU
    intro u1 u2 _
    unfold getEntries
    have : populate s1.users = populate s2.users := by
      funext e; exact populate_congr s1.users s2.users hU e
    simp only [hE, this]
  · intro hdr id
    apply guarded_congr L a s1 s2 hU
    intro u1 u2 hu
    unfold postLike
    simp only [hE, (withoutPassword_fields hu).1]
    cases JournalEntry.findById s2.entries id <;> rfl
  · intro hdr id text
    apply guarded_congr L a s1 s2 hU
    intro u1 u2 hu
    have : populateComment s1.users = populateComment s2.users := by
      funext c; exact populateComment_congr s1.users s2.users hU c
    unfold postComment
    simp only [hE, (withoutPassword_fields hu).1, this]
    split
    · rfl
    · cases JournalEntry.findById s2.entries id <;> rfl
  · intro hdr
    apply guarded_congr L a s1 s2 hU
    intro u1 u2 hu
    unfold getUser
    simp only [(withoutPassword_fields hu).1, (withoutPassword_fields hu).2.1,
      (withoutPassword_fields hu).2.2.1]
  · intro hdr id
    apply guarded_congr L a s1 s2 hU
    intro u1 u2 hu
    exact (delete_congr L a s1 s2 hE u1 u2 hu id 0).1
  · intro hdr id cid
    apply guarded_congr L a s1 s2 hU
    intro u1 u2 hu
    exact (delete_congr L a s1 s2 hE u1 u2 hu id cid).2

theorem responses_independent_of_password_witness :
    (∀ body, (postRegister demoLibs sampleAmbient sampleStore body).1 =
      (postRegister demoLibs sampleAmbient rehashedStore body).1) ∧
    (∀ body, (postLogin demoLibs sampleAmbient sampleStore body).1.status = 200 →
      (postLogin demoLibs sampleAmbient rehashedStore body).1.status = 200 →
      (postLogin demoLibs sampleAmbient sampleStore body).1 =
        (postLogin demoLibs sampleAmbient rehashedStore body).1) ∧
    (∀ body msg token info,
      (postLogin demoLibs sampleAmbient sampleStore body).1.body = .session msg token info →
      ∃ v ∈ sampleStore.users, info = ⟨v._id, v.username, v.displayName, v.email⟩) ∧
    (∀ hdr body file,
      (postEntriesRoute demoLibs sampleAmbient sampleUpload sampleStore hdr body file).1 =
        (postEntriesRoute demoLibs sampleAmbient sampleUpload rehashedStore hdr body file).1) ∧
    (∀ hdr, (guarded demoLibs sampleAmbient sampleStore hdr (getEntries sampleStore)).1 =
      (guarded demoLibs sampleAmbient rehashedStore hdr (getEntries rehashedStore)).1) ∧
    (∀ hdr id, (guarded demoLibs sampleAmbient sampleStore hdr
        (fun u => postLike sampleStore u id)).1 =
      (guarded demoLibs sampleAmbient rehashedStore hdr
        (fun u => postLike rehashedStore u id)).1) ∧
    (∀ hdr id text, (guarded demoLibs sampleAmbient sampleStore hdr
        (fun u => postComment sampleAmbient sampleStore u id text)).1 =
      (guarded demoLibs sampleAmbient rehashedStore hdr
        (fun u => postComment sampleAmbient rehashedStore u id text)).1) ∧
    (∀ hdr, (guarded demoLibs sampleAmbient sampleStore hdr (getUser sampleStore)).1 =
      (guarded demoLibs sampleAmbient rehashedStore hdr (getUser rehashedStore)).1) ∧
    (∀ hdr id, (guarded demoLibs sampleAmbient sampleStore hdr
        (fun u => deleteEntry demoLibs sampleAmbient sampleStore u id)).1 =
      (guarded demoLibs sampleAmbient rehashedStore hdr
        (fun u => deleteEntry demoLibs sampleAmbient rehashedStore u id)).1) ∧
    (∀ hdr id cid, (guarded demoLibs sampleAmbient sampleStore hdr
        (fun u => deleteComment sampleStore u id cid)).1 =
      (guarded demoLibs sampleAmbient rehashedStore hdr
        (fun u => deleteComment rehashedStore u id cid)).1) :=
  responses_independent_of_password demoLibs sampleAmbient sampleUpload sampleStore
    rehashedStore (by decide) (by decide)

/-- C17 (as stated, refuted): two stores with the same entries whose users
have the same ids and display names, differing in one username, give
different list-all results; the author object of the first entry listed holds
the username `bob` beside the id and the display name. -/
theorem getEntries_author_has_username :
    sampleStore.users.map (fun u => (u._id, u.displayName)) =
      renamedStore.users.map (fun u => (u._id, u.displayName)) ∧
    sampleStore.entries = renamedStore.entries ∧
    (getEntries sampleStore alice).1 ≠ (getEntries renamedStore alice).1 ∧
    ∃ w rest, (getEntries sampleStore alice).1 = ⟨200, .entries (w :: rest)⟩ ∧
      w.userId = some ⟨2, js "bob", js "Bob"⟩ := by
  refine ⟨by decide, by decide, by decide, _, _, rfl, by decide⟩

/-- C17 (amended): the list-all result depends on the users only through
their id, username and display name. It has one view for each stored entry,
and every view comes from a stored entry: when a user with the author's id is
stored, the author is resolved to the object holding the id, username and
display name of that user (absent only when no such user is stored); each of
its comments comes from a stored comment, whose author is resolved likewise to
the object holding the id and display name of the stored user, and nothing
else. -/
theorem getEntries_authors (s1 s2 : Store) (u1 u2 : User)
    (hU : s1.users.map User.card = s2.users.map User.card) (hE : s1.entries = s2.entries) :
    (getEntries s1 u1).1 = (getEntries s2 u2).1 ∧
    ∃ views, (getEntries s1 u1).1 = ⟨200, .entries views⟩ ∧
      views.length = s1.entries.length ∧
      ∀ w ∈ views, ∃ e ∈ s1.entries, w._id = e._id ∧
        ((∃ x ∈ s1.users, x._id = e.userId) →
          ∃ y ∈ s1.users, y._id = e.userId ∧
            w.userId = some ⟨y._id, y.username, y.displayName⟩) ∧
        ((∀ x ∈ s1.users, x._id ≠ e.userId) → w.userId = none) ∧
        w.comments.length = e.comments.length ∧
        ∀ cw ∈ w.comments, ∃ c ∈ e.comments, cw._id = c._id ∧
          ((∃ x ∈ s1.users, x._id = c.userId) →
            ∃ y ∈ s1.users, y._id = c.userId ∧ cw.userId = some ⟨y._id, y.displayName⟩) ∧
          ((∀ x ∈ s1.users, x._id ≠ c.userId) → cw.userId = none) := by
  constructor
  · unfold getEntries
    have : populate s1.users = populate s2.users := by
      funext e; exact populate_of_card s1.users s2.users hU e
    simp only [hE, this]
  · refine ⟨_, rfl, by simp [List.length_insertionSort], ?_⟩
    intro w hw
    obtain ⟨e, he, rfl⟩ := List.mem_map.1 hw
    have he2 : e ∈ s1.entries := (List.perm_insertionSort newerFirst _).mem_iff.1 he
    refine ⟨e, he2, rfl, ?_, ?_, by simp [populate], ?_⟩
    · rintro ⟨x, hx, hxid⟩
      rcases User.findById_cases s1.users e.userId with ⟨y, hy, hyid, hf⟩ | ⟨hno, _⟩
      · exact ⟨y, hy, hyid, by simp [populate, hf]⟩
      · exact absurd hxid (hno x hx)
    · intro hno
      rcases User.findById_cases s1.users e.userId with ⟨y, hy, hyid, _⟩ | ⟨_, hf⟩
      · exact absurd hyid (hno y hy)
      · simp [populate, hf]
    · intro cw hcw
      simp only [populate, List.mem_map] at hcw
      obtain ⟨c, hc, rfl⟩ := hcw
      refine ⟨c, hc, rfl, ?_, ?_⟩
      · rintro ⟨x, hx, hxid⟩
        rcases User.findById_cases s1.users c.userId with ⟨y, hy, hyid, hf⟩ | ⟨hno, _⟩
        · exact ⟨y, hy, hyid, by simp [populateComment, hf]⟩
        · exact absurd hxid (hno x hx)
      · intro hno
        rcases User.findById_cases s1.users c.userId with ⟨y, hy, hyid, _⟩ | ⟨_, hf⟩
        · exact absurd hyid (hno y hy)
        · simp [populateComment, hf]

theorem getEntries_authors_witness :
    (getEntries sampleStore alice).1 = (getEntries rehashedStore bob).1 ∧
    ∃ views, (getEntries sampleStore alice).1 = ⟨200, .entries views⟩ ∧
      views.length = sampleStore.entries.length ∧
      ∀ w ∈ views, ∃ e ∈ sampleStore.entries, w._id = e._id ∧
        ((∃ x ∈ sampleStore.users, x._id = e.userId) →
          ∃ y ∈ sampleStore.users, y._id = e.userId ∧
            w.userId = some ⟨y._id, y.username, y.displayName⟩) ∧
        ((∀ x ∈ sampleStore.users, x._id ≠ e.userId) → w.userId = none) ∧
        w.comments.length = e.comments.length ∧
        ∀ cw ∈ w.comments, ∃ c ∈ e.comments, cw._id = c._id ∧
          ((∃ x ∈ sampleStore.users, x._id = c.userId) →
            ∃ y ∈ sampleStore.users, y._id = c.userId ∧
              cw.userId = some ⟨y._id, y.displayName⟩) ∧
          ((∀ x ∈ sampleStore.users, x._id ≠ c.userId) → cw.userId = none) :=
  getEntries_authors sampleStore rehashedStore alice bob (by decide) (by decide)

/-- C18: the upload filter accepts a file exactly when its MIME type starts
with `image/`, `video/` or `audio/`, and otherwise rejects it with the error
`Only images, videos, and audio files are allowed!`; a file of type
`application/pdf` is rejected by the filter, and by the upload middleware,
whatever its name and size. -/
theorem fileFilter_accepts_iff (f : UploadedFile) :
    (fileFilter f = .ok true ↔
      (js "image/" <+: f.mimetype ∨ js "video/" <+: f.mimetype ∨ js "audio/" <+: f.mimetype)) ∧
    (fileFilter f = .ok true ∨
      fileFilter f = .error ⟨false, none, "Only images, videos, and audio files are allowed!"⟩) ∧
    (∀ (name : JSString) (size : Nat),
      fileFilter ⟨name, js "application/pdf", size⟩ =
        .error ⟨false, none, "Only images, videos, and audio files are allowed!"⟩) ∧
    (∀ (L : Libs) (a : Ambient) (ua : UploadAmbient) (s : Store) (name : JSString) (size : Nat),
      upload L a ua s (some ⟨name, js "application/pdf", size⟩) =
        .error ⟨false, none, "Only images, videos, and audio files are allowed!"⟩) := by
  have hpdf : ∀ (name : JSString) (size : Nat),
      fileFilter ⟨name, js "application/pdf", size⟩ =
        .error ⟨false, none, "Only images, videos, and audio files are allowed!"⟩ := by
    intro name size
    have h1 : startsWith (js "application/pdf") (js "image/") = false := by decide
    have h2 : startsWith (js "application/pdf") (js "video/") = false := by decide
    have h3 : startsWith (js "application/pdf") (js "audio/") = false := by decide
    simp [fileFilter, h1, h2, h3]
  refine ⟨?_, ?_, hpdf, ?_⟩
  · unfold fileFilter startsWith
    simp only [← List.isPrefixOf_iff_prefix]
    split
    · rename_i h
      simp only [Bool.or_eq_true] at h
      simp only [true_iff]
      rcases h with (h | h) | h
      · exact Or.inl h
      · exact Or.inr (Or.inl h)
      · exact Or.inr (Or.inr h)
    · rename_i h
      simp only [Bool.or_eq_true, not_or] at h
      constructor
      · intro hh; cases hh
      · rintro (h1 | h1 | h1)
        · exact absurd h1 h.1.1
        · exact absurd h1 h.1.2
        · exact absurd h1 h.2
  · unfold fileFilter
    split
    · exact Or.inl rfl
    · exact Or.inr rfl
  · intro L a ua s name size
    unfold upload
    simp only [hpdf]

/-- C19: three requests rejected for a validation reason are answered 500,
not 4xx: a text entry with empty content and an entry of a type outside the
enum sent with an image file (both fail the schema validators inside `save()`
and reach the catch-all of the handler, which sends the message of the thrown
error), and an upload of type `application/pdf` (the error of the filter
reaches the error middleware, which answers 400 only for the size limit, as
the last request shows). -/
theorem validation_rejected_with_500 :
    postEntriesRoute demoLibs sampleAmbient sampleUpload sampleStore aliceHeader
        ⟨some (js "text"), some (js "")⟩ none =
      (⟨500, .thrown .validation⟩, sampleStore) ∧
    (postEntriesRoute demoLibs sampleAmbient sampleUpload sampleStore aliceHeader
        ⟨some (js "poem"), none⟩ (some ⟨js "a.jpg", js "image/jpeg", 10⟩)).1 =
      ⟨500, .thrown .validation⟩ ∧
    postEntriesRoute demoLibs sampleAmbient sampleUpload sampleStore aliceHeader
        ⟨some (js "image"), none⟩ (some ⟨js "a.pdf", js "application/pdf", 10⟩) =
      (⟨500, .error "Only images, videos, and audio files are allowed!"⟩, sampleStore) ∧
    postEntriesRoute demoLibs sampleAmbient sampleUpload sampleStore aliceHeader
        ⟨some (js "image"), none⟩ (some ⟨js "a.jpg", js "image/jpeg", 20971520⟩) =
      (⟨400, .error "File too large"⟩, sampleStore) := by
  decide

/-- C20: `limits.fileSize` is 20 * 1024 * 1024 = 20971520; the error
middleware answers 400 `File too large` for a `MulterError` whose code is
`LIMIT_FILE_SIZE` and 500 with the message of the error for every other error;
an accepted file whose size reaches the limit raises that `MulterError`, a
smaller file is stored. -/
theorem errorMiddleware_file_too_large :
    fileSizeLimit = 20971520 ∧
    (∀ err : JSError,
      (errorMiddleware err = ⟨400, .error "File too large"⟩ ∧
        err.isMulterError = true ∧ err.code = some "LIMIT_FILE_SIZE") ∨
      (errorMiddleware err = ⟨500, .error err.message⟩ ∧
        ¬ (err.isMulterError = true ∧ err.code = some "LIMIT_FILE_SIZE"))) ∧
    (∀ (L : Libs) (a : Ambient) (ua : UploadAmbient) (s : Store) (f : UploadedFile),
      fileFilter f = .ok true →
      ((20971520 ≤ f.size ∧
          upload L a ua s (some f) = .error ⟨true, some "LIMIT_FILE_SIZE", "File too large"⟩ ∧
          errorMiddleware ⟨true, some "LIMIT_FILE_SIZE", "File too large"⟩ =
            ⟨400, .error "File too large"⟩) ∨
        (f.size < 20971520 ∧
          upload L a ua s (some f) =
            .ok (some ⟨filename a ua f⟩,
              ⟨s.users, s.entries,
                s.files ++ [L.pathJoin ua.cwd (js "/uploads/" ++ filename a ua f)]⟩)))) := by
  refine ⟨by decide, ?_, ?_⟩
  · intro err
    unfold errorMiddleware
    by_cases h : err.isMulterError = true ∧ err.code = some "LIMIT_FILE_SIZE"
    · left
      simp [h.1, h.2]
    · right
      refine ⟨?_, h⟩
      have : (err.isMulterError && err.code == some "LIMIT_FILE_SIZE") = false := by
        cases hm : err.isMulterError with
        | false => simp
        | true =>
          have hc : err.code ≠ some "LIMIT_FILE_SIZE" := fun hc => h ⟨hm, hc⟩
          simpa using hc
      simp [this]
  · intro L a ua s f hf
    have hlim : fileSizeLimit = 20971520 := by decide
    unfold upload
    simp only [hf, hlim]
    by_cases hs : 20971520 ≤ f.size
    · left
      refine ⟨hs, by simp [hs], by decide⟩
    · right
      exact ⟨Nat.lt_of_not_le hs, by simp [hs]⟩

/-- C21 (counterexample): a create-entry request of type `text` that carries a
file is answered 201 and stores the path of the upload, not the content sent:
the branch `if (req.file)` replaces the content whatever the type. -/
theorem createEntry_text_with_file :
    (postEntriesRoute demoLibs sampleAmbient sampleUpload sampleStore aliceHeader
      ⟨some (js "text"), some (js "hello")⟩ (some ⟨js "a.jpg", js "image/jpeg", 10⟩)).1.status
        = 201 ∧
    (postEntriesRoute demoLibs sampleAmbient sampleUpload sampleStore aliceHeader
      ⟨some (js "text"), some (js "hello")⟩ (some ⟨js "a.jpg", js "image/jpeg", 10⟩)).2.entries
        = sampleStore.entries ++
          [⟨9, 1, js "text", js "/uploads/5000-42.jpg", 5000, [], []⟩] ∧
    js "/uploads/5000-42.jpg" ≠ js "hello" := by
  decide

/-- C21 (amended): a create-entry request answered 201 appends one entry of the
requested type, one of the four entry types. Without a file the type is `text`
and the stored content is the content sent; with a file, whatever the type, the
stored content is `/uploads/` followed by the stored file name, and that file
is in the upload directory; an entry of type image, video or voice always
comes with a file. -/
theorem createEntry_content (L : Libs) (a : Ambient) (ua : UploadAmbient) (s : Store)
    (hdr : Option JSString) (body : EntryBody) (file : Option UploadedFile)
    (h : (postEntriesRoute L a ua s hdr body file).1.status = 201) :
    ∃ e : JournalEntry,
      (postEntriesRoute L a ua s hdr body file).2.entries = s.entries ++ [e] ∧
      body.type = some e.type ∧ e.type ∈ entryTypes ∧
      (file = none → e.type = js "text" ∧ body.content = some e.content) ∧
      (∀ f, file = some f → e.content = js "/uploads/" ++ filename a ua f ∧
        L.pathJoin ua.cwd e.content ∈ (postEntriesRoute L a ua s hdr body file).2.files) ∧
      (e.type ≠ js "text" → ∃ f, file = some f ∧
        e.content = js "/uploads/" ++ filename a ua f) := by
  obtain ⟨u, stored, s2, _, hup, hroute, h2⟩ := postEntriesRoute_created L a ua s hdr body file h
  obtain ⟨t, c, ht, hty, _, hfile, hnone, _, hpost⟩ := postEntries_created a s2 u body stored h2
  rw [hroute, hpost]
  rcases upload_cases L a ua s file with ⟨err, he⟩ | ⟨hf, he⟩ | ⟨f, hf, _, _, he⟩
  · rw [he] at hup; cases hup
  · rw [he] at hup
    cases hup
    refine ⟨⟨a.newId, u._id, t, c, a.now, [], []⟩, rfl, ht, hty, ?_, ?_, ?_⟩
    · intro _
      exact ⟨(hnone rfl).2, (hnone rfl).1⟩
    · intro f hf2; rw [hf] at hf2; cases hf2
    · intro hne
      exact absurd (hnone rfl).2 hne
  · rw [he] at hup
    cases hup
    have hc : c = js "/uploads/" ++ filename a ua f := hfile ⟨filename a ua f⟩ rfl
    refine ⟨⟨a.newId, u._id, t, c, a.now, [], []⟩, rfl, ht, hty, ?_, ?_, ?_⟩
    · intro hn; rw [hf] at hn; cases hn
    · intro f2 hf2
      rw [hf] at hf2; cases hf2
      refine ⟨hc, ?_⟩
      show L.pathJoin ua.cwd c ∈
        s.files ++ [L.pathJoin ua.cwd (js "/uploads/" ++ filename a ua f)]
      rw [hc]; simp
    · intro _
      exact ⟨f, hf, hc⟩

theorem createEntry_content_witness :
    (postEntriesRoute demoLibs sampleAmbient sampleUpload sampleStore aliceHeader
        ⟨some (js "text"), some (js "hello")⟩ none).1.status = 201 ∧
    ∃ e : JournalEntry,
      (postEntriesRoute demoLibs sampleAmbient sampleUpload sampleStore aliceHeader
        ⟨some (js "text"), some (js "hello")⟩ none).2.entries = sampleStore.entries ++ [e] ∧
      (some (js "text") : Option JSString) = some e.type ∧ e.type ∈ entryTypes ∧
      ((none : Option UploadedFile) = none →
        e.type = js "text" ∧ (some (js "hello") : Option JSString) = some e.content) ∧
      (∀ f, (none : Option UploadedFile) = some f →
        e.content = js "/uploads/" ++ filename sampleAmbient sampleUpload f ∧
        demoLibs.pathJoin sampleUpload.cwd e.content ∈
          (postEntriesRoute demoLibs sampleAmbient sampleUpload sampleStore aliceHeader
        ⟨some (js "text"), some (js "hello")⟩ none).2.files) ∧
      (e.type ≠ js "text" → ∃ f, (none : Option UploadedFile) = some f ∧
        e.content = js "/uploads/" ++ filename sampleAmbient sampleUpload f) :=
  ⟨by decide,
    createEntry_content demoLibs sampleAmbient sampleUpload sampleStore aliceHeader
      ⟨some (js "text"), some (js "hello")⟩ none (by decide)⟩

/-- C22: a create-entry request answered 201 appends one entry whose author is
the user the token authenticates (the body has no author field), whose type is
the requested type and whose likes and comments are empty; the response shows
that entry, with empty likes and comments. -/
theorem createEntry_fields (L : Libs) (a : Ambient) (ua : UploadAmbient) (s : Store)
    (hdr : Option JSString) (body : EntryBody) (file : Option UploadedFile)
    (h : (postEntriesRoute L a ua s hdr body file).1.status = 201) :
    ∃ (u : User) (e : JournalEntry), auth L a s hdr = .next u ∧
      (postEntriesRoute L a ua s hdr body file).2.entries = s.entries ++ [e] ∧
      e.userId = u._id ∧ body.type = some e.type ∧ e.likes = [] ∧ e.comments = [] ∧
      (postEntriesRoute L a ua s hdr body file).1.body = .created
        ⟨e._id, (User.findById s.users u._id).map (fun x => ⟨x._id, x.username, x.displayName⟩),
          e.type, e.content, e.timestamp, [], []⟩ := by
  obtain ⟨u, stored, s2, hauth, hup, hroute, h2⟩ :=
    postEntriesRoute_created L a ua s hdr body file h
  obtain ⟨t, c, ht, _, _, _, _, _, hpost⟩ := postEntries_created a s2 u body stored h2
  have hs2 : s2.users = s.users ∧ s2.entries = s.entries := by
    rcases upload_cases L a ua s file with ⟨err, he⟩ | ⟨_, he⟩ | ⟨f, _, _, _, he⟩
    · rw [he] at hup; cases hup
    · rw [he] at hup; cases hup; exact ⟨rfl, rfl⟩
    · rw [he] at hup; cases hup; exact ⟨rfl, rfl⟩
  rw [hroute, hpost]
  refine ⟨u, ⟨a.newId, u._id, t, c, a.now, [], []⟩, hauth, ?_, rfl, ht, rfl, rfl, ?_⟩
  · show s2.entries ++ _ = s.entries ++ _
    rw [hs2.2]
  · show Body.created _ = Body.created _
    rw [hs2.1]

theorem createEntry_fields_witness :
    (postEntriesRoute demoLibs sampleAmbient sampleUpload sampleStore aliceHeader
        ⟨some (js "image"), none⟩ (some ⟨js "a.jpg", js "image/jpeg", 10⟩)).1.status = 201 ∧
    ∃ (u : User) (e : JournalEntry), auth demoLibs sampleAmbient sampleStore aliceHeader = .next u ∧
      (postEntriesRoute demoLibs sampleAmbient sampleUpload sampleStore aliceHeader
        ⟨some (js "image"), none⟩ (some ⟨js "a.jpg", js "image/jpeg", 10⟩)).2.entries = sampleStore.entries ++ [e] ∧
      e.userId = u._id ∧ (some (js "image") : Option JSString) = some e.type ∧
      e.likes = [] ∧ e.comments = [] ∧
      (postEntriesRoute demoLibs sampleAmbient sampleUpload sampleStore aliceHeader
        ⟨some (js "image"), none⟩ (some ⟨js "a.jpg", js "image/jpeg", 10⟩)).1.body = .created
        ⟨e._id,
          (User.findById sampleStore.users u._id).map (fun x => ⟨x._id, x.username, x.displayName⟩),
          e.type, e.content, e.timestamp, [], []⟩ :=
  ⟨by decide,
    createEntry_fields demoLibs sampleAmbient sampleUpload sampleStore aliceHeader
      ⟨some (js "image"), none⟩ (some ⟨js "a.jpg", js "image/jpeg", 10⟩) (by decide)⟩

/-- C23: after any sequence of requests to the API from the empty store
(registrations and logins included, besides create-entry, like, add-comment,
delete-comment and delete-entry, with any tokens and any arguments), no user
id occurs twice in the likes of an entry. -/
theorem likes_nodup_reachable (L : Libs) (requests : List Request) :
    ∀ e ∈ (run L emptyStore requests).entries, e.likes.Nodup :=
  run_induction L (fun s => ∀ e ∈ s.entries, e.likes.Nodup) (handle_likes_nodup L)
    requests emptyStore (by intro e he; cases he)

theorem likes_nodup_reachable_witness :
    (⟨10, 1, js "image", js "/uploads/5000-42.jpg", 5000, [1], []⟩ : JournalEntry) ∈
      (run demoLibs emptyStore likingRun).entries ∧
    (⟨10, 1, js "image", js "/uploads/5000-42.jpg", 5000, [1], []⟩ : JournalEntry).likes.Nodup :=
  ⟨by decide, likes_nodup_reachable demoLibs likingRun _ (by decide)⟩

/-- C24 (counterexample): two uploads that draw the same file name (same
millisecond, same random number) share one file; after the first entry is
deleted the second entry, of type image, names a file that is no longer in
the upload directory. -/
theorem file_lost_after_name_collision :
    ∃ e ∈ (run demoLibs emptyStore collidingRun).entries, e.type ≠ js "text" ∧
      demoLibs.pathJoin (js "/srv") e.content ∉ (run demoLibs emptyStore collidingRun).files := by
  decide

/-- C24 (amended): when the server runs in its own directory `root` (uploads
are written under `root`, delete-entry resolves paths against `root`) and no
upload draws the name of a file already present, then after any sequence of
requests from the empty store and empty upload directory every entry whose
type is not `text` names a file present in the upload directory, and every
further such request, create-entry and delete-entry included, preserves this. -/
theorem files_present_reachable (L : Libs) (root : JSString) (requests : List Request)
    (hadm : admissibleRun L root emptyStore requests = true) :
    (∀ e ∈ (run L emptyStore requests).entries, e.type ≠ js "text" →
      L.pathJoin root e.content ∈ (run L emptyStore requests).files) ∧
    (∀ r, admissible L root (run L emptyStore requests) r = true →
      ∀ e ∈ (handle L (run L emptyStore requests) r).2.entries, e.type ≠ js "text" →
        L.pathJoin root e.content ∈ (handle L (run L emptyStore requests) r).2.files) := by
  have hempty : FilesKept L root emptyStore := by
    constructor
    · intro p hp
      simp [fileKeys, emptyStore] at hp
    · simp [fileKeys, emptyStore]
  have hrun := run_FilesKept L root requests emptyStore hempty hadm
  have hread : ∀ s : Store, FilesKept L root s →
      ∀ e ∈ s.entries, e.type ≠ js "text" → L.pathJoin root e.content ∈ s.files := by
    intro s hs e he ht
    apply hs.1
    unfold fileKeys
    exact List.mem_map.2 ⟨e, he, by simp [backingFile, ht]⟩
  exact ⟨hread _ hrun, fun r hr => hread _ (handle_FilesKept L root _ r hr hrun)⟩

theorem files_present_reachable_witness :
    admissibleRun demoLibs (js "/srv") emptyStore distinctRun = true ∧
    (∀ e ∈ (run demoLibs emptyStore distinctRun).entries, e.type ≠ js "text" →
      demoLibs.pathJoin (js "/srv") e.content ∈ (run demoLibs emptyStore distinctRun).files) ∧
    (∀ r, admissible demoLibs (js "/srv") (run demoLibs emptyStore distinctRun) r = true →
      ∀ e ∈ (handle demoLibs (run demoLibs emptyStore distinctRun) r).2.entries,
        e.type ≠ js "text" →
        demoLibs.pathJoin (js "/srv") e.content ∈
          (handle demoLibs (run demoLibs emptyStore distinctRun) r).2.files) :=
  ⟨by decide, files_present_reachable demoLibs (js "/srv") distinctRun (by decide)⟩

/-- C25: when a call of the journal screen is rejected with status 401 (load
entries, add text entry, add media entry, delete entry, delete comment, like,
submit comment; the two guarded handlers under the condition that makes them
call the server), the client ends logged out and on the Login route: the
stored token and user data are removed, the default `Authorization` header is
cleared, `user` and `token` are null, and the route shown is `Login`
(`navigation.reset` for delete entry, `navigation.replace` for the others). -/
theorem unauthorized_logs_out (c : Client) (type : JSString) :
    fetchEntries c (.error (some 401)) =
      { navigationReplace "Login" (logout c) with isLoading := false } ∧
    (trim c.newText ≠ [] →
      ∀ reload, addTextEntry c (.error (some 401)) reload = navigationReplace "Login" (logout c)) ∧
    (∀ reload, addMediaEntry c type (.error (some 401)) reload =
      navigationReplace "Login" (logout c)) ∧
    (∀ reload, deleteEntryPressed c (.error (some 401)) reload =
      navigationReset "Login" (logout c)) ∧
    (∀ reload, deleteCommentPressed c (.error (some 401)) reload =
      navigationReplace "Login" (logout c)) ∧
    (∀ reload, handleLike c (.error (some 401)) reload = navigationReplace "Login" (logout c)) ∧
    (trim c.newComment ≠ [] → c.selectedEntry.isSome = true →
      ∀ reload, submitComment c (.error (some 401)) reload =
        navigationReplace "Login" (logout c)) ∧
    (∀ c2 : Client, c2 = navigationReplace "Login" (logout c) ∨
        c2 = navigationReset "Login" (logout c) ∨
        c2 = { navigationReplace "Login" (logout c) with isLoading := false } →
      c2.userToken = none ∧ c2.userData = none ∧ c2.authorization = none ∧
      c2.user = none ∧ c2.token = none ∧ c2.routes.getLast? = some "Login") := by
  refine ⟨?_, ?_, ?_, ?_, ?_, ?_, ?_, ?_⟩
  · simp [fetchEntries, navigationReplace, logout]
  · intro h reload
    simp [addTextEntry, h]
  · intro reload; simp [addMediaEntry]
  · intro reload; simp [deleteEntryPressed]
  · intro reload; simp [deleteCommentPressed]
  · intro reload; simp [handleLike]
  · intro h1 h2 reload
    have h3 : c.selectedEntry.isNone = false := by
      cases hc : c.selectedEntry with
      | none => rw [hc] at h2; cases h2
      | some x => rfl
    simp [submitComment, h1, h3]
  · intro c2 hc2
    rcases hc2 with h | h | h <;> subst h <;>
      simp [navigationReplace, navigationReset, logout]

theorem unauthorized_logs_out_witness :
    addTextEntry sampleClient (.error (some 401)) (.ok []) =
      navigationReplace "Login" (logout sampleClient) ∧
    submitComment sampleClient (.error (some 401)) (.ok []) =
      navigationReplace "Login" (logout sampleClient) ∧
    (navigationReplace "Login" (logout sampleClient)).routes = ["Login"] :=
  ⟨(unauthorized_logs_out sampleClient (js "image")).2.1 (by decide) (.ok []),
    (unauthorized_logs_out sampleClient (js "image")).2.2.2.2.2.2.1 (by decide) (by decide)
      (.ok []),
    by decide⟩

/-- C26: after two registrations answered 201 from the empty store (`bob`
with the email `alice`, then a user named `alice`), two users match the login
identifier `alice`: one by email, one by username. Registration compares a
new username with the stored usernames only. -/
theorem identifier_matches_two_users :
    (postRegister demoLibs (ambientAt 1) emptyStore
      ⟨some (js "bob"), some (js "hunter22"), some (js "Bob"), some (js "alice")⟩).1.status = 201 ∧
    (postRegister demoLibs (ambientAt 2) shadowStore
      ⟨some (js "alice"), some (js "secret1"), some (js "Alice"), none⟩).1.status = 201 ∧
    ((postRegister demoLibs (ambientAt 2) shadowStore
      ⟨some (js "alice"), some (js "secret1"), some (js "Alice"), none⟩).2.users.filter
        (fun u => u.username == js "alice" || u.email == some (js "alice"))).map
          (fun u => (u._id, u.username, u.email)) =
      [(1, js "bob", some (js "alice")), (2, js "alice", none)] := by
  decide

/-- C27: like, add-comment and delete-comment either leave the store as it is
or replace, in the first entry with the addressed id, the likes (like) or the
comments (add-comment, delete-comment) and nothing else: the other fields of
that entry, the other entries, the users and the files are the same; and with
any status other than 200 (400, 403, 404) the store is unchanged. -/
theorem handlers_frame (a : Ambient) (s : Store) (u : User) (id commentId : ObjectId)
    (text : Option JSString) :
    ((postLike s u id).2 = s ∨
      ∃ pre e post likes, s.entries = pre ++ e :: post ∧ e._id = id ∧
        (∀ x ∈ pre, x._id ≠ id) ∧
        (postLike s u id).2 = ⟨s.users, pre ++ { e with likes := likes } :: post, s.files⟩) ∧
    ((postComment a s u id text).2 = s ∨
      ∃ pre e post comments, s.entries = pre ++ e :: post ∧ e._id = id ∧
        (∀ x ∈ pre, x._id ≠ id) ∧
        (postComment a s u id text).2 =
          ⟨s.users, pre ++ { e with comments := comments } :: post, s.files⟩) ∧
    ((deleteComment s u id commentId).2 = s ∨
      ∃ pre e post comments, s.entries = pre ++ e :: post ∧ e._id = id ∧
        (∀ x ∈ pre, x._id ≠ id) ∧
        (deleteComment s u id commentId).2 =
          ⟨s.users, pre ++ { e with comments := comments } :: post, s.files⟩) ∧
    ((postLike s u id).1.status ≠ 200 → (postLike s u id).2 = s) ∧
    ((postComment a s u id text).1.status ≠ 200 → (postComment a s u id text).2 = s) ∧
    ((deleteComment s u id commentId).1.status ≠ 200 →
      (deleteComment s u id commentId).2 = s) := by
  refine ⟨?_, ?_, ?_, ?_, ?_, ?_⟩
  · rcases postLike_store s u id with ⟨_, h⟩ | ⟨pre, e, post, h1, h2, h3, _, h4⟩
    · exact Or.inl h
    · exact Or.inr ⟨pre, e, post, _, h1, h2, h3, h4⟩
  · rcases postComment_store a s u id text with ⟨_, h⟩ | ⟨pre, e, post, c, h1, h2, h3, _, h4⟩
    · exact Or.inl h
    · exact Or.inr ⟨pre, e, post, c, h1, h2, h3, h4⟩
  · rcases deleteComment_store s u id commentId with
      ⟨_, h⟩ | ⟨pre, e, post, c, h1, h2, h3, _, h4⟩
    · exact Or.inl h
    · exact Or.inr ⟨pre, e, post, c, h1, h2, h3, h4⟩
  · intro hne
    rcases postLike_store s u id with ⟨_, h⟩ | ⟨_, _, _, _, _, _, h200, _⟩
    · exact h
    · exact absurd h200 hne
  · intro hne
    rcases postComment_store a s u id text with ⟨_, h⟩ | ⟨_, _, _, _, _, _, _, h200, _⟩
    · exact h
    · exact absurd h200 hne
  · intro hne
    rcases deleteComment_store s u id commentId with ⟨_, h⟩ | ⟨_, _, _, _, _, _, _, h200, _⟩
    · exact h
    · exact absurd h200 hne

/-- C28: removing the first `Bearer ` from `Bearer ` followed by `t` leaves
exactly `t`, whatever `t` contains; the guard then rejects with 401
`Access denied. No token provided.` when `t` is empty and verifies `t`
otherwise; any header whose extracted token is empty, and a missing header,
get that 401 whatever `jwt.verify` would answer. -/
theorem auth_extracts_token :
    (∀ t : JSString, replace (js "Bearer ") [] (js "Bearer " ++ t) = t) ∧
    (∀ (L : Libs) (a : Ambient) (s : Store) (t : JSString),
      auth L a s (some (js "Bearer " ++ t)) =
        if t = [] then .respond ⟨401, .error "Access denied. No token provided."⟩
        else
          match L.verify t a.now with
          | none => .respond ⟨401, .error "Please authenticate."⟩
          | some userId =>
            match User.findById s.users userId with
            | none => .respond ⟨401, .error "Token is not valid."⟩
            | some user =>
              if user.isActive then .next user
              else .respond ⟨401, .error "Token is not valid."⟩) ∧
    (∀ (L : Libs) (a : Ambient) (s : Store) (header : JSString),
      replace (js "Bearer ") [] header = [] →
      auth L a s (some header) = .respond ⟨401, .error "Access denied. No token provided."⟩) ∧
    (∀ (L : Libs) (a : Ambient) (s : Store),
      auth L a s none = .respond ⟨401, .error "Access denied. No token provided."⟩) := by
  have hrep : ∀ t : JSString, replace (js "Bearer ") [] (js "Bearer " ++ t) = t := by
    intro t
    rw [replace_append_self _ _ _ (by decide)]
    rfl
  refine ⟨hrep, ?_, ?_, ?_⟩
  · intro L a s t
    unfold auth
    simp only [Option.map_some', hrep]
    cases t with
    | nil => simp [truthy]
    | cons c cs =>
      simp only [truthy, Bool.not_true, Bool.false_eq_true, if_false, Option.getD_some]
      cases hv : L.verify (c :: cs) a.now with
      | none => simp
      | some userId =>
        cases hf : User.findById s.users userId with
        | none => simp [hf]
        | some user => cases hact : user.isActive <;> simp [hf, hact]
  · intro L a s header h
    unfold auth
    simp [h, truthy]
  · intro L a s
    unfold auth
    simp [truthy]

/-- C29: the file part that `addMediaEntry` builds is accepted by the upload
filter for every entry type; its MIME type is `image/jpeg` for image,
`video/mp4` for video and `audio/m4a` for voice; the upload middleware then
only depends on the size: `LIMIT_FILE_SIZE` when it reaches the limit, else
stored, so the answer is never the 500 of the filter. -/
theorem client_media_accepted (type : JSString) (now : Date) (size : Nat) :
    fileFilter (mediaFile type now size) = .ok true ∧
    (mediaFile (js "image") now size).mimetype = js "image/jpeg" ∧
    (mediaFile (js "video") now size).mimetype = js "video/mp4" ∧
    (mediaFile (js "voice") now size).mimetype = js "audio/m4a" ∧
    (∀ (L : Libs) (a : Ambient) (ua : UploadAmbient) (s : Store),
      upload L a ua s (some (mediaFile type now size)) =
        if fileSizeLimit ≤ size then .error ⟨true, some "LIMIT_FILE_SIZE", "File too large"⟩
        else .ok (some ⟨filename a ua (mediaFile type now size)⟩,
          ⟨s.users, s.entries, s.files ++
            [L.pathJoin ua.cwd (js "/uploads/" ++ filename a ua (mediaFile type now size))]⟩)) := by
  refine ⟨fileFilter_mediaFile type now size, ?_, ?_, ?_, ?_⟩
  · simp [mediaFile]
  · have h : js "video" ≠ js "image" := by decide
    simp [mediaFile, h]
  · have h1 : js "voice" ≠ js "image" := by decide
    have h2 : js "voice" ≠ js "video" := by decide
    simp [mediaFile, h1, h2]
  · intro L a ua s
    unfold upload
    simp only [fileFilter_mediaFile]
    rfl

/-- C30: for every whole number of milliseconds `ms` below 2^53 (the integers
JavaScript represents exactly), `formatTime ms` is the decimal writing of `m`,
a colon, and the two decimal digits of `ss`, where `ss` is below 60 and
`60 * m + ss` is `ms / 1000` rounded down; `formatTime 65000` is `1:05` and
`formatTime 0` is `0:00`. -/
theorem formatTime_spec (ms : Nat) (hms : ms < 2 ^ 53) :
    (∃ m ss, ss < 60 ∧ 60 * m + ss = ms / 1000 ∧
      formatTime ms = some (decimal m ++ js ":" ++ [48 + ss / 10, 48 + ss % 10]) ∧
      48 + ss / 10 ≤ 53 ∧ 48 + ss % 10 ≤ 57) ∧
    formatTime 65000 = some (js "1:05") ∧ formatTime 0 = some (js "0:00") := by
  refine ⟨⟨ms / 1000 / 60, ms / 1000 % 60, Nat.mod_lt _ (by decide), ?_, ?_, ?_, ?_⟩,
    by decide, by decide⟩
  · exact Nat.div_add_mod (ms / 1000) 60
  · unfold formatTime
    simp only [hms, if_true, List.append_assoc]
    rw [padded_seconds (ms / 1000 % 60) (Nat.mod_lt _ (by decide))]
  · have : ms / 1000 % 60 < 60 := Nat.mod_lt _ (by decide)
    omega
  · have : ms / 1000 % 60 % 10 < 10 := Nat.mod_lt _ (by decide)
    omega

theorem formatTime_spec_witness :
    (125999 : Nat) < 2 ^ 53 ∧
    (∃ m ss, ss < 60 ∧ 60 * m + ss = 125999 / 1000 ∧
      formatTime 125999 = some (decimal m ++ js ":" ++ [48 + ss / 10, 48 + ss % 10]) ∧
      48 + ss / 10 ≤ 53 ∧ 48 + ss % 10 ≤ 57) ∧
    formatTime 65000 = some (js "1:05") ∧ formatTime 0 = some (js "0:00") :=
  ⟨by decide, formatTime_spec 125999 (by decide)⟩

end BavJournal
